import Mathlib

/-!
# Sparky rover server: Firmata board session and request broker

A shallow embedding of `server/board/board.go`, `server/sonar.go`,
`server/lineSensor.go`, `server/buzzer.go`, `server/wheels.go`, `server/rover.go`
and `server/sparky.go`, followed by theorems about it.

Conventions of the embedding.

* A byte is a `Nat` below 256; byte arithmetic is written with an explicit
  `% 256`.  A Go `int` is an `Int`.
* The serial connection is a value of `Conn`: the bytes still to be read, the
  bytes written so far, and two flags saying whether `Write` and `Read` succeed.
* A Go slice is a `List`; indexing out of range is the outcome `Res.fault`.
* A buffered channel is a `List` (oldest element first) with capacity
  `chanCap`; a send on a full channel and a receive from an empty one are the
  outcome `Res.blocked`.
* The event bus of gobot is not part of the repository: `process` returns the
  list of events it publishes, and `Rover.deliver` runs the callbacks that
  the adapters subscribe with `gobot.On`.
-/

namespace Sparky

/-! ## Outcomes -/

/-- Outcome of running a piece of the program. -/
inductive Res (α : Type) where
  /-- The call returned. -/
  | ok (a : α)
  /-- A run-time panic: index or slice bound out of range. -/
  | fault
  /-- The call does not return: a read on an exhausted stream, a send on a full
  channel, a receive from an empty channel. -/
  | blocked
  /-- The process ended through `os.Exit`. -/
  | exited
deriving DecidableEq, Repr

/-- Sequencing of outcomes. -/
def Res.bind {α β : Type} (r : Res α) (f : α → Res β) : Res β :=
  match r with
  | .ok a => f a
  | .fault => .fault
  | .blocked => .blocked
  | .exited => .exited

/-- A Go `error` value; the message text is not modelled. -/
inductive Err where
  /-- The `nil` error. -/
  | nil
  /-- A non-nil error. -/
  | fail
deriving DecidableEq, Repr

/-! ## Integer conversions -/

/-- Go `byte(x)` for an `int` x. -/
def byte (x : Int) : Nat := (x % 256).toNat

/-- Go `byte(x & 0x7F)` for an `int` x (two's complement). -/
def low7 (x : Int) : Nat := (x % 128).toNat

/-- Go `byte((x >> 7) & 0x7F)` for an `int` x (arithmetic shift). -/
def high7 (x : Int) : Nat := ((x / 128) % 128).toNat

/-- Go `x % m` on `int`: the remainder of the division truncated towards zero. -/
def goRem (x m : Int) : Int := Int.tmod x m

/-- Go `strconv.Itoa`. -/
def Itoa (x : Int) : String := toString x

/-! ## Constants of `board.go` -/

def Input : Int := 0x00
def Output : Int := 0x01
def Analog : Int := 0x02
def Pwm : Int := 0x03
def Servo : Int := 0x04

def ProtocolVersion : Nat := 0xF9
def SystemReset : Nat := 0xFF
def DigitalMessage : Nat := 0x90
def DigitalMessageRangeStart : Nat := 0x90
def DigitalMessageRangeEnd : Nat := 0x9F
def AnalogMessage : Nat := 0xE0
def AnalogMessageRangeStart : Nat := 0xE0
def AnalogMessageRangeEnd : Nat := 0xEF
def ReportAnalog : Nat := 0xC0
def ReportDigital : Nat := 0xD0
def PinMode : Nat := 0xF4
def StartSysex : Nat := 0xF0
def EndSysex : Nat := 0xF7
def CapabilityQuery : Nat := 0x6B
def CapabilityResponse : Nat := 0x6C
def PinStateQuery : Nat := 0x6D
def PinStateResponse : Nat := 0x6E
def AnalogMappingQuery : Nat := 0x69
def AnalogMappingResponse : Nat := 0x6A
def StringData : Nat := 0x71
def I2CRequest : Nat := 0x76
def I2CReply : Nat := 0x77
def I2CConfig : Nat := 0x78
def FirmwareQuery : Nat := 0x79
def ServoConfig : Nat := 0x70

def RoverSonar : Nat := 0x50
def RoverMove : Nat := 0x51
def RoverLED : Nat := 0x52
def RoverBuzzer : Nat := 0x53
def RoverHeartBeat : Nat := 0x54
def RoverLine : Nat := 0x55

def SonarRead : Nat := 0x00
def SonarResp : Nat := 0x01
def SonarTurn : Nat := 0x02

def TurnLeft : Nat := 0x00
def TurnRight : Nat := 0x01
def TurnResp : Nat := 0x02

def MoveRun : Nat := 0x00
def MoveStep : Nat := 0x01
def MoveStop : Nat := 0x02
def MoveTurn : Nat := 0x03
def MoveTurnResp : Nat := 0x04
def MoveStepResp : Nat := 0x05

def MoveDirFwd : Nat := 0x00
def MoveDirRev : Nat := 0x01

def MoveStepBoth : Nat := 0x00
def MoveStepLeft : Nat := 0x01
def MoveStepRight : Nat := 0x02

def BuzzerPlay : Nat := 0x00
def BuzzerStop : Nat := 0x01
def BuzzerPlayFor : Nat := 0x02
def BuzzerDone : Nat := 0x03
def BuzzerBeep : Nat := 0x04

def LineReq : Nat := 0x00
def LineResp : Nat := 0x01

/-! ## Data model of `board.go` -/

/-- The serial connection (`io.ReadWriteCloser`) as the board session sees it. -/
structure Conn where
  /-- Bytes sent by the device and not yet read, oldest first. -/
  incoming : List Nat
  /-- Bytes written to the device so far, oldest first. -/
  sent : List Nat
  /-- Whether `Write` accepts all the bytes it is given without error. -/
  writeOk : Bool
  /-- Whether `Read` succeeds (when false it returns an error other than EOF). -/
  readOk : Bool
deriving DecidableEq, Repr

/-- The Go struct `Pin`. -/
structure Pin where
  SupportedModes : List Int
  Mode : Int
  Value : Int
  State : Int
  AnalogChannel : Int
deriving DecidableEq, Repr

/-- The Go struct `I2cReply`. -/
structure I2cReply where
  Address : Int
  Register : Int
  Data : List Nat
deriving DecidableEq, Repr

/-- The Go struct `Board`; a Go string built from bytes is kept as its bytes. -/
structure Board where
  pins : List Pin
  FirmwareName : List Nat
  ProtocolVersion : String
  connected : Bool
  connection : Conn
  analogPins : List Nat
deriving DecidableEq, Repr

/-- An event published by `process`, named after its gobot topic, with its data. -/
inductive Event where
  | ProtocolVersion (version : String)
  | AnalogRead (pin : Nat) (value : Int)
  | DigitalRead (pin : Nat) (value : Int)
  | CapabilityQuery
  | AnalogMappingQuery
  | PinState (pin : Nat) (p : Pin)
  | I2cReply (reply : I2cReply)
  | FirmwareQuery (name : List Nat)
  | StringData (str : List Nat)
  | SonarResponse (distance : Nat)
  | SonarTurnDone
  | BuzzerDone
  | RoverTurnDone
  | RoverStepDone
  | RoverLineResponse (value : Nat)
deriving DecidableEq, Repr

/-! ## Writing -/

/-- The Go method `Board.write`: a write that the connection does not take whole is
an error (bytes of a short write are not modelled: nothing is recorded as sent). -/
def Board.write (data : List Nat) (b : Board) : Err × Board :=
  if b.connection.writeOk then
    (Err.nil, { b with connection := { b.connection with sent := b.connection.sent ++ data } })
  else
    (Err.fail, b)

/-- The Go method `Board.writeSysex`. -/
def Board.writeSysex (data : List Nat) (b : Board) : Err × Board :=
  b.write ([StartSysex] ++ (data ++ [EndSysex]))

/-- The Go method `Board.Reset`. -/
def Board.Reset (b : Board) : Err × Board :=
  b.write [SystemReset]

/-- The Go method `Board.SetPinMode`. -/
def Board.SetPinMode (pin : Int) (mode : Int) (b : Board) : Res (Err × Board) :=
  match b.pins[byte pin]? with
  | none => Res.fault
  | some p =>
    Res.ok (Board.write [PinMode, byte pin, byte mode]
      { b with pins := b.pins.set (byte pin) { p with Mode := mode } })

/-- The loop of `DigitalWrite` over the bit positions still to visit; the index
`8*port+i` is computed in byte arithmetic. -/
def portLoop (pins : List Pin) (port : Nat) : List Nat → Nat → Res Nat
  | [], portValue => Res.ok portValue
  | i :: rest, portValue =>
    match pins[(8 * port + i) % 256]? with
    | none => Res.fault
    | some p =>
      portLoop pins port rest
        (if p.Value ≠ 0 then (portValue ||| ((1 <<< i) % 256)) % 256 else portValue)

/-- The Go method `Board.DigitalWrite`.  The port is `byte(math.Floor(float64(pin) / 8))`;
the conversion is exact for every pin below 2048, beyond which Go leaves it to
the implementation (the model takes the low eight bits). -/
def Board.DigitalWrite (pin : Int) (value : Int) (b : Board) : Res (Err × Board) :=
  let port := byte (pin / 8)
  if pin < 0 then Res.fault
  else
    match b.pins[pin.toNat]? with
    | none => Res.fault
    | some p =>
      let b1 := { b with pins := b.pins.set pin.toNat { p with Value := value } }
      (portLoop b1.pins port [0, 1, 2, 3, 4, 5, 6, 7] 0).bind fun portValue =>
        Res.ok (Board.write
          [(DigitalMessage ||| port) % 256, portValue &&& 0x7F, (portValue >>> 7) &&& 0x7F] b1)

/-- The Go method `Board.AnalogWrite`. -/
def Board.AnalogWrite (pin : Int) (value : Int) (b : Board) : Res (Err × Board) :=
  if pin < 0 then Res.fault
  else
    match b.pins[pin.toNat]? with
    | none => Res.fault
    | some p =>
      Res.ok (Board.write [(AnalogMessage ||| byte pin) % 256, low7 value, high7 value]
        { b with pins := b.pins.set pin.toNat { p with Value := value } })

/-- The Go method `Board.FirmwareQuery`. -/
def Board.FirmwareQuery (b : Board) : Err × Board :=
  b.writeSysex [Sparky.FirmwareQuery]

/-- The Go method `Board.ProtocolVersionQuery`. -/
def Board.ProtocolVersionQuery (b : Board) : Err × Board :=
  b.write [Sparky.ProtocolVersion]

/-- The Go method `Board.RoverSonarRead`. -/
def Board.RoverSonarRead (b : Board) : Err × Board :=
  b.writeSysex [RoverSonar, SonarRead]

/-- The Go method `Board.RoverSonarTurn`. -/
def Board.RoverSonarTurn (dir : Nat) (angle : Int) (b : Board) : Err × Board :=
  b.writeSysex [RoverSonar, SonarTurn, dir, low7 angle, high7 angle]

/-- The Go method `Board.RoverHeartBeat`. -/
def Board.RoverHeartBeat (b : Board) : Err × Board :=
  b.writeSysex [Sparky.RoverHeartBeat, 0x0, 0x1, 0x02, 0x3, 0x04, 0x05, 0x06, 0x07, 0x08, 0x09,
    0x10, 0x11, 0x12, 0x13, 0x14, 0x15, 0x16, 0x17, 0x18, 0x19, 0x20]

/-- The Go method `Board.RoverReadLineSensors`. -/
def Board.RoverReadLineSensors (b : Board) : Err × Board :=
  b.writeSysex [RoverLine, LineReq]

/-! ## Reading and decoding -/

/-- The Go method `Board.read`: collects exactly `length` bytes.  A stream that
holds fewer bytes keeps the loop waiting (EOF is retried for ever). -/
def Board.read (length : Nat) (b : Board) : Res (List Nat × Err × Board) :=
  if length = 0 then Res.ok ([], Err.nil, b)
  else if b.connection.readOk = false then Res.ok ([], Err.fail, b)
  else if b.connection.incoming.length < length then Res.blocked
  else
    Res.ok (b.connection.incoming.take length, Err.nil,
      { b with connection := { b.connection with incoming := b.connection.incoming.drop length } })

/-- Go `xs[i]` on a byte slice. -/
def idx (xs : List Nat) (i : Nat) : Res Nat :=
  match xs[i]? with
  | some x => Res.ok x
  | none => Res.fault

/-- The sysex loop of `process`: `read(1)` is repeated, each byte is appended to
`currentBuffer`, and the loop ends after appending `EndSysex`.  The first argument
is the unread stream; the result is the buffer and the rest of the stream. -/
def sysexLoop : List Nat → List Nat → Res (List Nat × List Nat)
  | [], _ => Res.blocked
  | x :: rest, currentBuffer =>
    if x = EndSysex then Res.ok (currentBuffer ++ [x], rest)
    else sysexLoop rest (currentBuffer ++ [x])

/-- The inner loop of the `CapabilityResponse` case: the modes whose bit is set. -/
def modesOf (supportedModes : Nat) : List Int :=
  [Input, Output, Analog, Pwm, Servo].filter
    fun mode => supportedModes &&& (1 <<< byte mode) ≠ 0

/-- The loop of the `CapabilityResponse` case over the bytes of the slice.  The Go
variable `supportedModes` is a 64-bit int of which only bits 0 to 4 are read;
the model keeps every bit. -/
def capabilityLoop : List Nat → List Pin → Nat → Nat → List Pin
  | [], pins, _, _ => pins
  | val :: rest, pins, supportedModes, n =>
    if val = 127 then
      capabilityLoop rest
        (pins ++ [{ SupportedModes := modesOf supportedModes, Mode := Output, Value := 0,
                    State := 0, AnalogChannel := 0 }]) 0 0
    else
      capabilityLoop rest pins
        (if n = 0 then supportedModes ||| (1 <<< val) else supportedModes) (n ^^^ 1)

/-- The loop of the `AnalogMappingResponse` case over the bytes of the slice. -/
def analogMappingLoop : List Nat → Nat → List Pin → List Nat → Res (List Pin × List Nat)
  | [], _, pins, analogPins => Res.ok (pins, analogPins)
  | val :: rest, pinIndex, pins, analogPins =>
    match pins[pinIndex]? with
    | none => Res.fault
    | some p =>
      analogMappingLoop rest (pinIndex + 1)
        (pins.set pinIndex { p with AnalogChannel := Int.ofNat val })
        (if val ≠ 127 then analogPins ++ [pinIndex] else analogPins)

/-- The loop of the `I2CReply` case, from index 8, two bytes at a time. -/
def i2cLoop : List Nat → List Nat → List Nat
  | [], data => data
  | [_], data => data
  | x :: y :: rest, data =>
    if x = 0xF7 then data
    else i2cLoop rest (data ++ [(x ||| ((y <<< 7) % 256)) % 256])

/-- The loop of the digital-message case of `process` over the bit positions still
to visit. -/
def digitalLoop (port : Nat) (portValue : Nat) : List Nat → List Pin → List Event → List Pin × List Event
  | [], pins, evs => (pins, evs)
  | i :: rest, pins, evs =>
    match pins[(8 * port + i) % 256]? with
    | none => digitalLoop port portValue rest pins evs
    | some p =>
      if p.Mode = Input then
        digitalLoop port portValue rest
          (pins.set ((8 * port + i) % 256)
            { p with Value := Int.ofNat ((portValue >>> (i &&& 0x07)) &&& 0x01) })
          (evs ++ [Event.DigitalRead ((8 * port + i) % 256)
            (Int.ofNat ((portValue >>> (i &&& 0x07)) &&& 0x01))])
      else digitalLoop port portValue rest pins evs

/-- The `switch command` of `process`, run on the complete sysex buffer
`currentBuffer` (from `StartSysex` to `EndSysex`).  A slice expression whose upper
bound lies beyond the bytes of the buffer is counted as a fault (the spare
capacity of the Go slice is not modelled). -/
def Board.sysex (currentBuffer : List Nat) (b : Board) : Res (Board × List Event) :=
  (idx currentBuffer 1).bind fun command =>
  if command = CapabilityResponse then
    if currentBuffer.length < 7 then Res.fault
    else
      Res.ok ({ b with
                pins := capabilityLoop ((currentBuffer.drop 2).take (currentBuffer.length - 5 - 2)) [] 0 0 },
              [Event.CapabilityQuery])
  else if command = AnalogMappingResponse then
    if b.pins.length < 3 ∨ currentBuffer.length < b.pins.length - 1 then Res.fault
    else
      (analogMappingLoop ((currentBuffer.drop 2).take (b.pins.length - 1 - 2)) 0 b.pins []).bind
        fun r => Res.ok ({ b with pins := r.1, analogPins := r.2 }, [Event.AnalogMappingQuery])
  else if command = PinStateResponse then
    (idx currentBuffer 2).bind fun pin =>
    match b.pins[pin]? with
    | none => Res.fault
    | some p =>
      (idx currentBuffer 3).bind fun mode =>
      (idx currentBuffer 4).bind fun s0 =>
      (if currentBuffer.length > 6 then
          (idx currentBuffer 5).bind fun s1 => Res.ok (s0 ||| (s1 <<< 7))
        else Res.ok s0).bind fun st1 =>
      (if currentBuffer.length > 7 then
          (idx currentBuffer 6).bind fun s2 => Res.ok (st1 ||| (s2 <<< 14))
        else Res.ok st1).bind fun st2 =>
      Res.ok ({ b with pins := b.pins.set pin { p with Mode := Int.ofNat mode, State := Int.ofNat st2 } },
              [Event.PinState pin { p with Mode := Int.ofNat mode, State := Int.ofNat st2 }])
  else if command = I2CReply then
    (idx currentBuffer 2).bind fun a0 =>
    (idx currentBuffer 3).bind fun a1 =>
    (idx currentBuffer 4).bind fun r0 =>
    (idx currentBuffer 5).bind fun r1 =>
    (idx currentBuffer 6).bind fun d0 =>
    (idx currentBuffer 7).bind fun d1 =>
    Res.ok (b, [Event.I2cReply
      { Address := Int.ofNat ((a0 ||| ((a1 <<< 7) % 256)) % 256),
        Register := Int.ofNat ((r0 ||| ((r1 <<< 7) % 256)) % 256),
        Data := i2cLoop (currentBuffer.drop 8) [(d0 ||| ((d1 <<< 7) % 256)) % 256] }])
  else if command = Sparky.FirmwareQuery then
    if currentBuffer.length < 5 then Res.fault
    else
      Res.ok ({ b with
                FirmwareName := ((currentBuffer.drop 4).take (currentBuffer.length - 1 - 4)).filter (· ≠ 0) },
              [Event.FirmwareQuery
                (((currentBuffer.drop 4).take (currentBuffer.length - 1 - 4)).filter (· ≠ 0))])
  else if command = StringData then
    Res.ok (b, [Event.StringData ((currentBuffer.drop 2).take (currentBuffer.length - 2 - 1))])
  else if command = RoverSonar then
    (idx currentBuffer 2).bind fun oper =>
    if oper = SonarResp then
      (idx currentBuffer 4).bind fun hi =>
      (idx currentBuffer 3).bind fun lo =>
      Res.ok (b, [Event.SonarResponse ((((hi <<< 7) % 256) ||| lo) % 256)])
    else if oper = SonarTurn then
      (idx currentBuffer 3).bind fun r =>
      if r = TurnResp then Res.ok (b, [Event.SonarTurnDone]) else Res.ok (b, [])
    else Res.ok (b, [])
  else if command = RoverBuzzer then
    (idx currentBuffer 2).bind fun oper =>
    if oper = BuzzerDone then Res.ok (b, [Event.BuzzerDone]) else Res.ok (b, [])
  else if command = RoverMove then
    (idx currentBuffer 2).bind fun oper =>
    if oper = MoveTurnResp then Res.ok (b, [Event.RoverTurnDone])
    else if oper = MoveStepResp then Res.ok (b, [Event.RoverStepDone])
    else Res.ok (b, [])
  else if command = RoverLine then
    (idx currentBuffer 2).bind fun oper =>
    if oper = LineResp then
      (idx currentBuffer 3).bind fun left =>
      (idx currentBuffer 4).bind fun right =>
      Res.ok (b, [Event.RoverLineResponse ((((right <<< 1) % 256) ||| left) % 256)])
    else Res.ok (b, [])
  else Res.ok (b, [])

/-- The part of `process` that follows `read(3)`: the `switch` on the message type
`buf[0]`, with `b` the board after the three bytes were taken from the stream. -/
def Board.dispatch (messageType : Nat) (d1 : Nat) (d2 : Nat) (b : Board) :
    Res (Err × Board × List Event) :=
  if Sparky.ProtocolVersion = messageType then
    Res.ok (Err.nil, { b with ProtocolVersion := toString d1 ++ "." ++ toString d2 },
      [Event.ProtocolVersion (toString d1 ++ "." ++ toString d2)])
  else if AnalogMessageRangeStart ≤ messageType ∧ AnalogMessageRangeEnd ≥ messageType then
    match b.analogPins[messageType &&& 0x0F]? with
    | none => Res.ok (Err.nil, b, [])
    | some a =>
      match b.pins[a]? with
      | none => Res.ok (Err.nil, b, [])
      | some p =>
        Res.ok (Err.nil, { b with pins := b.pins.set a { p with Value := Int.ofNat (d1 ||| (d2 <<< 7)) } },
          [Event.AnalogRead (messageType &&& 0x0F) (Int.ofNat (d1 ||| (d2 <<< 7)))])
  else if DigitalMessageRangeStart ≤ messageType ∧ DigitalMessageRangeEnd ≥ messageType then
    Res.ok (Err.nil,
      { b with
        pins := (digitalLoop (messageType &&& 0x0F) ((d1 ||| ((d2 <<< 7) % 256)) % 256) [0, 1, 2, 3, 4, 5, 6, 7] b.pins []).1 },
      (digitalLoop (messageType &&& 0x0F) ((d1 ||| ((d2 <<< 7) % 256)) % 256)
        [0, 1, 2, 3, 4, 5, 6, 7] b.pins []).2)
  else if StartSysex = messageType then
    (sysexLoop b.connection.incoming [messageType, d1, d2]).bind fun r =>
      ((Board.sysex r.1 { b with connection := { b.connection with incoming := r.2 } }).bind
        fun out => Res.ok (Err.nil, out.1, out.2))
  else Res.ok (Err.nil, b, [])

/-- The Go method `Board.process`: one step of the receive loop.  The result holds
the returned error, the board, and the events published, oldest first. -/
def Board.process (b : Board) : Res (Err × Board × List Event) :=
  (b.read 3).bind fun r =>
    match r with
    | (_, Err.fail, b1) => Res.ok (Err.fail, b1, [])
    | ([messageType, d1, d2], Err.nil, b1) => Board.dispatch messageType d1 d2 b1
    | (_, Err.nil, _) => Res.fault

/-! ## Remaining rover commands of `board.go` -/

/-- The Go method `Board.RoverRun`; the speeds are bytes. -/
def Board.RoverRun (dir : Nat) (leftSpeed : Nat) (rightSpeed : Nat) (b : Board) : Err × Board :=
  if leftSpeed = 0 ∧ rightSpeed = 0 then
    b.writeSysex [RoverMove, MoveRun, dir]
  else
    b.writeSysex [RoverMove, MoveRun, dir, leftSpeed &&& 0x7F, (leftSpeed >>> 7) &&& 0x7F,
      rightSpeed &&& 0x7F, (rightSpeed >>> 7) &&& 0x7F]

/-- The Go method `Board.RoverStop`. -/
def Board.RoverStop (b : Board) : Err × Board :=
  b.writeSysex [RoverMove, MoveStop]

/-- The Go method `Board.RoverTurn`; `angle` is a byte. -/
def Board.RoverTurn (side : Nat) (dir : Nat) (angle : Nat) (steps : Int) (b : Board) : Err × Board :=
  b.writeSysex [RoverMove, MoveTurn, side, dir, angle, low7 steps, high7 steps]

/-- The Go method `Board.RoverStep`. -/
def Board.RoverStep (dir : Nat) (steps : Int) (b : Board) : Err × Board :=
  b.writeSysex [RoverMove, MoveStep, MoveStepBoth, dir, low7 steps, high7 steps]

/-- The Go method `Board.RoverWheelStep`. -/
def Board.RoverWheelStep (which : Nat) (dir : Nat) (steps : Int) (b : Board) : Err × Board :=
  b.writeSysex [RoverMove, MoveStep, which, dir, low7 steps, high7 steps]

/-- The Go method `Board.RoverLight`; the channels are bytes. -/
def Board.RoverLight (red : Nat) (green : Nat) (blue : Nat) (b : Board) : Err × Board :=
  b.writeSysex [RoverLED, red &&& 0x7F, (red >>> 7) &&& 0x7F, green &&& 0x7F,
    (green >>> 7) &&& 0x7F, blue &&& 0x7F, (blue >>> 7) &&& 0x7F]

/-- The Go method `Board.RoverPlayTone`; `freq` is a byte, `delay` an int. -/
def Board.RoverPlayTone (freq : Nat) (delay : Int) (b : Board) : Err × Board :=
  if delay = 0 then
    b.writeSysex [RoverBuzzer, BuzzerPlay, freq &&& 0x7F, (freq >>> 7) &&& 0x7F]
  else
    b.writeSysex [RoverBuzzer, BuzzerPlayFor, freq &&& 0x7F, (freq >>> 7) &&& 0x7F,
      low7 delay, high7 delay]

/-- The Go method `Board.RoverBuzzerOff`. -/
def Board.RoverBuzzerOff (b : Board) : Err × Board :=
  b.writeSysex [RoverBuzzer, BuzzerStop]

/-- The Go method `Board.RoverBeep`. -/
def Board.RoverBeep (b : Board) : Err × Board :=
  b.writeSysex [RoverBuzzer, BuzzerBeep]

/-! ## Peripheral adapters (`sonar.go`, `wheels.go`, `buzzer.go`, `lineSensor.go`) -/

/-- Capacity of every adapter queue and of the response channel (`make(chan _, 100)`). -/
def chanCap : Nat := 100

/-- A request descriptor or completion.  The Go structs `SonarReq`, `WheelsReq`,
`BuzzerReq` and `LineSensorReq` have these same three fields; `GetID`, `GetType`
and `GetRespValue` read them (the last through `strconv.Itoa`). -/
structure Work where
  ID : String
  reqType : String
  Result : Int
deriving DecidableEq, Repr

/-- Go `ch <- w` on a buffered channel. -/
def send (ch : List Work) (w : Work) : Res (List Work) :=
  if ch.length < chanCap then Res.ok (ch ++ [w]) else Res.blocked

/-- Go `<-ch` on a buffered channel. -/
def recv (ch : List Work) : Res (Work × List Work) :=
  match ch with
  | [] => Res.blocked
  | w :: rest => Res.ok (w, rest)

def MAX_DISTANCE : Int := 9999
def SonarRangeReq : String := "RANGE"
def SonarTurnReq : String := "TURN"
def WheelsTurnReq : String := "TURN"
def WheelsStepReq : String := "STEP"
def BuzzerPlayReq : String := "PLAY"
/-- The constant `LineReq` of package main (the byte `LineReq` belongs to package board). -/
def Main.LineReq : String := "LINE"
def LineLeftResp : String := "LINE_LEFT"
def LineRightResp : String := "LINE_RIGHT"

/-- The queues of the Go struct `Sonar`. -/
structure Sonar where
  rangeReqQueue : List Work
  turnReqQueue : List Work
deriving DecidableEq, Repr

/-- The queues of the Go struct `Wheels`. -/
structure Wheels where
  turnReqQueue : List Work
  stepReqQueue : List Work
deriving DecidableEq, Repr

/-- The queue of the Go struct `Buzzer`. -/
structure Buzzer where
  reqQueue : List Work
deriving DecidableEq, Repr

/-- The queue of the Go struct `LineSensor`. -/
structure LineSensor where
  reqQueue : List Work
deriving DecidableEq, Repr

/-- The Go struct `Rover` once `Setup` has succeeded, together with what its parts
share by reference: the board, the response channel `respQueue` that every
adapter holds (it is `workResponseQueue` of `sparky.go`), and the package
variable `MillisPerDegreeTurn`. -/
structure Rover where
  board : Board
  sonar : Sonar
  buzzer : Buzzer
  wheels : Wheels
  lineSensor : LineSensor
  respQueue : List Work
  MillisPerDegreeTurn : Int
deriving DecidableEq, Repr

/-- The Go method `Sonar.ReadRange`. -/
def Sonar.ReadRange (id : String) (r : Rover) : Res (Err × Rover) :=
  match r.board.RoverSonarRead with
  | (Err.fail, b) =>
    (send r.respQueue { ID := id, reqType := SonarRangeReq, Result := MAX_DISTANCE }).bind
      fun q => Res.ok (Err.fail, { r with board := b, respQueue := q })
  | (Err.nil, b) =>
    (send r.sonar.rangeReqQueue { ID := id, reqType := SonarRangeReq, Result := MAX_DISTANCE }).bind
      fun q => Res.ok (Err.nil, { r with board := b, sonar := { r.sonar with rangeReqQueue := q } })

/-- The Go method `Sonar.processRangeResponse`; `data` is the published byte. -/
def Sonar.processRangeResponse (data : Nat) (r : Rover) : Res Rover :=
  (recv r.sonar.rangeReqQueue).bind fun x =>
    (send r.respQueue { x.1 with Result := Int.ofNat data }).bind fun q =>
      Res.ok { r with sonar := { r.sonar with rangeReqQueue := x.2 }, respQueue := q }

/-- The Go method `Sonar.Turn`. -/
def Sonar.Turn (id : String) (direction : String) (angle : Int) (r : Rover) : Res (Err × Rover) :=
  match r.board.RoverSonarTurn (if direction = "right" then TurnRight else TurnLeft) (goRem angle 91) with
  | (Err.fail, b) =>
    (send r.respQueue { ID := id, reqType := SonarTurnReq, Result := 0 }).bind
      fun q => Res.ok (Err.fail, { r with board := b, respQueue := q })
  | (Err.nil, b) =>
    (send r.sonar.turnReqQueue { ID := id, reqType := SonarTurnReq, Result := 0 }).bind
      fun q => Res.ok (Err.nil, { r with board := b, sonar := { r.sonar with turnReqQueue := q } })

/-- The Go method `Sonar.processTurnDone`. -/
def Sonar.processTurnDone (r : Rover) : Res Rover :=
  (recv r.sonar.turnReqQueue).bind fun x =>
    (send r.respQueue x.1).bind fun q =>
      Res.ok { r with sonar := { r.sonar with turnReqQueue := x.2 }, respQueue := q }

/-- The tail shared by `Wheels.Turn` and `Wheels.ReverseTurn`: enqueue on success,
push the completion on failure. -/
def Wheels.afterTurn (id : String) (res : Err × Board) (r : Rover) : Res (Err × Rover) :=
  match res with
  | (Err.nil, b) =>
    (send r.wheels.turnReqQueue { ID := id, reqType := WheelsTurnReq, Result := 0 }).bind
      fun q => Res.ok (Err.nil, { r with board := b, wheels := { r.wheels with turnReqQueue := q } })
  | (Err.fail, b) =>
    (send r.respQueue { ID := id, reqType := WheelsTurnReq, Result := 0 }).bind
      fun q => Res.ok (Err.fail, { r with board := b, respQueue := q })

/-- The Go method `Wheels.Turn`. -/
def Wheels.Turn (id : String) (direction : String) (angle : Int) (steps : Int) (r : Rover) :
    Res (Err × Rover) :=
  Wheels.afterTurn id
    (if direction = "left" then r.board.RoverTurn TurnLeft MoveDirFwd (byte angle) steps
     else r.board.RoverTurn TurnRight MoveDirFwd (byte angle) steps) r

/-- The Go method `Wheels.ReverseTurn`. -/
def Wheels.ReverseTurn (id : String) (direction : String) (angle : Int) (steps : Int) (r : Rover) :
    Res (Err × Rover) :=
  Wheels.afterTurn id
    (if direction = "left" then r.board.RoverTurn TurnLeft MoveDirRev (byte angle) steps
     else r.board.RoverTurn TurnRight MoveDirRev (byte angle) steps) r

/-- The Go method `Wheels.processTurnDone`. -/
def Wheels.processTurnDone (r : Rover) : Res Rover :=
  (recv r.wheels.turnReqQueue).bind fun x =>
    (send r.respQueue x.1).bind fun q =>
      Res.ok { r with wheels := { r.wheels with turnReqQueue := x.2 }, respQueue := q }

/-- The tail shared by `Wheels.Step` and `Wheels.WheelStep`. -/
def Wheels.afterStep (id : String) (res : Err × Board) (r : Rover) : Res (Err × Rover) :=
  match res with
  | (Err.nil, b) =>
    (send r.wheels.stepReqQueue { ID := id, reqType := WheelsStepReq, Result := 0 }).bind
      fun q => Res.ok (Err.nil, { r with board := b, wheels := { r.wheels with stepReqQueue := q } })
  | (Err.fail, b) =>
    (send r.respQueue { ID := id, reqType := WheelsStepReq, Result := 0 }).bind
      fun q => Res.ok (Err.fail, { r with board := b, respQueue := q })

/-- The Go method `Wheels.Step`. -/
def Wheels.Step (id : String) (direction : String) (steps : Int) (r : Rover) : Res (Err × Rover) :=
  Wheels.afterStep id
    (if direction = "forward" then r.board.RoverStep MoveDirFwd steps
     else r.board.RoverStep MoveDirRev steps) r

/-- The Go method `Wheels.WheelStep`; for any other `which` nothing is written and
`err` keeps its zero value `nil`. -/
def Wheels.WheelStep (id : String) (which : String) (direction : String) (steps : Int) (r : Rover) :
    Res (Err × Rover) :=
  Wheels.afterStep id
    (if which = "right" then
      (if direction = "forward" then r.board.RoverWheelStep MoveStepRight MoveDirFwd steps
       else r.board.RoverWheelStep MoveStepRight MoveDirRev steps)
     else if which = "left" then
      (if direction = "forward" then r.board.RoverWheelStep MoveStepLeft MoveDirFwd steps
       else r.board.RoverWheelStep MoveStepLeft MoveDirRev steps)
     else (Err.nil, r.board)) r

/-- The Go method `Wheels.processStepDone`. -/
def Wheels.processStepDone (r : Rover) : Res Rover :=
  (recv r.wheels.stepReqQueue).bind fun x =>
    (send r.respQueue x.1).bind fun q =>
      Res.ok { r with wheels := { r.wheels with stepReqQueue := x.2 }, respQueue := q }

/-- The Go method `Wheels.Run`. -/
def Wheels.Run (direction : String) (leftSpeed : Int) (rightSpeed : Int) (r : Rover) : Err × Rover :=
  let res := if direction = "forward" then r.board.RoverRun MoveDirFwd (byte leftSpeed) (byte rightSpeed)
             else r.board.RoverRun MoveDirRev (byte leftSpeed) (byte rightSpeed)
  (res.1, { r with board := res.2 })

/-- The Go method `Wheels.Stop`. -/
def Wheels.Stop (r : Rover) : Err × Rover :=
  ((r.board.RoverStop).1, { r with board := (r.board.RoverStop).2 })

/-- The Go method `Buzzer.PlayTone`. -/
def Buzzer.PlayTone (id : String) (freq : Int) (delay : Int) (r : Rover) : Res (Err × Rover) :=
  (if delay > 0 then
      (send r.buzzer.reqQueue { ID := id, reqType := BuzzerPlayReq, Result := 0 }).bind
        fun q => Res.ok { r with buzzer := { r.buzzer with reqQueue := q } }
    else Res.ok r).bind fun r1 =>
  Res.ok ((r1.board.RoverPlayTone (byte freq) delay).1,
          { r1 with board := (r1.board.RoverPlayTone (byte freq) delay).2 })

/-- The Go method `Buzzer.BuzzerOff`. -/
def Buzzer.BuzzerOff (r : Rover) : Err × Rover :=
  ((r.board.RoverBuzzerOff).1, { r with board := (r.board.RoverBuzzerOff).2 })

/-- The Go method `Buzzer.Beep`. -/
def Buzzer.Beep (r : Rover) : Err × Rover :=
  ((r.board.RoverBeep).1, { r with board := (r.board.RoverBeep).2 })

/-- The Go method `Buzzer.processBuzzerDone`. -/
def Buzzer.processBuzzerDone (r : Rover) : Res Rover :=
  (recv r.buzzer.reqQueue).bind fun x =>
    (send r.respQueue x.1).bind fun q =>
      Res.ok { r with buzzer := { r.buzzer with reqQueue := x.2 }, respQueue := q }

/-- The Go method `LineSensor.readLineSensors`. -/
def LineSensor.readLineSensors (id : String) (r : Rover) : Res (Err × Rover) :=
  (send r.lineSensor.reqQueue { ID := id, reqType := Main.LineReq, Result := 0 }).bind fun q =>
    Res.ok ((r.board.RoverReadLineSensors).1,
            { r with lineSensor := { r.lineSensor with reqQueue := q },
                     board := (r.board.RoverReadLineSensors).2 })

/-- The Go method `LineSensor.processLineResponse`; `val` is the published byte, and
`^val & 0x01`, `^(val >> 1) & 0x01` are computed on bytes (`^val` is `255 - val`). -/
def LineSensor.processLineResponse (val : Nat) (r : Rover) : Res Rover :=
  (recv r.lineSensor.reqQueue).bind fun x =>
    (send r.respQueue
        { ID := x.1.ID, reqType := LineLeftResp, Result := Int.ofNat ((255 - val % 256) &&& 0x01) }).bind
      fun q1 =>
    (send q1
        { ID := x.1.ID, reqType := LineRightResp,
          Result := Int.ofNat ((255 - (val >>> 1) % 256) &&& 0x01) }).bind
      fun q2 =>
    Res.ok { r with lineSensor := { r.lineSensor with reqQueue := x.2 }, respQueue := q2 }

/-- The callbacks registered with `gobot.On` in `CreateSonar`, `CreateBuzzer`,
`CreateWheels` and `CreateLineSensor`, run on one published event. -/
def Rover.deliver (e : Event) (r : Rover) : Res Rover :=
  match e with
  | Event.SonarResponse distance => Sonar.processRangeResponse distance r
  | Event.SonarTurnDone => Sonar.processTurnDone r
  | Event.BuzzerDone => Buzzer.processBuzzerDone r
  | Event.RoverTurnDone => Wheels.processTurnDone r
  | Event.RoverStepDone => Wheels.processStepDone r
  | Event.RoverLineResponse value => LineSensor.processLineResponse value r
  | _ => Res.ok r

/-- The callbacks run on each event of a list, oldest first. -/
def Rover.deliverAll : List Event → Rover → Res Rover
  | [], r => Res.ok r
  | e :: rest, r => (Rover.deliver e r).bind fun r1 => Rover.deliverAll rest r1

/-- One turn of the receive loop started by `Connect`: `process`, then the
callbacks of the events it published.  An error of `process` is published on
`Error`, which has no subscriber. -/
def Rover.receive (r : Rover) : Res Rover :=
  (r.board.process).bind fun out => Rover.deliverAll out.2.2 { r with board := out.2.1 }

/-! ## Command handlers of `rover.go` -/

/-- The route variables `mux.Vars(r)`: a Go map read with `vars[key]`, which yields
the empty string for a missing key. -/
abbrev Vars := String → String

/-- The Go method `Rover.heartBeat`: a failed write ends the process. -/
def Rover.heartBeat (r : Rover) : Res Rover :=
  match r.board.RoverHeartBeat with
  | (Err.nil, b) => Res.ok { r with board := b }
  | (Err.fail, _) => Res.exited

/-- The Go method `Rover.ReadSonar`. -/
def Rover.ReadSonar (vars : Vars) (r : Rover) : Res (Err × Rover) :=
  Sonar.ReadRange (vars "id") r

/-- The Go method `Rover.CenterSonar`. -/
def Rover.CenterSonar (vars : Vars) (r : Rover) : Res (Err × Rover) :=
  Sonar.Turn (vars "id") "left" 0 r

/-- The Go method `Rover.ReadLineSensor`. -/
def Rover.ReadLineSensor (vars : Vars) (r : Rover) : Res (Err × Rover) :=
  LineSensor.readLineSensors (vars "id") r

/-! ## Request broker (`sparky.go`) -/

/-- The package variables of `sparky.go`.  `pendingReqs` is a Go map used as a set:
the list holds its keys, in the order in which the model ranges over them (Go
leaves that order open).  Times are in milliseconds.  The channel
`workResponseQueue` is the field `respQueue` of the rover. -/
structure Server where
  rover : Rover
  /-- The result of `rover.Connected()`, that is `rover.board != nil`. -/
  connected : Bool
  pendingReqs : List String
  lastCmdTime : Nat
  lastPendingTime : Nat
deriving DecidableEq, Repr

/-- Go `pendingReqs[id] = id`. -/
def mapInsert (keys : List String) (id : String) : List String :=
  if id ∈ keys then keys else keys ++ [id]

/-- Go `delete(pendingReqs, id)`. -/
def mapDelete (keys : List String) (id : String) : List String :=
  keys.filter fun key => key ≠ id

/-- The line that `HandlePoll` writes for one drained response (none for the other
request types). -/
def respLine (resp : Work) : List String :=
  if resp.reqType = SonarRangeReq then ["sonarRange " ++ Itoa resp.Result]
  else if resp.reqType = LineLeftResp then ["lineLeft " ++ Itoa resp.Result]
  else if resp.reqType = LineRightResp then ["lineRight " ++ Itoa resp.Result]
  else []

/-- The drain loop of `HandlePoll`: every response waiting in the channel is taken,
its id deleted from `pendingReqs` and its line written.  Arguments: the channel,
`pendingReqs`, the lines written so far. -/
def drain : List Work → List String → List String → List String × List String
  | [], pending, out => (pending, out)
  | resp :: rest, pending, out => drain rest (mapDelete pending resp.ID) (out ++ respLine resp)

/-- The string `pending` that `HandlePoll` builds by ranging over `pendingReqs`. -/
def pendingText (keys : List String) : String :=
  keys.foldl (fun pending key => pending ++ " " ++ key) ""

/-- The Go function `HandlePoll`, run at time `now`.  `setup` stands for
`rover.Setup`, which opens the serial port (outside the repository): the rover
it builds when it succeeds, `none` when it fails.  The result holds the lines
written to the response, in order. -/
def HandlePoll (setup : Option Rover) (now : Nat) (s : Server) : Res (Server × List String) :=
  let s1 : Server :=
    if s.connected then s
    else
      match setup with
      | some r => { s with rover := { r with respQueue := s.rover.respQueue }, connected := true, pendingReqs := [] }
      | none => s
  if s1.connected = false then
    Res.ok (s1, ["_problem Roverduino is not connected"])
  else
    let d := drain s1.rover.respQueue s1.pendingReqs []
    let s2 : Server := { s1 with rover := { s1.rover with respQueue := [] }, pendingReqs := d.1 }
    if pendingText d.1 ≠ "" then
      if now - s2.lastPendingTime ≥ 5000 then
        if now - s2.lastCmdTime ≥ 1000 then
          (s2.rover.heartBeat).bind fun r =>
            Res.ok ({ s2 with lastCmdTime := now, rover := r }, d.2 ++ ["_busy " ++ pendingText d.1])
        else Res.ok (s2, d.2 ++ ["_busy " ++ pendingText d.1])
      else Res.ok (s2, d.2 ++ ["_busy " ++ pendingText d.1])
    else
      if now - s2.lastCmdTime ≥ 1000 then
        (s2.rover.heartBeat).bind fun r =>
          Res.ok ({ s2 with lastPendingTime := now, lastCmdTime := now, rover := r }, d.2)
      else Res.ok ({ s2 with lastPendingTime := now }, d.2)

/-- The Go function `invokeHaandler`, run at time `now` with one of the command
handlers of `rover.go`.  The result holds the returned error and the lines
written to the response. -/
def invokeHaandler (handler : Vars → Rover → Res (Err × Rover)) (vars : Vars) (now : Nat)
    (s : Server) : Res (Err × Server × List String) :=
  if s.connected = false then
    Res.ok (Err.fail, s, ["_problem Roverduino is not connected"])
  else
    (handler vars s.rover).bind fun r =>
      match r with
      | (Err.fail, rv) =>
        Res.ok (Err.fail, { s with lastCmdTime := now, rover := rv }, ["_problem Could not execute command"])
      | (Err.nil, rv) =>
        if vars "id" ≠ "" then
          Res.ok (Err.nil, { s with lastCmdTime := now, rover := rv,
                                    pendingReqs := mapInsert s.pendingReqs (vars "id"),
                                    lastPendingTime := now }, [])
        else
          Res.ok (Err.nil, { s with lastCmdTime := now, rover := rv }, [])

/-- One step of the running server: a command request, a poll, or one turn of the
receive loop. -/
inductive Action where
  | command (handler : Vars → Rover → Res (Err × Rover)) (vars : Vars) (now : Nat)
  | poll (now : Nat)
  | receive

/-- The server after one step. -/
def Server.step (s : Server) (a : Action) : Res Server :=
  match a with
  | Action.command handler vars now => (invokeHaandler handler vars now s).bind fun r => Res.ok r.2.1
  | Action.poll now => (HandlePoll none now s).bind fun r => Res.ok r.1
  | Action.receive => (s.rover.receive).bind fun r => Res.ok { s with rover := r }

/-- Whether step `a`, taken in state `s`, is a poll that drains a completion
carrying `id`. -/
def drainsId (id : String) (s : Server) (a : Action) : Bool :=
  match a with
  | Action.poll _ => s.rover.respQueue.any fun resp => resp.ID = id
  | _ => false

/-- Runs the steps in order, as long as each returns and none is a poll that drains
a completion carrying `id`; yields the final state in that case. -/
def Server.runUndrained (id : String) : Server → List Action → Option Server
  | s, [] => some s
  | s, a :: rest =>
    if drainsId id s a then none
    else
      match s.step a with
      | Res.ok t => Server.runUndrained id t rest
      | _ => none

/-- Whether step `a`, taken in state `s`, is a command whose route id is `id` and
which returns success, so that the broker accepts it. -/
def acceptsId (id : String) (s : Server) (a : Action) : Bool :=
  match a with
  | Action.command handler vars now =>
    match invokeHaandler handler vars now s with
    | Res.ok (Err.nil, _, _) => decide (vars "id" = id)
    | _ => false
  | _ => false

/-- Runs the steps in order, as long as each returns and none is an accepted command
with the id `id`; yields the final state in that case. -/
def Server.runUnaccepted (id : String) : Server → List Action → Option Server
  | s, [] => some s
  | s, a :: rest =>
    if acceptsId id s a then none
    else
      match s.step a with
      | Res.ok t => Server.runUnaccepted id t rest
      | _ => none

/-! ## Construction and scenario drivers -/

/-- A connection with nothing to read, nothing written yet, and both directions working. -/
def Conn.idle : Conn :=
  { incoming := [], sent := [], writeOk := true, readOk := true }

/-- The Go function `New`, followed by the assignment `b.connection = conn` of `Connect`. -/
def New (conn : Conn) : Board :=
  { pins := [], FirmwareName := [], ProtocolVersion := "", connected := false,
    connection := conn, analogPins := [] }

/-- The pin `Pin{}` with every field zero. -/
def Pin.zero : Pin :=
  { SupportedModes := [], Mode := 0, Value := 0, State := 0, AnalogChannel := 0 }

/-- The adapters as `CreateSonar`, `CreateBuzzer`, `CreateWheels` and
`CreateLineSensor` build them (every queue empty), around board `b` and the
response channel `respQ`. -/
def Rover.create (b : Board) (respQ : List Work) : Rover :=
  { board := b, sonar := { rangeReqQueue := [], turnReqQueue := [] },
    buzzer := { reqQueue := [] }, wheels := { turnReqQueue := [], stepReqQueue := [] },
    lineSensor := { reqQueue := [] }, respQueue := respQ, MillisPerDegreeTurn := 6 }

/-- A server whose rover is connected, with nothing outstanding. -/
def Server.connectedTo (r : Rover) : Server :=
  { rover := r, connected := true, pendingReqs := [], lastCmdTime := 0, lastPendingTime := 0 }

/-- Successive calls of `Sonar.ReadRange`, one per id, in order. -/
def Sonar.readRanges : List String → Rover → Res Rover
  | [], r => Res.ok r
  | id :: rest, r => (Sonar.ReadRange id r).bind fun x => Sonar.readRanges rest x.2

/-- Successive `SonarResponse` events handled by `Sonar.processRangeResponse`, one per
distance, in order. -/
def Sonar.rangeResponses : List Nat → Rover → Res Rover
  | [], r => Res.ok r
  | d :: rest, r => (Sonar.processRangeResponse d r).bind fun r1 => Sonar.rangeResponses rest r1

/-- Successive calls of `Board.DigitalWrite`, one per (pin, value), in order. -/
def Board.digitalWrites : List (Int × Int) → Board → Res Board
  | [], b => Res.ok b
  | c :: rest, b => (b.DigitalWrite c.1 c.2).bind fun x => Board.digitalWrites rest x.2

/-! ## Sample values used to instantiate the theorems -/

/-- Route variables holding only an id. -/
def varsOfId (id : String) : Vars :=
  fun key => if key = "id" then id else ""

/-- A connected server on a freshly created rover. -/
def sampleStart : Server :=
  Server.connectedTo (Rover.create (New Conn.idle) [])

/-- The state `sampleStart` after `/readSonar/abc` at time 10. -/
def sampleAfterReadSonar : Server :=
  { rover :=
      { Rover.create (New { Conn.idle with sent := [0xF0, 0x50, 0x00, 0xF7] }) [] with
        sonar := { rangeReqQueue := [⟨"abc", "RANGE", 9999⟩], turnReqQueue := [] } },
    connected := true, pendingReqs := ["abc"], lastCmdTime := 10, lastPendingTime := 10 }

/-- The state `sampleAfterReadSonar` after a poll at time 20 and `/readLineSensor/b`
at time 30. -/
def sampleAfterLine : Server :=
  { rover :=
      { Rover.create
          (New { Conn.idle with sent := [0xF0, 0x50, 0x00, 0xF7, 0xF0, 0x55, 0x00, 0xF7] }) [] with
        sonar := { rangeReqQueue := [⟨"abc", "RANGE", 9999⟩], turnReqQueue := [] },
        lineSensor := { reqQueue := [⟨"b", "LINE", 0⟩] } },
    connected := true, pendingReqs := ["abc", "b"], lastCmdTime := 30, lastPendingTime := 30 }

/-- A board with eight pins, all fields zero, on an idle connection. -/
def sampleBoard8 : Board :=
  { New Conn.idle with pins := List.replicate 8 Pin.zero }

/-- A connected server whose line sensor has one pending request `b` and whose
stream holds the frame F0 55 01 01 00 F7. -/
def sampleLinePending : Server :=
  { Server.connectedTo
      { Rover.create (New { Conn.idle with incoming := [0xF0, 0x55, 0x01, 0x01, 0x00, 0xF7] }) [] with
        lineSensor := { reqQueue := [⟨"b", "LINE", 0⟩] } } with
    pendingReqs := ["b"] }

/-- The calls `SetPinMode(2, Output)`, `DigitalWrite(2, 1)`, `DigitalWrite(5, 1)` in
order; yields the bytes written to the connection once all three have returned. -/
def setModeThenWrites (b : Board) : Res (List Nat) :=
  (b.SetPinMode 2 Output).bind fun r1 =>
    (r1.2.DigitalWrite 2 1).bind fun r2 =>
      (r2.2.DigitalWrite 5 1).bind fun r3 => Res.ok r3.2.connection.sent

/-- A connected server with nothing outstanding whose stream holds the sonar
response F0 50 01 05 00 F7. -/
def sampleReplyWaiting : Server :=
  Server.connectedTo
    (Rover.create (New { Conn.idle with incoming := [0xF0, 0x50, 0x01, 0x05, 0x00, 0xF7] }) [])

/-- The state `sampleReplyWaiting` after `/readSonar/abc` at time 10. -/
def sampleReplyAsked : Server :=
  { rover :=
      { Rover.create (New { Conn.idle with
          incoming := [0xF0, 0x50, 0x01, 0x05, 0x00, 0xF7], sent := [0xF0, 0x50, 0x00, 0xF7] }) [] with
        sonar := { rangeReqQueue := [⟨"abc", "RANGE", 9999⟩], turnReqQueue := [] } },
    connected := true, pendingReqs := ["abc"], lastCmdTime := 10, lastPendingTime := 10 }

/-- The state `sampleReplyAsked` after the receive step that handles the response. -/
def sampleReplyReceived : Server :=
  { rover := Rover.create (New { Conn.idle with sent := [0xF0, 0x50, 0x00, 0xF7] }) [⟨"abc", "RANGE", 5⟩],
    connected := true, pendingReqs := ["abc"], lastCmdTime := 10, lastPendingTime := 10 }

/-- The state `sampleReplyReceived` after a poll at time 20. -/
def sampleReplyDrained : Server :=
  { rover := Rover.create (New { Conn.idle with sent := [0xF0, 0x50, 0x00, 0xF7] }) [],
    connected := true, pendingReqs := [], lastCmdTime := 10, lastPendingTime := 20 }

/-- The state `sampleReplyDrained` after `/readLineSensor/b` at time 30 and a poll at
time 40. -/
def sampleReplyLater : Server :=
  { rover :=
      { Rover.create (New { Conn.idle with
          sent := [0xF0, 0x50, 0x00, 0xF7, 0xF0, 0x55, 0x00, 0xF7] }) [] with
        lineSensor := { reqQueue := [⟨"b", "LINE", 0⟩] } },
    connected := true, pendingReqs := ["b"], lastCmdTime := 30, lastPendingTime := 30 }

/-! ## Handshake (`Board.Connect`) -/

/-- The Go method `Board.CapabilitiesQuery`. -/
def Board.CapabilitiesQuery (b : Board) : Err × Board :=
  b.writeSysex [CapabilityQuery]

/-- The Go method `Board.AnalogMappingQuery`. -/
def Board.AnalogMappingQuery (b : Board) : Err × Board :=
  b.writeSysex [Sparky.AnalogMappingQuery]

/-- The Go method `Board.togglePinReporting`. -/
def Board.togglePinReporting (pin : Int) (state : Int) (mode : Nat) (b : Board) : Err × Board :=
  b.write [(mode ||| byte pin) % 256, byte (if state ≠ 0 then 1 else 0)]

/-- The Go method `Board.ReportDigital`. -/
def Board.ReportDigital (pin : Int) (state : Int) (b : Board) : Err × Board :=
  b.togglePinReporting pin state Sparky.ReportDigital

/-- The Go method `Board.ReportAnalog`. -/
def Board.ReportAnalog (pin : Int) (state : Int) (b : Board) : Err × Board :=
  b.togglePinReporting pin state Sparky.ReportAnalog

/-- The function held by the local variable `initFunc` of `Connect`. -/
inductive InitFunc where
  | ProtocolVersionQuery
  | CapabilitiesQuery
  | AnalogMappingQuery
  /-- The function `func() error { return nil }`. -/
  | nothing
deriving DecidableEq, Repr

/-- Calls the function held by `initFunc`. -/
def InitFunc.run (f : InitFunc) (b : Board) : Err × Board :=
  match f with
  | InitFunc.ProtocolVersionQuery => b.ProtocolVersionQuery
  | InitFunc.CapabilitiesQuery => b.CapabilitiesQuery
  | InitFunc.AnalogMappingQuery => b.AnalogMappingQuery
  | InitFunc.nothing => (Err.nil, b)

/-- What the closures of `Connect` share besides the board: the variable `initFunc`,
and for each of the four `gobot.Once` handlers whether it is still to run. -/
structure Handshake where
  initFunc : InitFunc
  onceProtocolVersion : Bool
  onceFirmwareQuery : Bool
  onceCapabilityQuery : Bool
  onceAnalogMappingQuery : Bool
deriving DecidableEq, Repr

/-- The handshake as `Connect` sets it up before its loop. -/
def Handshake.start : Handshake :=
  { initFunc := InitFunc.ProtocolVersionQuery, onceProtocolVersion := true,
    onceFirmwareQuery := true, onceCapabilityQuery := true, onceAnalogMappingQuery := true }

/-- The `gobot.Once` handlers of `Connect`, run on one published event. -/
def Handshake.deliver (e : Event) (h : Handshake) (b : Board) : Handshake × Board :=
  match e with
  | Event.ProtocolVersion _ =>
    if h.onceProtocolVersion then
      ({ h with initFunc := InitFunc.nothing, onceProtocolVersion := false }, { b with connected := true })
    else (h, b)
  | Event.FirmwareQuery _ =>
    if h.onceFirmwareQuery then
      ({ h with initFunc := InitFunc.CapabilitiesQuery, onceFirmwareQuery := false }, b)
    else (h, b)
  | Event.CapabilityQuery =>
    if h.onceCapabilityQuery then
      ({ h with initFunc := InitFunc.AnalogMappingQuery, onceCapabilityQuery := false }, b)
    else (h, b)
  | Event.AnalogMappingQuery =>
    if h.onceAnalogMappingQuery then
      ({ h with initFunc := InitFunc.nothing, onceAnalogMappingQuery := false },
       { ((b.ReportDigital 0 1).2.ReportDigital 1 1).2 with connected := true })
    else (h, b)
  | _ => (h, b)

/-- The handlers run on each event of a list, oldest first. -/
def Handshake.deliverAll : List Event → Handshake → Board → Handshake × Board
  | [], h, b => (h, b)
  | e :: rest, h, b => Handshake.deliverAll rest (Handshake.deliver e h b).1 (Handshake.deliver e h b).2

/-- The `for` loop of `Connect`, for at most the given number of turns: call
`initFunc`, run `process`, let the handlers see the published events, stop when the
board is connected.  The receive loop that `Connect` starts before returning is
`Rover.receive`. -/
def connectLoop : Nat → Handshake → Board → Res (Err × Board)
  | 0, _, _ => Res.blocked
  | fuel + 1, h, b =>
    match h.initFunc.run b with
    | (Err.fail, b1) => Res.ok (Err.fail, b1)
    | (Err.nil, b1) =>
      (b1.process).bind fun out =>
        match out with
        | (Err.fail, b2, _) => Res.ok (Err.fail, b2)
        | (Err.nil, b2, evs) =>
          if (Handshake.deliverAll evs h b2).2.connected then
            Res.ok (Err.nil, (Handshake.deliverAll evs h b2).2)
          else
            connectLoop fuel (Handshake.deliverAll evs h b2).1 (Handshake.deliverAll evs h b2).2

/-- The Go method `Board.Connect`.  A turn of the loop that does not end it has taken
at least three bytes from the stream, so the loop is run for at most one turn more
than the stream has bytes. -/
def Board.Connect (conn : Conn) (b : Board) : Res (Err × Board) :=
  if b.connected then Res.ok (Err.fail, b)
  else
    connectLoop (conn.incoming.length + 1) Handshake.start
      ({ b with connection := conn }.Reset).2

/-! ## Light and tone handlers of `rover.go` -/

/-- The `switch color` of `Rover.LightColor`: the slice `values`, which stays nil
(empty) when no case matches. -/
def colorValues (color : String) : List Nat :=
  if color = "red" then [255, 0, 0]
  else if color = "green" then [0, 255, 0]
  else if color = "blue" then [0, 0, 255]
  else if color = "yellow" then [255, 255, 0]
  else if color = "cyan" then [0, 255, 255]
  else if color = "magenta" then [255, 0, 255]
  else if color = "white" then [255, 255, 255]
  else []

/-- The Go method `Rover.LightColor`. -/
def Rover.LightColor (vars : Vars) (r : Rover) : Res (Err × Rover) :=
  (idx (colorValues (vars "color")) 0).bind fun red =>
  (idx (colorValues (vars "color")) 1).bind fun green =>
  (idx (colorValues (vars "color")) 2).bind fun blue =>
    Res.ok ((r.board.RoverLight red green blue).1,
            { r with board := (r.board.RoverLight red green blue).2 })

/-- The Go method `Rover.LightOff`. -/
def Rover.LightOff (_vars : Vars) (r : Rover) : Res (Err × Rover) :=
  Res.ok ((r.board.RoverLight 0 0 0).1, { r with board := (r.board.RoverLight 0 0 0).2 })

/-- Route variables holding only a colour. -/
def varsOfColor (color : String) : Vars :=
  fun key => if key = "color" then color else ""

/-- The bytes that `RoverHeartBeat` writes. -/
def heartBeatFrame : List Nat :=
  [0xF0, 0x54, 0x0, 0x1, 0x02, 0x3, 0x04, 0x05, 0x06, 0x07, 0x08, 0x09,
    0x10, 0x11, 0x12, 0x13, 0x14, 0x15, 0x16, 0x17, 0x18, 0x19, 0x20, 0xF7]

/-- A freshly created rover whose board refuses every write. -/
def sampleDown : Rover :=
  Rover.create (New { Conn.idle with writeOk := false }) []

/-- A connected server with nothing outstanding whose last command was at time 100. -/
def sampleIdle : Server :=
  { sampleStart with lastCmdTime := 100 }

/-- A connected server with ids t and a outstanding and the completion of a turn
request t waiting in the response channel. -/
def sampleTurnDone : Server :=
  { Server.connectedTo (Rover.create (New Conn.idle) [⟨"t", "TURN", 0⟩]) with
    pendingReqs := ["t", "a"] }

/-! ## Servo, pin-state and I2C requests of `board.go` -/

def I2CModeWrite : Nat := 0x00
def I2CModeRead : Nat := 0x01
def I2CModeContinuousRead : Nat := 0x02
def I2CModeStopReading : Nat := 0x03

/-- The Go method `Board.ServoConfig`. -/
def Board.ServoConfig (pin : Int) (max : Int) (min : Int) (b : Board) : Err × Board :=
  b.writeSysex [Sparky.ServoConfig, byte pin, low7 max, high7 max, low7 min, high7 min]

/-- The Go method `Board.PinStateQuery`. -/
def Board.PinStateQuery (pin : Int) (b : Board) : Err × Board :=
  b.writeSysex [Sparky.PinStateQuery, byte pin]

/-- The Go method `Board.I2cRead`; the two count bytes are computed on `byte(numBytes)`. -/
def Board.I2cRead (address : Int) (numBytes : Int) (b : Board) : Err × Board :=
  b.writeSysex [I2CRequest, byte address, (I2CModeRead <<< 3) % 256,
    byte numBytes &&& 0x7F, (byte numBytes >>> 7) &&& 0x7F]

/-- The loop of `Board.I2cWrite` over the data bytes still to append. -/
def i2cWriteLoop : List Nat → List Nat → List Nat
  | [], ret => ret
  | val :: rest, ret => i2cWriteLoop rest (ret ++ [val &&& 0x7F, (val >>> 7) &&& 0x7F])

/-- The Go method `Board.I2cWrite`; `data` holds bytes. -/
def Board.I2cWrite (address : Int) (data : List Nat) (b : Board) : Err × Board :=
  b.writeSysex (i2cWriteLoop data [I2CRequest, byte address, (I2CModeWrite <<< 3) % 256])

/-- The Go method `Board.I2cConfig`: `byte(delay & 0xFF)` and `byte((delay >> 8) & 0xFF)`. -/
def Board.I2cConfig (delay : Int) (b : Board) : Err × Board :=
  b.writeSysex [I2CConfig, byte delay, byte (delay / 256)]

/-- Whether a frame starts with F0, ends with F7 and holds only bytes below 0x80 in
between. -/
def sevenBitFrame (frame : List Nat) : Bool :=
  match frame with
  | [] => false
  | first :: rest =>
    first == 0xF0 && rest.getLast? == some 0xF7 && rest.dropLast.all fun x => decide (x < 0x80)

/-- The bytes that an operation with result `res` handed to the connection of board `b`. -/
def transmitted (b : Board) (res : Err × Board) : List Nat :=
  res.2.connection.sent.drop b.connection.sent.length

/-- A call of one of the sysex-emitting operations of the board, with its arguments.
Arguments of Go type `byte` are natural numbers, those of type `int` integers. -/
inductive SysexCall where
  | ServoConfig (pin : Int) (max : Int) (min : Int)
  | PinStateQuery (pin : Int)
  | I2cRead (address : Int) (numBytes : Int)
  | I2cWrite (address : Int) (data : List Nat)
  | I2cConfig (delay : Int)
  | RoverSonarTurn (dir : Nat) (angle : Int)
  | RoverRun (dir : Nat) (leftSpeed : Nat) (rightSpeed : Nat)
  | RoverTurn (side : Nat) (dir : Nat) (angle : Nat) (steps : Int)
  | RoverStep (dir : Nat) (steps : Int)
  | RoverWheelStep (which : Nat) (dir : Nat) (steps : Int)
  | RoverLight (red : Nat) (green : Nat) (blue : Nat)
  | RoverPlayTone (freq : Nat) (delay : Int)
  | RoverHeartBeat
  | RoverReadLineSensors

/-- The operation of the board that a call stands for. -/
def SysexCall.run (c : SysexCall) (b : Board) : Err × Board :=
  match c with
  | SysexCall.ServoConfig pin max min => b.ServoConfig pin max min
  | SysexCall.PinStateQuery pin => b.PinStateQuery pin
  | SysexCall.I2cRead address numBytes => b.I2cRead address numBytes
  | SysexCall.I2cWrite address data => b.I2cWrite address data
  | SysexCall.I2cConfig delay => b.I2cConfig delay
  | SysexCall.RoverSonarTurn dir angle => b.RoverSonarTurn dir angle
  | SysexCall.RoverRun dir leftSpeed rightSpeed => b.RoverRun dir leftSpeed rightSpeed
  | SysexCall.RoverTurn side dir angle steps => b.RoverTurn side dir angle steps
  | SysexCall.RoverStep dir steps => b.RoverStep dir steps
  | SysexCall.RoverWheelStep which dir steps => b.RoverWheelStep which dir steps
  | SysexCall.RoverLight red green blue => b.RoverLight red green blue
  | SysexCall.RoverPlayTone freq delay => b.RoverPlayTone freq delay
  | SysexCall.RoverHeartBeat => b.RoverHeartBeat
  | SysexCall.RoverReadLineSensors => b.RoverReadLineSensors

/-- The bytes that the operation copies into its frame whole, without splitting them
into seven-bit halves. -/
def SysexCall.wholeBytes (c : SysexCall) : List Nat :=
  match c with
  | SysexCall.ServoConfig pin _ _ => [byte pin]
  | SysexCall.PinStateQuery pin => [byte pin]
  | SysexCall.I2cRead address _ => [byte address]
  | SysexCall.I2cWrite address _ => [byte address]
  | SysexCall.I2cConfig delay => [byte delay, byte (delay / 256)]
  | SysexCall.RoverSonarTurn dir _ => [dir]
  | SysexCall.RoverRun dir _ _ => [dir]
  | SysexCall.RoverTurn side dir angle _ => [side, dir, angle]
  | SysexCall.RoverStep dir _ => [dir]
  | SysexCall.RoverWheelStep which dir _ => [which, dir]
  | SysexCall.RoverLight _ _ _ => []
  | SysexCall.RoverPlayTone _ _ => []
  | SysexCall.RoverHeartBeat => []
  | SysexCall.RoverReadLineSensors => []

/-! ## Tone handlers of `rover.go` that parse their arguments -/

/-- The decimal value of a string of digits after the value `n` read so far; `none`
when a character is not a digit. -/
def digitsValue : List Char → Nat → Option Nat
  | [], n => some n
  | c :: rest, n =>
    if 48 ≤ c.toNat ∧ c.toNat ≤ 57 then digitsValue rest (n * 10 + (c.toNat - 48)) else none

/-- The magnitude read by Go `strconv.Atoi` from the characters after the sign, as the
int it returns: 0 when there is no digit or a character is not a digit, and the
nearest bound of int64 when the value is out of range. -/
def atoiValue (negative : Bool) (cs : List Char) : Int :=
  if cs = [] then 0
  else
    match digitsValue cs 0 with
    | none => 0
    | some n =>
      if negative then (if n > 2 ^ 63 then -(2 ^ 63) else -(Int.ofNat n))
      else (if n ≥ 2 ^ 63 then 2 ^ 63 - 1 else Int.ofNat n)

/-- The value returned by Go `strconv.Atoi` on a 64-bit platform; the handlers of
`rover.go` drop the error that comes with it. -/
def Atoi (s : String) : Int :=
  match s.toList with
  | [] => 0
  | c :: rest =>
    if c = '-' then atoiValue true rest
    else if c = '+' then atoiValue false rest
    else atoiValue false (c :: rest)

/-- Go arithmetic on `int` (64 bits): the value `x` wrapped into int64. -/
def wrap64 (x : Int) : Int := (x + 2 ^ 63) % 2 ^ 64 - 2 ^ 63

/-- The Go method `Rover.PlayToneFor`. -/
def Rover.PlayToneFor (vars : Vars) (r : Rover) : Res (Err × Rover) :=
  Buzzer.PlayTone (vars "id") (Atoi (vars "freq")) (wrap64 (Atoi (vars "delay") * 1000)) r

/-- The Go method `Rover.PlayTone`. -/
def Rover.PlayTone (vars : Vars) (r : Rover) : Res (Err × Rover) :=
  Buzzer.PlayTone (vars "id") (Atoi (vars "freq")) 0 r

/-- Route variables of `/playToneFor/{id}/{freq}/{delay}`. -/
def varsOfTone (id : String) (freq : String) (delay : String) : Vars :=
  fun key => if key = "id" then id else if key = "freq" then freq
    else if key = "delay" then delay else ""

/-- Every descriptor and completion held by the adapters' queues and by the response
channel. -/
def Rover.held (r : Rover) : List Work :=
  r.sonar.rangeReqQueue ++ r.sonar.turnReqQueue ++ r.wheels.turnReqQueue ++
    r.wheels.stepReqQueue ++ r.buzzer.reqQueue ++ r.lineSensor.reqQueue ++ r.respQueue

/-- The ids of the outstanding set for which no queue and no channel holds a
descriptor or completion. -/
def Server.orphans (s : Server) : List String :=
  s.pendingReqs.filter fun id => !(s.rover.held.any fun w => decide (w.ID = id))

/-! ## Further sample values -/

/-- A board with the given pin table whose stream holds the given bytes. -/
def boardWith (pins : List Pin) (incoming : List Nat) : Board :=
  { New { Conn.idle with incoming := incoming } with pins := pins }

/-- A pin in mode Output (1) whose other fields are zero. -/
def Pin.output : Pin :=
  { Pin.zero with Mode := 1 }

/-! # Theorems -/

/-! ## Shared lemmas -/

theorem send_ok (ch : List Work) (w : Work) (h : ch.length < 100) :
    send ch w = Res.ok (ch ++ [w]) := by
  simp [send, chanCap, h]

theorem write_ok (data : List Nat) (b : Board) (hw : b.connection.writeOk = true) :
    b.write data =
      (Err.nil, { b with connection := { b.connection with sent := b.connection.sent ++ data } }) := by
  simp [Board.write, hw]

theorem writeSysex_ok (data : List Nat) (b : Board) (hw : b.connection.writeOk = true) :
    b.writeSysex data =
      (Err.nil, { b with connection :=
        { b.connection with sent := b.connection.sent ++ ([StartSysex] ++ (data ++ [EndSysex])) } }) := by
  simp [Board.writeSysex, Board.write, hw]

/-- The sysex loop stops at the first F7 and leaves what follows in the stream. -/
theorem sysexLoop_frame (l rest : List Nat) (h : ∀ x ∈ l, x ≠ 0xF7) (cur : List Nat) :
    sysexLoop (l ++ 0xF7 :: rest) cur = Res.ok (cur ++ l ++ [0xF7], rest) := by
  induction l generalizing cur with
  | nil => simp [sysexLoop, EndSysex]
  | cons x xs ih =>
    have hx : x ≠ 0xF7 := h x (List.mem_cons_self _ _)
    have hxs : ∀ y ∈ xs, y ≠ 0xF7 := fun y hy => h y (List.mem_cons_of_mem _ hy)
    simp [sysexLoop, EndSysex, hx, ih hxs]

theorem read_three (m d1 d2 : Nat) (rest : List Nat) (b : Board)
    (hread : b.connection.readOk = true) (hin : b.connection.incoming = m :: d1 :: d2 :: rest) :
    b.read 3 = Res.ok ([m, d1, d2], Err.nil,
      { b with connection := { b.connection with incoming := rest } }) := by
  simp [Board.read, hread, hin]

theorem process_eq_dispatch (m d1 d2 : Nat) (rest : List Nat) (b : Board)
    (hread : b.connection.readOk = true) (hin : b.connection.incoming = m :: d1 :: d2 :: rest) :
    b.process =
      Board.dispatch m d1 d2 { b with connection := { b.connection with incoming := rest } } := by
  simp only [Board.process, read_three m d1 d2 rest b hread hin, Res.bind]

theorem dispatch_sysex (d1 d2 : Nat) (b : Board) :
    Board.dispatch 0xF0 d1 d2 b =
      (sysexLoop b.connection.incoming [0xF0, d1, d2]).bind fun r =>
        ((Board.sysex r.1 { b with connection := { b.connection with incoming := r.2 } }).bind
          fun out => Res.ok (Err.nil, out.1, out.2)) := by
  simp [Board.dispatch, Sparky.ProtocolVersion, AnalogMessageRangeStart, AnalogMessageRangeEnd,
    DigitalMessageRangeStart, DigitalMessageRangeEnd, StartSysex]

/-- On a stream that starts with F0, two bytes, bytes without F7, then F7, `process`
runs the command switch on exactly that frame. -/
theorem process_sysex (p0 p1 : Nat) (q rest : List Nat) (b : Board)
    (hq : ∀ x ∈ q, x ≠ 0xF7)
    (hread : b.connection.readOk = true)
    (hin : b.connection.incoming = 0xF0 :: p0 :: p1 :: (q ++ 0xF7 :: rest)) :
    b.process =
      (Board.sysex (0xF0 :: p0 :: p1 :: (q ++ [0xF7]))
          { b with connection := { b.connection with incoming := rest } }).bind
        fun out => Res.ok (Err.nil, out.1, out.2) := by
  rw [process_eq_dispatch _ _ _ _ b hread hin, dispatch_sysex]
  simp [sysexLoop_frame q rest hq, Res.bind]

/-! ## C1: sysex framing -/

/-- C1 (amended): for every byte list p of length at least 2 with no byte equal to 0xF0 or
0xF7, `writeSysex p` transmits F0, p..., F7; `process`, run on a stream that starts with
those bytes, takes exactly them from the stream (its sysex loop ends with the buffer
F0, p..., F7 and leaves the rest of the stream untouched) and returns what the switch
on the command makes of that buffer, whose command byte (index 1) is p[0] and whose
payload (between the command and F7) is p[1:]. -/
theorem C1_sysex_frame_consumed (p rest : List Nat) (b tx : Board)
    (hlen : 2 ≤ p.length) (hp : ∀ x ∈ p, x ≠ 0xF0 ∧ x ≠ 0xF7)
    (hw : tx.connection.writeOk = true) (hread : b.connection.readOk = true)
    (hin : b.connection.incoming = (0xF0 :: p ++ [0xF7]) ++ rest) :
    (tx.writeSysex p).1 = Err.nil ∧
    (tx.writeSysex p).2.connection.sent = tx.connection.sent ++ (0xF0 :: p ++ [0xF7]) ∧
    sysexLoop (b.connection.incoming.drop 3) (b.connection.incoming.take 3)
      = Res.ok (0xF0 :: p ++ [0xF7], rest) ∧
    b.process =
      (Board.sysex (0xF0 :: p ++ [0xF7])
          { b with connection := { b.connection with incoming := rest } }).bind
        (fun out => Res.ok (Err.nil, out.1, out.2)) ∧
    (0xF0 :: p ++ [0xF7])[1]? = p.head? ∧
    ((0xF0 :: p ++ [0xF7]).drop 2).dropLast = p.tail := by
  match p, hlen, hp with
  | p0 :: p1 :: q, _, hp =>
    have hq : ∀ x ∈ q, x ≠ 0xF7 := fun x hx =>
      (hp x (List.mem_cons_of_mem _ (List.mem_cons_of_mem _ hx))).2
    have hin2 : b.connection.incoming = 0xF0 :: p0 :: p1 :: (q ++ 0xF7 :: rest) := by
      simp [hin]
    refine ⟨?_, ?_, ?_, ?_, ?_, ?_⟩
    · simp [Board.writeSysex, Board.write, hw]
    · simp [Board.writeSysex, Board.write, hw, StartSysex, EndSysex]
    · rw [hin2]
      simpa using sysexLoop_frame q rest hq [0xF0, p0, p1]
    · simpa using process_sysex p0 p1 q rest b hq hread hin2
    · simp
    · show ((p1 :: q) ++ [0xF7]).dropLast = p1 :: q
      exact List.dropLast_concat

/-- C1 (amended), instance: the sonar reply F0 50 01 2C 01 F7 followed by one more byte;
the sysex loop collects the six bytes of the frame and leaves the seventh. -/
theorem C1_sysex_frame_consumed_witness :
    sysexLoop [0x2C, 0x01, 0xF7, 0x99] [0xF0, 0x50, 0x01]
      = Res.ok ([0xF0, 0x50, 0x01, 0x2C, 0x01, 0xF7], [0x99]) := by
  have h := C1_sysex_frame_consumed [0x50, 0x01, 0x2C, 0x01] [0x99]
    (New { Conn.idle with incoming := [0xF0, 0x50, 0x01, 0x2C, 0x01, 0xF7, 0x99] })
    (New Conn.idle) (by decide) (by decide) rfl rfl rfl
  simpa [New, Conn.idle] using h.2.2.1

/-- C1 as stated fails on the one-byte payload 0x79: `writeSysex` transmits F0 79 F7, and
`process` on exactly those bytes does not complete the frame (the F7 is taken by the
three-byte read and the loop waits for another one); when a second frame follows,
its bytes are consumed into the same buffer. -/
theorem C1_counterexample :
    ((New Conn.idle).writeSysex [0x79]).2.connection.sent = [0xF0, 0x79, 0xF7] ∧
    (New { Conn.idle with incoming := [0xF0, 0x79, 0xF7] }).process = Res.blocked ∧
    (New { Conn.idle with
        incoming := [0xF0, 0x79, 0xF7, 0xF0, 0x50, 0x01, 0x2C, 0x01, 0xF7] }).process
      = Res.ok (Err.nil, { New Conn.idle with FirmwareName := [0x50, 0x01, 0x2C, 0x01] },
          [Event.FirmwareQuery [0x50, 0x01, 0x2C, 0x01]]) := by
  decide

/-! ## C2: FIFO correlation of sonar range requests -/

theorem readRange_ok (id : String) (r : Rover) (hw : r.board.connection.writeOk = true)
    (hroom : r.sonar.rangeReqQueue.length < 100) :
    ∃ r1, Sonar.ReadRange id r = Res.ok (Err.nil, r1) ∧
      r1.board.connection.writeOk = true ∧ r1.respQueue = r.respQueue ∧
      r1.sonar.rangeReqQueue = r.sonar.rangeReqQueue ++ [⟨id, SonarRangeReq, MAX_DISTANCE⟩] := by
  simp [Sonar.ReadRange, Board.RoverSonarRead, writeSysex_ok _ _ hw, send_ok _ _ hroom, Res.bind, hw]

theorem readRanges_ok (ids : List String) (r : Rover) (hw : r.board.connection.writeOk = true)
    (hroom : r.sonar.rangeReqQueue.length + ids.length ≤ 100) :
    ∃ r1, Sonar.readRanges ids r = Res.ok r1 ∧
      r1.respQueue = r.respQueue ∧
      r1.sonar.rangeReqQueue =
        r.sonar.rangeReqQueue ++ ids.map fun id => ⟨id, SonarRangeReq, MAX_DISTANCE⟩ := by
  induction ids generalizing r with
  | nil => exact ⟨r, rfl, rfl, by simp⟩
  | cons id rest ih =>
    simp only [List.length_cons] at hroom
    obtain ⟨r1, h1, hw1, hresp1, hq1⟩ := readRange_ok id r hw (by omega)
    obtain ⟨r2, h2, hresp2, hq2⟩ := ih r1 hw1 (by rw [hq1]; simp; omega)
    refine ⟨r2, ?_, ?_, ?_⟩
    · simp [Sonar.readRanges, h1, Res.bind, h2]
    · rw [hresp2, hresp1]
    · rw [hq2, hq1]; simp

theorem rangeResponses_ok (ds : List Nat) (reqs more : List Work) (r : Rover)
    (hq : r.sonar.rangeReqQueue = reqs ++ more) (hlen : reqs.length = ds.length)
    (hroom : r.respQueue.length + ds.length ≤ 100) :
    ∃ r2, Sonar.rangeResponses ds r = Res.ok r2 ∧
      r2.respQueue =
        r.respQueue ++
          List.zipWith (fun (req : Work) d => { req with Result := Int.ofNat d }) reqs ds ∧
      r2.sonar.rangeReqQueue = more := by
  induction ds generalizing r reqs with
  | nil =>
    have : reqs = [] := List.length_eq_zero.mp (by simpa using hlen)
    subst this
    exact ⟨r, rfl, by simp, by simpa using hq⟩
  | cons d rest ih =>
    match reqs, hlen with
    | req :: reqs1, hlen =>
      simp only [List.length_cons] at hroom hlen
      have hstep : Sonar.processRangeResponse d r =
          Res.ok { r with sonar := { r.sonar with rangeReqQueue := reqs1 ++ more },
                          respQueue := r.respQueue ++ [{ req with Result := Int.ofNat d }] } := by
        simp [Sonar.processRangeResponse, hq, recv, Res.bind,
          send_ok _ _ (show r.respQueue.length < 100 by omega)]
      obtain ⟨r2, h2, hresp2, hq2⟩ := ih reqs1
        { r with sonar := { r.sonar with rangeReqQueue := reqs1 ++ more },
                 respQueue := r.respQueue ++ [{ req with Result := Int.ofNat d }] }
        rfl (by omega) (by simp; omega)
      refine ⟨r2, ?_, ?_, hq2⟩
      · simp only [Sonar.rangeResponses, hstep, Res.bind]
        exact h2
      · rw [hresp2]; simp

/-- C2: for every list of ids r1..rN, on a sonar adapter whose range queue is empty and
whose board accepts every write, with room for N completions in the response channel
(so N is at most 100): the N successive `ReadRange` calls all return without pushing
anything, and the first N `SonarResponse` events then push to the response channel
exactly N completions of type RANGE, with ids r1..rN in that order, the k-th
carrying the k-th event's distance as its Result; the range queue is empty again. -/
theorem C2_sonar_fifo (ids : List String) (ds : List Nat) (r : Rover)
    (hw : r.board.connection.writeOk = true) (hq : r.sonar.rangeReqQueue = [])
    (hlen : ds.length = ids.length) (hroom : r.respQueue.length + ids.length ≤ 100) :
    ∃ r1 r2, Sonar.readRanges ids r = Res.ok r1 ∧ r1.respQueue = r.respQueue ∧
      Sonar.rangeResponses ds r1 = Res.ok r2 ∧
      r2.respQueue =
        r.respQueue ++ List.zipWith (fun id d => ⟨id, SonarRangeReq, Int.ofNat d⟩) ids ds ∧
      r2.sonar.rangeReqQueue = [] := by
  obtain ⟨r1, h1, hresp1, hq1⟩ := readRanges_ok ids r hw (by rw [hq]; simp; omega)
  rw [hq, List.nil_append] at hq1
  obtain ⟨r2, h2, hresp2, hq2⟩ := rangeResponses_ok ds
    (ids.map fun id => ⟨id, SonarRangeReq, MAX_DISTANCE⟩) [] r1 (by rw [hq1]; simp)
    (by simp [hlen]) (by rw [hresp1, hlen]; exact hroom)
  refine ⟨r1, r2, h1, hresp1, h2, ?_, hq2⟩
  rw [hresp2, hresp1, List.zipWith_map_left]

/-- C2, instance: requests a and b on a freshly created rover, then the distances 172
and 30. -/
theorem C2_sonar_fifo_witness :
    ∃ r1 r2, Sonar.readRanges ["a", "b"] (Rover.create (New Conn.idle) []) = Res.ok r1 ∧
      r1.respQueue = [] ∧
      Sonar.rangeResponses [172, 30] r1 = Res.ok r2 ∧
      r2.respQueue = [⟨"a", "RANGE", 172⟩, ⟨"b", "RANGE", 30⟩] ∧
      r2.sonar.rangeReqQueue = [] := by
  simpa [Rover.create, SonarRangeReq] using
    C2_sonar_fifo ["a", "b"] [172, 30] (Rover.create (New Conn.idle) []) rfl rfl rfl (by decide)

/-! ## C3: the outstanding set -/

theorem mem_mapInsert (keys : List String) (id k : String) :
    k ∈ mapInsert keys id ↔ k ∈ keys ∨ k = id := by
  unfold mapInsert
  split
  · constructor
    · intro h; exact Or.inl h
    · rintro (h | h)
      · exact h
      · subst h; assumption
  · simp

theorem mem_mapDelete (keys : List String) (id k : String) :
    k ∈ mapDelete keys id ↔ k ∈ keys ∧ k ≠ id := by
  simp [mapDelete]

theorem mem_drain (q : List Work) (pending out : List String) (k : String) :
    k ∈ (drain q pending out).1 ↔ k ∈ pending ∧ ∀ resp ∈ q, resp.ID ≠ k := by
  induction q generalizing pending out with
  | nil => simp [drain]
  | cons resp rest ih =>
    simp only [drain, ih, mem_mapDelete, List.mem_cons, forall_eq_or_imp]
    constructor
    · rintro ⟨⟨h1, h2⟩, h3⟩
      exact ⟨h1, fun h => h2 h.symm, h3⟩
    · rintro ⟨h1, h2, h3⟩
      exact ⟨⟨h1, fun h => h2 h.symm⟩, h3⟩

theorem drain_out (q : List Work) (pending out : List String) :
    (drain q pending out).2 = out ++ (q.map respLine).flatten := by
  induction q generalizing pending out with
  | nil => simp [drain]
  | cons resp rest ih => simp [drain, ih]

theorem foldl_pending (keys : List String) (acc : String) :
    keys.foldl (fun pending key => pending ++ " " ++ key) acc = acc ++ pendingText keys := by
  induction keys generalizing acc with
  | nil => simp [pendingText]
  | cons k ks ih =>
    simp only [pendingText, List.foldl_cons]
    rw [ih, ih ("" ++ " " ++ k)]
    simp [String.append_assoc]

theorem pendingText_cons (k : String) (ks : List String) :
    pendingText (k :: ks) = " " ++ k ++ pendingText ks := by
  simp only [pendingText, List.foldl_cons]
  rw [foldl_pending]
  simp [pendingText]

theorem pendingText_mem (keys : List String) (id : String) (h : id ∈ keys) :
    ∃ before after, pendingText keys = before ++ " " ++ id ++ after := by
  induction keys with
  | nil => simp at h
  | cons k ks ih =>
    rw [pendingText_cons]
    rcases List.mem_cons.mp h with h | h
    · subst h
      exact ⟨"", pendingText ks, by simp⟩
    · obtain ⟨b, a, hba⟩ := ih h
      exact ⟨" " ++ k ++ b, a, by rw [hba]; simp [String.append_assoc]⟩

theorem pendingText_ne_empty (keys : List String) (id : String) (h : id ∈ keys) :
    pendingText keys ≠ "" := by
  obtain ⟨b, a, hba⟩ := pendingText_mem keys id h
  intro he
  have := congrArg String.length (hba.symm.trans he)
  simp only [String.length_append] at this
  have h1 : " ".length = 1 := by decide
  have h0 : "".length = 0 := by decide
  omega


theorem handlePoll_connected (now : Nat) (s t : Server) (out : List String)
    (hc : s.connected = true) (h : HandlePoll none now s = Res.ok (t, out)) :
    t.connected = true ∧
    t.pendingReqs = (drain s.rover.respQueue s.pendingReqs []).1 ∧
    (pendingText t.pendingReqs ≠ "" →
      out = (drain s.rover.respQueue s.pendingReqs []).2 ++ ["_busy " ++ pendingText t.pendingReqs]) := by
  unfold HandlePoll at h
  simp only [hc, if_true, Bool.true_eq_false, if_false] at h
  unfold Rover.heartBeat at h
  split at h
  · split at h
    · split at h
      · split at h
        · simp only [Res.bind, Res.ok.injEq, Prod.mk.injEq] at h
          obtain ⟨rfl, rfl⟩ := h
          exact ⟨rfl, rfl, fun _ => rfl⟩
        · simp [Res.bind] at h
      · simp only [Res.ok.injEq, Prod.mk.injEq] at h
        obtain ⟨rfl, rfl⟩ := h
        exact ⟨rfl, rfl, fun _ => rfl⟩
    · simp only [Res.ok.injEq, Prod.mk.injEq] at h
      obtain ⟨rfl, rfl⟩ := h
      exact ⟨rfl, rfl, fun _ => rfl⟩
  · rename_i hne
    split at h
    · split at h
      · simp only [Res.bind, Res.ok.injEq, Prod.mk.injEq] at h
        obtain ⟨rfl, rfl⟩ := h
        exact ⟨rfl, rfl, fun hp => absurd hp hne⟩
      · simp [Res.bind] at h
    · simp only [Res.ok.injEq, Prod.mk.injEq] at h
      obtain ⟨rfl, rfl⟩ := h
      exact ⟨rfl, rfl, fun hp => absurd hp hne⟩

theorem invoke_connected (handler : Vars → Rover → Res (Err × Rover)) (vars : Vars) (now : Nat)
    (s t : Server) (e : Err) (out : List String) (hc : s.connected = true)
    (h : invokeHaandler handler vars now s = Res.ok (e, t, out)) :
    t.connected = true ∧
    (t.pendingReqs = s.pendingReqs ∨ t.pendingReqs = mapInsert s.pendingReqs (vars "id")) ∧
    (e = Err.nil → vars "id" ≠ "" → t.pendingReqs = mapInsert s.pendingReqs (vars "id")) := by
  unfold invokeHaandler at h
  simp only [hc, Bool.true_eq_false, if_false] at h
  cases hh : handler vars s.rover with
  | ok r =>
    obtain ⟨e1, rv⟩ := r
    rw [hh] at h
    cases e1 with
    | fail =>
      simp only [Res.bind, Res.ok.injEq, Prod.mk.injEq] at h
      obtain ⟨rfl, rfl, rfl⟩ := h
      exact ⟨rfl, Or.inl rfl, fun he => by cases he⟩
    | nil =>
      simp only [Res.bind] at h
      split at h
      · simp only [Res.ok.injEq, Prod.mk.injEq] at h
        obtain ⟨rfl, rfl, rfl⟩ := h
        exact ⟨rfl, Or.inr rfl, fun _ _ => rfl⟩
      · rename_i hid
        simp only [Res.ok.injEq, Prod.mk.injEq] at h
        obtain ⟨rfl, rfl, rfl⟩ := h
        exact ⟨rfl, Or.inl rfl, fun _ hne => absurd hne hid⟩
  | fault => rw [hh] at h; simp [Res.bind] at h
  | blocked => rw [hh] at h; simp [Res.bind] at h
  | exited => rw [hh] at h; simp [Res.bind] at h

theorem step_keeps (id : String) (s t : Server) (a : Action) (hc : s.connected = true)
    (hid : id ∈ s.pendingReqs) (hd : drainsId id s a = false) (h : s.step a = Res.ok t) :
    t.connected = true ∧ id ∈ t.pendingReqs := by
  cases a with
  | command handler vars now =>
    simp only [Server.step] at h
    cases hh : invokeHaandler handler vars now s with
    | ok r =>
      obtain ⟨e, u, out⟩ := r
      rw [hh] at h
      simp only [Res.bind, Res.ok.injEq] at h
      subst h
      obtain ⟨h1, h2, _⟩ := invoke_connected handler vars now s u e out hc hh
      refine ⟨h1, ?_⟩
      rcases h2 with h2 | h2
      · rw [h2]; exact hid
      · rw [h2]; exact (mem_mapInsert _ _ _).mpr (Or.inl hid)
    | fault => rw [hh] at h; simp [Res.bind] at h
    | blocked => rw [hh] at h; simp [Res.bind] at h
    | exited => rw [hh] at h; simp [Res.bind] at h
  | poll now =>
    simp only [Server.step] at h
    cases hh : HandlePoll none now s with
    | ok r =>
      obtain ⟨u, out⟩ := r
      rw [hh] at h
      simp only [Res.bind, Res.ok.injEq] at h
      subst h
      obtain ⟨h1, h2, _⟩ := handlePoll_connected now s u out hc hh
      refine ⟨h1, ?_⟩
      rw [h2, mem_drain]
      refine ⟨hid, fun resp hresp heq => ?_⟩
      have : drainsId id s (Action.poll now) = true := by
        simp only [drainsId, List.any_eq_true]
        exact ⟨resp, hresp, by simpa using heq⟩
      rw [hd] at this
      cases this
    | fault => rw [hh] at h; simp [Res.bind] at h
    | blocked => rw [hh] at h; simp [Res.bind] at h
    | exited => rw [hh] at h; simp [Res.bind] at h
  | receive =>
    simp only [Server.step] at h
    cases hh : s.rover.receive with
    | ok r =>
      rw [hh] at h
      simp only [Res.bind, Res.ok.injEq] at h
      subst h
      exact ⟨hc, hid⟩
    | fault => rw [hh] at h; simp [Res.bind] at h
    | blocked => rw [hh] at h; simp [Res.bind] at h
    | exited => rw [hh] at h; simp [Res.bind] at h

theorem runUndrained_keeps (id : String) (acts : List Action) (s t : Server)
    (hc : s.connected = true) (hid : id ∈ s.pendingReqs)
    (h : Server.runUndrained id s acts = some t) :
    t.connected = true ∧ id ∈ t.pendingReqs := by
  induction acts generalizing s with
  | nil =>
    simp only [Server.runUndrained, Option.some.injEq] at h
    subst h
    exact ⟨hc, hid⟩
  | cons a rest ih =>
    simp only [Server.runUndrained] at h
    split at h
    · cases h
    · rename_i hd
      cases hs : s.step a with
      | ok u =>
        rw [hs] at h
        obtain ⟨hc1, hid1⟩ := step_keeps id s u a hc hid (by simpa using hd) hs
        exact ih u hc1 hid1 h
      | fault => rw [hs] at h; cases h
      | blocked => rw [hs] at h; cases h
      | exited => rw [hs] at h; cases h


theorem invoke_pending (handler : Vars → Rover → Res (Err × Rover)) (vars : Vars) (now : Nat)
    (s t : Server) (e : Err) (out : List String) (hc : s.connected = true)
    (h : invokeHaandler handler vars now s = Res.ok (e, t, out)) :
    t.pendingReqs = s.pendingReqs ∨
      (e = Err.nil ∧ t.pendingReqs = mapInsert s.pendingReqs (vars "id")) := by
  unfold invokeHaandler at h
  simp only [hc, Bool.true_eq_false, if_false] at h
  cases hh : handler vars s.rover with
  | ok r =>
    obtain ⟨e1, rv⟩ := r
    rw [hh] at h
    cases e1 with
    | fail =>
      simp only [Res.bind, Res.ok.injEq, Prod.mk.injEq] at h
      obtain ⟨rfl, rfl, rfl⟩ := h
      exact Or.inl rfl
    | nil =>
      simp only [Res.bind] at h
      split at h
      · simp only [Res.ok.injEq, Prod.mk.injEq] at h
        obtain ⟨rfl, rfl, rfl⟩ := h
        exact Or.inr ⟨rfl, rfl⟩
      · simp only [Res.ok.injEq, Prod.mk.injEq] at h
        obtain ⟨rfl, rfl, rfl⟩ := h
        exact Or.inl rfl
  | fault => rw [hh] at h; simp [Res.bind] at h
  | blocked => rw [hh] at h; simp [Res.bind] at h
  | exited => rw [hh] at h; simp [Res.bind] at h

theorem step_keeps_out (id : String) (s t : Server) (a : Action) (hc : s.connected = true)
    (hid : id ∉ s.pendingReqs) (ha : acceptsId id s a = false) (h : s.step a = Res.ok t) :
    t.connected = true ∧ id ∉ t.pendingReqs := by
  cases a with
  | command handler vars now =>
    simp only [Server.step] at h
    cases hh : invokeHaandler handler vars now s with
    | ok r =>
      obtain ⟨e, u, out⟩ := r
      rw [hh] at h
      simp only [Res.bind, Res.ok.injEq] at h
      subst h
      obtain ⟨h1, _, _⟩ := invoke_connected handler vars now s u e out hc hh
      refine ⟨h1, ?_⟩
      rcases invoke_pending handler vars now s u e out hc hh with h2 | ⟨he, h2⟩
      · rw [h2]; exact hid
      · subst he
        rw [h2]
        intro hmem
        rcases (mem_mapInsert _ _ _).mp hmem with hm | hm
        · exact hid hm
        · simp only [acceptsId, hh] at ha
          exact (of_decide_eq_false ha) hm.symm
    | fault => rw [hh] at h; simp [Res.bind] at h
    | blocked => rw [hh] at h; simp [Res.bind] at h
    | exited => rw [hh] at h; simp [Res.bind] at h
  | poll now =>
    simp only [Server.step] at h
    cases hh : HandlePoll none now s with
    | ok r =>
      obtain ⟨u, out⟩ := r
      rw [hh] at h
      simp only [Res.bind, Res.ok.injEq] at h
      subst h
      obtain ⟨h1, h2, _⟩ := handlePoll_connected now s u out hc hh
      refine ⟨h1, ?_⟩
      rw [h2, mem_drain]
      exact fun hm => hid hm.1
    | fault => rw [hh] at h; simp [Res.bind] at h
    | blocked => rw [hh] at h; simp [Res.bind] at h
    | exited => rw [hh] at h; simp [Res.bind] at h
  | receive =>
    simp only [Server.step] at h
    cases hh : s.rover.receive with
    | ok r =>
      rw [hh] at h
      simp only [Res.bind, Res.ok.injEq] at h
      subst h
      exact ⟨hc, hid⟩
    | fault => rw [hh] at h; simp [Res.bind] at h
    | blocked => rw [hh] at h; simp [Res.bind] at h
    | exited => rw [hh] at h; simp [Res.bind] at h

theorem runUnaccepted_keeps_out (id : String) (acts : List Action) (s t : Server)
    (hc : s.connected = true) (hid : id ∉ s.pendingReqs)
    (h : Server.runUnaccepted id s acts = some t) :
    t.connected = true ∧ id ∉ t.pendingReqs := by
  induction acts generalizing s with
  | nil =>
    simp only [Server.runUnaccepted, Option.some.injEq] at h
    subst h
    exact ⟨hc, hid⟩
  | cons a rest ih =>
    simp only [Server.runUnaccepted] at h
    split at h
    · cases h
    · rename_i hd
      cases hs : s.step a with
      | ok u =>
        rw [hs] at h
        obtain ⟨hc1, hid1⟩ := step_keeps_out id s u a hc hid (by simpa using hd) hs
        exact ih u hc1 hid1 h
      | fault => rw [hs] at h; cases h
      | blocked => rw [hs] at h; cases h
      | exited => rw [hs] at h; cases h

/-- C3: on a connected rover, when a command returns success with a non-empty id, then
after any further sequence of command, poll and receive steps none of which is a poll
that drains a completion carrying that id, the id is in the outstanding set; a next
poll that drains no completion with that id keeps it and lists it on its `_busy` line,
and a next poll that drains a completion with that id leaves the set without it, and
the id stays out of the set through every later sequence of command, poll and receive
steps in which no command with that id is accepted. -/
theorem C3_outstanding_hygiene (handler : Vars → Rover → Res (Err × Rover)) (vars : Vars)
    (now : Nat) (s s1 : Server) (out : List String) (acts : List Action) (s2 : Server)
    (hc : s.connected = true) (hid : vars "id" ≠ "")
    (hcmd : invokeHaandler handler vars now s = Res.ok (Err.nil, s1, out))
    (hrun : Server.runUndrained (vars "id") s1 acts = some s2) :
    vars "id" ∈ s1.pendingReqs ∧ vars "id" ∈ s2.pendingReqs ∧
    ∀ (now2 : Nat) (s3 : Server) (out2 : List String),
      HandlePoll none now2 s2 = Res.ok (s3, out2) →
        (drainsId (vars "id") s2 (Action.poll now2) = true →
          vars "id" ∉ s3.pendingReqs ∧
          ∀ (later : List Action) (s4 : Server),
            Server.runUnaccepted (vars "id") s3 later = some s4 → vars "id" ∉ s4.pendingReqs) ∧
        (drainsId (vars "id") s2 (Action.poll now2) = false →
          vars "id" ∈ s3.pendingReqs ∧
          "_busy " ++ pendingText s3.pendingReqs ∈ out2 ∧
          ∃ before after, pendingText s3.pendingReqs = before ++ " " ++ vars "id" ++ after) := by
  obtain ⟨hc1, _, hins⟩ := invoke_connected handler vars now s s1 Err.nil out hc hcmd
  have hid1 : vars "id" ∈ s1.pendingReqs := by
    rw [hins rfl hid]
    exact (mem_mapInsert _ _ _).mpr (Or.inr rfl)
  obtain ⟨hc2, hid2⟩ := runUndrained_keeps (vars "id") acts s1 s2 hc1 hid1 hrun
  refine ⟨hid1, hid2, fun now2 s3 out2 hpoll => ?_⟩
  obtain ⟨hc3, hp, hbusy⟩ := handlePoll_connected now2 s2 s3 out2 hc2 hpoll
  constructor
  · intro hd
    have hout : vars "id" ∉ s3.pendingReqs := by
      intro hmem
      rw [hp, mem_drain] at hmem
      simp only [drainsId, List.any_eq_true, decide_eq_true_eq] at hd
      obtain ⟨resp, hresp, heq⟩ := hd
      exact hmem.2 resp hresp heq
    exact ⟨hout, fun later s4 hlater =>
      (runUnaccepted_keeps_out (vars "id") later s3 s4 hc3 hout hlater).2⟩
  · intro hd
    have hmem : vars "id" ∈ s3.pendingReqs := by
      rw [hp, mem_drain]
      refine ⟨hid2, fun resp hresp heq => ?_⟩
      have : drainsId (vars "id") s2 (Action.poll now2) = true := by
        simp only [drainsId, List.any_eq_true, decide_eq_true_eq]
        exact ⟨resp, hresp, heq⟩
      rw [hd] at this
      cases this
    refine ⟨hmem, ?_, pendingText_mem _ _ hmem⟩
    rw [hbusy (pendingText_ne_empty _ _ hmem)]
    simp

/-- C3, instance: with the sonar response F0 50 01 05 00 F7 waiting in the stream,
`/readSonar/abc` at time 10 puts abc in the set, the receive step that turns the
response into a completion keeps it, the poll at time 20 that drains the completion
removes it, and it is still absent after `/readLineSensor/b` at time 30 and a poll at
time 40. -/
theorem C3_outstanding_hygiene_witness :
    "abc" ∈ sampleReplyAsked.pendingReqs ∧ "abc" ∈ sampleReplyReceived.pendingReqs ∧
    "abc" ∉ sampleReplyDrained.pendingReqs ∧ "abc" ∉ sampleReplyLater.pendingReqs := by
  obtain ⟨h1, h2, h3⟩ := C3_outstanding_hygiene Rover.ReadSonar (varsOfId "abc") 10
    sampleReplyWaiting sampleReplyAsked [] [Action.receive] sampleReplyReceived
    rfl (by decide) (by decide) (by decide)
  obtain ⟨hd, _⟩ := h3 20 sampleReplyDrained ["sonarRange 5"] (by decide)
  obtain ⟨h4, h5⟩ := hd (by decide)
  exact ⟨h1, h2, h4,
    h5 [Action.command Rover.ReadLineSensor (varsOfId "b") 30, Action.poll 40] sampleReplyLater
      (by decide)⟩

/-! ## C4: digital port reconstruction -/

/-- Bits of `portValue ||| (1 <<< i)` computed on bytes, for a bit position below 8. -/
theorem testBit_setBit (acc i j : Nat) (hacc : acc < 256) (hi : i < 8) :
    ((acc ||| ((1 <<< i) % 256)) % 256).testBit j = (acc.testBit j || decide (i = j)) := by
  have h1 : (1 <<< i) % 256 = 2 ^ i := by
    rw [Nat.one_shiftLeft]
    exact Nat.mod_eq_of_lt (by
      calc 2 ^ i < 2 ^ 8 := Nat.pow_lt_pow_right (by norm_num) hi
        _ = 256 := by norm_num)
  have h2 : acc ||| 2 ^ i < 2 ^ 8 :=
    Nat.or_lt_two_pow (by simpa using hacc) (Nat.pow_lt_pow_right (by norm_num) hi)
  rw [h1, Nat.mod_eq_of_lt (by simpa using h2), Nat.testBit_or, Nat.testBit_two_pow]

theorem setBit_lt (acc i : Nat) : (acc ||| ((1 <<< i) % 256)) % 256 < 256 :=
  Nat.mod_lt _ (by norm_num)

/-- The loop of `DigitalWrite` on a port that lies within the pin table: it
returns a byte whose bit j is set when it was set before or j is one of the visited
positions and the pin at that position has a non-zero value. -/
theorem portLoop_bits (pins : List Pin) (port : Nat) (hport : 8 * port + 8 ≤ 256)
    (hlen : 8 * port + 8 ≤ pins.length) (is : List Nat) (his : ∀ i ∈ is, i < 8)
    (acc : Nat) (hacc : acc < 256) :
    ∃ m, portLoop pins port is acc = Res.ok m ∧ m < 256 ∧
      ∀ j, m.testBit j =
        (acc.testBit j || decide (j ∈ is ∧ ∃ p, pins[8 * port + j]? = some p ∧ p.Value ≠ 0)) := by
  induction is generalizing acc with
  | nil => exact ⟨acc, rfl, hacc, fun j => by simp⟩
  | cons i rest ih =>
    have hi : i < 8 := his i (List.mem_cons_self _ _)
    have hmod : (8 * port + i) % 256 = 8 * port + i := Nat.mod_eq_of_lt (by omega)
    have hb : 8 * port + i < pins.length := by omega
    have hget : pins[8 * port + i]? = some pins[8 * port + i] :=
      List.getElem?_eq_getElem hb
    rw [portLoop, hmod, hget]
    simp only
    by_cases hv : pins[8 * port + i].Value ≠ 0
    · rw [if_pos hv]
      obtain ⟨m, hm, hlt, hbits⟩ := ih (fun k hk => his k (List.mem_cons_of_mem _ hk)) _ (setBit_lt acc i)
      refine ⟨m, hm, hlt, fun j => ?_⟩
      rw [hbits j, testBit_setBit acc i j hacc hi]
      by_cases hij : i = j
      · subst hij
        simp [hget, hv]
      · have : ¬ j = i := fun h => hij h.symm
        simp [hij, this]
    · rw [if_neg hv]
      obtain ⟨m, hm, hlt, hbits⟩ := ih (fun k hk => his k (List.mem_cons_of_mem _ hk)) acc hacc
      refine ⟨m, hm, hlt, fun j => ?_⟩
      rw [hbits j]
      by_cases hij : j = i
      · subst hij
        have hv0 : pins[8 * port + j].Value = 0 := by simpa using hv
        simp [hget, hv0]
      · simp [hij]


theorem byte_div8 (pin : Int) (h0 : 0 ≤ pin) (h1 : pin < 256) : byte (pin / 8) = (pin / 8).toNat := by
  unfold byte
  omega

theorem and7F_of_lt (x : Nat) (h : x < 128) : x &&& 0x7F = x := by
  have := Nat.and_pow_two_sub_one_eq_mod x 7
  simp at this
  rw [this]
  exact Nat.mod_eq_of_lt h

theorem digitalMessage_or (port : Nat) (h : port < 32) : (DigitalMessage ||| port) % 256 = 0x90 ||| port := by
  unfold DigitalMessage
  interval_cases port <;> rfl

/-- One `DigitalWrite` on a working connection, for a pin below 256 whose port lies
within the pin table: the message sent, the bits of its mask and the pin table after
the call, which is the old one with `v` stored as the Value of the pin. -/
theorem digitalWrite_ok (b : Board) (pin v : Int) (hw : b.connection.writeOk = true)
    (h0 : 0 ≤ pin) (h1 : pin < 256) (hcover : 8 * (pin / 8).toNat + 8 ≤ b.pins.length) :
    ∃ b2 mask, b.DigitalWrite pin v = Res.ok (Err.nil, b2) ∧
      b2.pins.length = b.pins.length ∧ b2.connection.writeOk = true ∧
      b2.connection.sent = b.connection.sent ++ [0x90 ||| (pin / 8).toNat, mask &&& 0x7F, mask >>> 7] ∧
      mask < 256 ∧
      (∀ i, i < 8 →
        (mask.testBit i = true ↔ ∃ p, b2.pins[8 * (pin / 8).toNat + i]? = some p ∧ p.Value ≠ 0)) ∧
      ∃ p, b.pins[pin.toNat]? = some p ∧ b2.pins = b.pins.set pin.toNat { p with Value := v } := by
  have hport : (pin / 8).toNat < 32 := by omega
  have hlt : pin.toNat < b.pins.length := by omega
  have hget : b.pins[pin.toNat]? = some b.pins[pin.toNat] := List.getElem?_eq_getElem hlt
  obtain ⟨m, hm, hmlt, hbits⟩ := portLoop_bits
    (b.pins.set pin.toNat { b.pins[pin.toNat] with Value := v }) (pin / 8).toNat (by omega)
    (by rw [List.length_set]; exact hcover) [0, 1, 2, 3, 4, 5, 6, 7]
    (by intro i hi; simp at hi; omega) 0 (by norm_num)
  refine ⟨{ b with
      pins := b.pins.set pin.toNat { b.pins[pin.toNat] with Value := v },
      connection := { b.connection with
        sent := b.connection.sent ++
          [(DigitalMessage ||| (pin / 8).toNat) % 256, m &&& 0x7F, (m >>> 7) &&& 0x7F] } },
    m, ?_, ?_, ?_, ?_, hmlt, ?_, ?_⟩
  · rw [Board.DigitalWrite, if_neg (by omega), hget]
    simp only [byte_div8 pin h0 h1, hm, Res.bind]
    rw [write_ok _ _ (by simpa using hw)]
  · simp
  · simpa using hw
  · have h7 : (m >>> 7) &&& 0x7F = m >>> 7 := by
      apply and7F_of_lt
      rw [Nat.shiftRight_eq_div_pow]
      omega
    simp [digitalMessage_or _ hport, h7]
  · intro i hi
    rw [hbits i]
    have hmem : i ∈ [0, 1, 2, 3, 4, 5, 6, 7] := by
      simp
      omega
    simp [hmem]
  · exact ⟨b.pins[pin.toNat], hget, rfl⟩

theorem digitalWrites_ok (calls : List (Int × Int)) (b : Board) (hw : b.connection.writeOk = true)
    (hcalls : ∀ c ∈ calls, 0 ≤ c.1 ∧ c.1 < 256 ∧ 8 * (c.1 / 8).toNat + 8 ≤ b.pins.length) :
    ∃ b1, Board.digitalWrites calls b = Res.ok b1 ∧
      b1.pins.length = b.pins.length ∧ b1.connection.writeOk = true := by
  induction calls generalizing b with
  | nil => exact ⟨b, rfl, rfl, hw⟩
  | cons c rest ih =>
    obtain ⟨h0, h1, hcov⟩ := hcalls c (List.mem_cons_self _ _)
    obtain ⟨b2, _, hdw, hlen, hw2, _⟩ := digitalWrite_ok b c.1 c.2 hw h0 h1 hcov
    obtain ⟨b1, hb1, hlen1, hw1⟩ := ih b2 hw2 (fun d hd => by
      rw [hlen]; exact hcalls d (List.mem_cons_of_mem _ hd))
    exact ⟨b1, by simp [Board.digitalWrites, hdw, Res.bind, hb1], by rw [hlen1, hlen], hw1⟩

/-- C4: on a board that accepts writes, for every sequence of `DigitalWrite(pin, v)` calls
with 0 <= pin < 256 whose ports lie whole within the pin table, every call returns,
and the last call transmits the port message 90|port, mask & 0x7F, mask >> 7 with
port = pin / 8, where mask is an 8-bit value whose bit i is 1 if and only if
pins[port*8+i].Value != 0 in the pin table after that call.  That table is the one
before the call with v stored as the Value of the pin, so the bit of the pin itself is
1 if and only if v != 0 and every other bit of the port follows the Value that the
earlier calls left. -/
theorem C4_digital_port_reconstruction (b : Board) (calls : List (Int × Int)) (pin v : Int)
    (hw : b.connection.writeOk = true)
    (hcalls : ∀ c ∈ calls, 0 ≤ c.1 ∧ c.1 < 256 ∧ 8 * (c.1 / 8).toNat + 8 ≤ b.pins.length)
    (h0 : 0 ≤ pin) (h1 : pin < 256) (hcover : 8 * (pin / 8).toNat + 8 ≤ b.pins.length) :
    ∃ b1 b2 mask, Board.digitalWrites calls b = Res.ok b1 ∧
      Board.digitalWrites (calls ++ [(pin, v)]) b = Res.ok b2 ∧
      b1.DigitalWrite pin v = Res.ok (Err.nil, b2) ∧
      b2.connection.sent =
        b1.connection.sent ++ [0x90 ||| (pin / 8).toNat, mask &&& 0x7F, mask >>> 7] ∧
      mask < 256 ∧
      (∀ i, i < 8 →
        (mask.testBit i = true ↔ ∃ p, b2.pins[8 * (pin / 8).toNat + i]? = some p ∧ p.Value ≠ 0)) ∧
      (∃ p, b1.pins[pin.toNat]? = some p ∧ b2.pins = b1.pins.set pin.toNat { p with Value := v }) ∧
      (mask.testBit (pin.toNat - 8 * (pin / 8).toNat) = true ↔ v ≠ 0) ∧
      (∀ i, i < 8 → 8 * (pin / 8).toNat + i ≠ pin.toNat →
        (mask.testBit i = true ↔ ∃ p, b1.pins[8 * (pin / 8).toNat + i]? = some p ∧ p.Value ≠ 0)) := by
  obtain ⟨b1, hb1, hlen1, hw1⟩ := digitalWrites_ok calls b hw hcalls
  obtain ⟨b2, mask, hdw, _, _, hsent, hmask, hbits, p, hp, hpins⟩ :=
    digitalWrite_ok b1 pin v hw1 h0 h1 (by rw [hlen1]; exact hcover)
  have hlt : pin.toNat < b1.pins.length := by rw [hlen1]; omega
  refine ⟨b1, b2, mask, hb1, ?_, hdw, hsent, hmask, hbits, ⟨p, hp, hpins⟩, ?_, ?_⟩
  · have happ : ∀ (l : List (Int × Int)) (x y : Board), Board.digitalWrites l x = Res.ok y →
        Board.digitalWrites (l ++ [(pin, v)]) x = (y.DigitalWrite pin v).bind fun r => Res.ok r.2 := by
      intro l
      induction l with
      | nil =>
        intro x y h
        simp only [Board.digitalWrites, Res.ok.injEq] at h
        subst h
        simp only [List.nil_append, Board.digitalWrites]
      | cons c rest ih =>
        intro x y h
        simp only [List.cons_append, Board.digitalWrites] at h ⊢
        cases hx : x.DigitalWrite c.1 c.2 with
        | ok r =>
          rw [hx] at h
          simp only [Res.bind] at h ⊢
          exact ih r.2 y h
        | fault => rw [hx] at h; simp [Res.bind] at h
        | blocked => rw [hx] at h; simp [Res.bind] at h
        | exited => rw [hx] at h; simp [Res.bind] at h
    rw [happ calls b b1 hb1, hdw]
    rfl
  · have hi : pin.toNat - 8 * (pin / 8).toNat < 8 := by omega
    have hidx : 8 * (pin / 8).toNat + (pin.toNat - 8 * (pin / 8).toNat) = pin.toNat := by omega
    rw [hbits _ hi, hidx, hpins, List.getElem?_set_self hlt]
    simp
  · intro i hi hne
    rw [hbits i hi, hpins, List.getElem?_set_ne (fun h => hne h.symm)]

/-- C4, instance: `DigitalWrite(2, 1)` then `DigitalWrite(5, 1)` on a board of eight
zero pins. -/
theorem C4_digital_port_reconstruction_witness :
    ∃ b1 b2 mask, Board.digitalWrites [(2, 1)] sampleBoard8 = Res.ok b1 ∧
      Board.digitalWrites ([(2, 1)] ++ [(5, 1)]) sampleBoard8 = Res.ok b2 ∧
      b1.DigitalWrite 5 1 = Res.ok (Err.nil, b2) ∧
      b2.connection.sent =
        b1.connection.sent ++ [0x90 ||| ((5 : Int) / 8).toNat, mask &&& 0x7F, mask >>> 7] ∧
      mask < 256 ∧
      (∀ i, i < 8 →
        (mask.testBit i = true ↔
          ∃ p, b2.pins[8 * ((5 : Int) / 8).toNat + i]? = some p ∧ p.Value ≠ 0)) ∧
      (∃ p, b1.pins[(5 : Int).toNat]? = some p ∧
        b2.pins = b1.pins.set (5 : Int).toNat { p with Value := 1 }) ∧
      (mask.testBit ((5 : Int).toNat - 8 * ((5 : Int) / 8).toNat) = true ↔ (1 : Int) ≠ 0) ∧
      (∀ i, i < 8 → 8 * ((5 : Int) / 8).toNat + i ≠ (5 : Int).toNat →
        (mask.testBit i = true ↔
          ∃ p, b1.pins[8 * ((5 : Int) / 8).toNat + i]? = some p ∧ p.Value ≠ 0)) :=
  C4_digital_port_reconstruction sampleBoard8 [(2, 1)] 5 1 rfl (by decide) (by decide)
    (by decide) (by decide)

/-! ## C5: the digital write scenario -/

/-- C5 (amended): on a board that accepts writes and whose pins 0..7 all have value 0,
`SetPinMode(2, Output)`, `DigitalWrite(2, 1)`, `DigitalWrite(5, 1)` all return without
error and transmit F4 02 01, then 90 04 00, then 90 24 00: the last three bytes are
90 24 00 (pins 2 and 5 both belong to port 0). -/
theorem C5_digital_write_scenario (b : Board) (hw : b.connection.writeOk = true)
    (hlen : 8 ≤ b.pins.length) (hzero : ∀ i, i < 8 → ∀ p, b.pins[i]? = some p → p.Value = 0) :
    ∃ b1 b2 b3, b.SetPinMode 2 Output = Res.ok (Err.nil, b1) ∧
      b1.DigitalWrite 2 1 = Res.ok (Err.nil, b2) ∧
      b2.DigitalWrite 5 1 = Res.ok (Err.nil, b3) ∧
      b3.connection.sent =
        b.connection.sent ++ [0xF4, 0x02, 0x01] ++ [0x90, 0x04, 0x00] ++ [0x90, 0x24, 0x00] := by
  obtain ⟨pins, fw, pv, cn, conn, ap⟩ := b
  obtain ⟨inc, sent, wok, rok⟩ := conn
  simp only at hw hlen hzero
  subst hw
  match pins, hlen, hzero with
  | p0 :: p1 :: p2 :: p3 :: p4 :: p5 :: p6 :: p7 :: rest, _, hzero =>
    have h0 : p0.Value = 0 := hzero 0 (by norm_num) p0 (by simp)
    have h1 : p1.Value = 0 := hzero 1 (by norm_num) p1 (by simp)
    have h2 : p2.Value = 0 := hzero 2 (by norm_num) p2 (by simp)
    have h3 : p3.Value = 0 := hzero 3 (by norm_num) p3 (by simp)
    have h4 : p4.Value = 0 := hzero 4 (by norm_num) p4 (by simp)
    have h5 : p5.Value = 0 := hzero 5 (by norm_num) p5 (by simp)
    have h6 : p6.Value = 0 := hzero 6 (by norm_num) p6 (by simp)
    have h7 : p7.Value = 0 := hzero 7 (by norm_num) p7 (by simp)
    simp [Board.SetPinMode, Board.DigitalWrite, Board.write, portLoop, byte, Res.bind, Output,
      PinMode, DigitalMessage, h0, h1, h2, h3, h4, h5, h6, h7]
    decide

/-- C5 (amended), instance: the board of eight zero pins. -/
theorem C5_digital_write_scenario_witness :
    ∃ b1 b2 b3, sampleBoard8.SetPinMode 2 Output = Res.ok (Err.nil, b1) ∧
      b1.DigitalWrite 2 1 = Res.ok (Err.nil, b2) ∧
      b2.DigitalWrite 5 1 = Res.ok (Err.nil, b3) ∧
      b3.connection.sent =
        sampleBoard8.connection.sent ++ [0xF4, 0x02, 0x01] ++ [0x90, 0x04, 0x00] ++ [0x90, 0x24, 0x00] :=
  C5_digital_write_scenario sampleBoard8 rfl (by decide) (by decide)

/-- C5 as stated fails on the board of eight zero pins: the three calls return after
writing F4 02 01 90 04 00 90 24 00, whose last three bytes are 90 24 00, not 92 24 00. -/
theorem C5_counterexample :
    setModeThenWrites sampleBoard8
      = Res.ok [0xF4, 0x02, 0x01, 0x90, 0x04, 0x00, 0x90, 0x24, 0x00] ∧
    [0xF4, 0x02, 0x01, 0x90, 0x04, 0x00, 0x90, 0x24, 0x00].drop 6 = [0x90, 0x24, 0x00] ∧
    [0x90, 0x24, 0x00] ≠ [0x92, 0x24, 0x00] := by
  decide

/-! ## C6: the 14-bit split and merge -/

theorem low7_natCast (v : Nat) : low7 (v : Int) = v &&& 0x7F := by
  have h := Nat.and_pow_two_sub_one_eq_mod v 7
  simp at h
  rw [h]
  unfold low7
  omega

theorem high7_natCast (v : Nat) : high7 (v : Int) = (v >>> 7) &&& 0x7F := by
  have h := Nat.and_pow_two_sub_one_eq_mod (v >>> 7) 7
  simp at h
  rw [h, Nat.shiftRight_eq_div_pow]
  unfold high7
  omega

theorem merge14 (v : Nat) (hv : v ≤ 16383) :
    (v &&& 0x7F) ||| (((v >>> 7) &&& 0x7F) <<< 7) = v := by
  have h1 := Nat.and_pow_two_sub_one_eq_mod v 7
  have h2 := Nat.and_pow_two_sub_one_eq_mod (v >>> 7) 7
  simp at h1 h2
  rw [h1, h2, Nat.shiftRight_eq_div_pow, Nat.shiftLeft_eq, Nat.lor_comm]
  have h3 := Nat.mul_add_lt_is_or (i := 7) (b := v % 128) (Nat.mod_lt _ (by norm_num))
    (v / 2 ^ 7 % 128)
  rw [Nat.mul_comm] at h3
  rw [← h3]
  omega

/-- C6 (amended): for every v in [0, 16383] and every pin in 0..15 that is below the
length of the pin table, on a board that accepts writes, `AnalogWrite(pin, v)` returns
without error and transmits exactly the three bytes E0+pin, v & 0x7F, (v >> 7) & 0x7F;
the reassembly `byte1 | byte2 << 7` of the two data bytes gives back v, and the analog
case of `process`, given those three bytes on a board where channel `pin` is mapped to
an existing pin, stores v in that pin and publishes v on `AnalogRead<pin>`. -/
theorem C6_analog_write_split_merge (b : Board) (pin v : Nat) (hw : b.connection.writeOk = true)
    (hv : v ≤ 16383) (hpin : pin ≤ 15) (hlen : pin < b.pins.length) :
    (∃ b1, b.AnalogWrite (pin : Int) (v : Int) = Res.ok (Err.nil, b1) ∧
      b1.connection.sent = b.connection.sent ++ [0xE0 + pin, v &&& 0x7F, (v >>> 7) &&& 0x7F]) ∧
    Int.ofNat ((v &&& 0x7F) ||| (((v >>> 7) &&& 0x7F) <<< 7)) = (v : Int) ∧
    ∀ (rb : Board) (a : Nat) (p : Pin), rb.analogPins[pin]? = some a → rb.pins[a]? = some p →
      Board.dispatch (0xE0 + pin) (v &&& 0x7F) ((v >>> 7) &&& 0x7F) rb =
        Res.ok (Err.nil, { rb with pins := rb.pins.set a { p with Value := (v : Int) } },
          [Event.AnalogRead pin (v : Int)]) := by
  have hget : b.pins[pin]? = some b.pins[pin] := List.getElem?_eq_getElem hlen
  have hbyte : byte (pin : Int) = pin := by unfold byte; omega
  have hor : (AnalogMessage ||| pin) % 256 = 0xE0 + pin := by
    unfold AnalogMessage
    interval_cases pin <;> rfl
  have hand : (0xE0 + pin) &&& 0x0F = pin := by
    interval_cases pin <;> rfl
  have hmerge : Int.ofNat ((v &&& 0x7F) ||| (((v >>> 7) &&& 0x7F) <<< 7)) = (v : Int) := by
    rw [merge14 v hv]
    rfl
  refine ⟨⟨{ b with
      pins := b.pins.set pin { b.pins[pin] with Value := (v : Int) },
      connection := { b.connection with
        sent := b.connection.sent ++ [0xE0 + pin, v &&& 0x7F, (v >>> 7) &&& 0x7F] } }, ?_, ?_⟩,
    hmerge, ?_⟩
  · rw [Board.AnalogWrite, if_neg (by omega)]
    simp only [Int.toNat_ofNat, hget, hbyte, hor, low7_natCast, high7_natCast]
    rw [Board.write, if_pos (by simpa using hw)]
  · simp
  · intro rb a p ha hp
    have h1 : ¬ (Sparky.ProtocolVersion = 0xE0 + pin) := by
      unfold Sparky.ProtocolVersion
      omega
    have h2 : AnalogMessageRangeStart ≤ 0xE0 + pin ∧ AnalogMessageRangeEnd ≥ 0xE0 + pin := by
      unfold AnalogMessageRangeStart AnalogMessageRangeEnd
      omega
    rw [Board.dispatch, if_neg h1, if_pos h2, hand, ha]
    simp only [hp, hmerge]

/-- C6 (amended), instance: pin 3 and value 300 on the board of eight zero pins. -/
theorem C6_analog_write_split_merge_witness :
    (∃ b1, sampleBoard8.AnalogWrite ((3 : Nat) : Int) ((300 : Nat) : Int) = Res.ok (Err.nil, b1) ∧
      b1.connection.sent =
        sampleBoard8.connection.sent ++ [0xE0 + 3, 300 &&& 0x7F, (300 >>> 7) &&& 0x7F]) ∧
    Int.ofNat ((300 &&& 0x7F) ||| (((300 >>> 7) &&& 0x7F) <<< 7)) = ((300 : Nat) : Int) ∧
    ∀ (rb : Board) (a : Nat) (p : Pin), rb.analogPins[3]? = some a → rb.pins[a]? = some p →
      Board.dispatch (0xE0 + 3) (300 &&& 0x7F) ((300 >>> 7) &&& 0x7F) rb =
        Res.ok (Err.nil, { rb with pins := rb.pins.set a { p with Value := ((300 : Nat) : Int) } },
          [Event.AnalogRead 3 ((300 : Nat) : Int)]) :=
  C6_analog_write_split_merge sampleBoard8 3 300 rfl (by norm_num) (by norm_num) (by decide)

/-- C6 as stated fails on a board whose pin table is empty (the table `New` builds):
`AnalogWrite(0, 5)` indexes `pins[0]`, panics, and transmits nothing. -/
theorem C6_counterexample :
    (New Conn.idle).AnalogWrite 0 5 = Res.fault := by
  decide

/-! ## C7: sonar distance decoding -/

/-- C7 at a failing input: on the frame F0 50 01 00 02 F7 (low = 0, high = 2) `process`
publishes the distance 0 on `SonarResponse`, and the completion of the pending range
request carries Result 0, where `(high << 7) | low` is 256: the shift is done on a
byte and loses every bit of `high` but the lowest.  On F0 50 01 2C 01 F7 the
published distance is 172. -/
theorem C7_sonar_distance_truncated :
    (New { Conn.idle with incoming := [0xF0, 0x50, 0x01, 0x00, 0x02, 0xF7] }).process
      = Res.ok (Err.nil, New Conn.idle, [Event.SonarResponse 0]) ∧
    (Rover.receive
        { Rover.create (New { Conn.idle with incoming := [0xF0, 0x50, 0x01, 0x00, 0x02, 0xF7] }) [] with
          sonar := { rangeReqQueue := [⟨"abc", "RANGE", 9999⟩], turnReqQueue := [] } })
      = Res.ok (Rover.create (New Conn.idle) [⟨"abc", "RANGE", 0⟩]) ∧
    ((0x02 <<< 7) ||| 0x00 : Nat) = 256 ∧
    (New { Conn.idle with incoming := [0xF0, 0x50, 0x01, 0x2C, 0x01, 0xF7] }).process
      = Res.ok (Err.nil, New Conn.idle, [Event.SonarResponse 172]) := by
  decide

/-! ## C8: sonar turn angle -/

/-- C8 at a failing input: `Sonar.Turn("x", "left", -5)` transmits F0 50 02 00 7B 7F F7, whose
angle bytes reassemble to 16379, where -5 mod 91 is 86 (Go's `%` keeps the sign of the
dividend, so the angle stays -5 and its two's-complement bits are sent).  For angle
200 and direction right the frame is F0 50 02 01 12 00 F7. -/
theorem C8_sonar_turn_negative_angle :
    (Sonar.Turn "x" "left" (-5) (Rover.create (New Conn.idle) [])).bind
        (fun r => Res.ok (r.1, r.2.board.connection.sent))
      = Res.ok (Err.nil, [0xF0, 0x50, 0x02, 0x00, 0x7B, 0x7F, 0xF7]) ∧
    ((0x7B ||| (0x7F <<< 7) : Nat) = 16379) ∧ ((-5 : Int) % 91 = 86) ∧
    (Sonar.Turn "x" "right" 200 (Rover.create (New Conn.idle) [])).bind
        (fun r => Res.ok (r.1, r.2.board.connection.sent))
      = Res.ok (Err.nil, [0xF0, 0x50, 0x02, 0x01, 0x12, 0x00, 0xF7]) := by
  decide

/-! ## C9: line response duplication -/

theorem processLineResponse_ok (val : Nat) (r : Rover) (req : Work) (more : List Work)
    (hq : r.lineSensor.reqQueue = req :: more) (hroom : r.respQueue.length + 2 ≤ 100) :
    LineSensor.processLineResponse val r =
      Res.ok { r with
        lineSensor := { r.lineSensor with reqQueue := more },
        respQueue := r.respQueue ++
          [⟨req.ID, LineLeftResp, Int.ofNat ((255 - val % 256) &&& 0x01)⟩,
           ⟨req.ID, LineRightResp, Int.ofNat ((255 - (val >>> 1) % 256) &&& 0x01)⟩] } := by
  have h1 : r.respQueue.length < 100 := by omega
  have h2 : (r.respQueue ++
      [(⟨req.ID, LineLeftResp, Int.ofNat ((255 - val % 256) &&& 0x01)⟩ : Work)]).length < 100 := by
    simp; omega
  simp only [LineSensor.processLineResponse, hq, recv, Res.bind, send_ok _ _ h1, send_ok _ _ h2]
  simp

/-- C9: for every id, on a line-sensor adapter whose queue is empty, whose board accepts
the write and whose response channel has room for two completions, one
`readLineSensors(id)` returns without error leaving exactly one descriptor queued and
nothing pushed; one `RoverLineResponse` event then dequeues that descriptor (the queue
is empty again) and pushes exactly two completions, the first of type LINE_LEFT and
the second of type LINE_RIGHT, both with the id of the request. -/
theorem C9_line_response_duplication (id : String) (val : Nat) (r : Rover)
    (hw : r.board.connection.writeOk = true) (hq : r.lineSensor.reqQueue = [])
    (hroom : r.respQueue.length + 2 ≤ 100) :
    ∃ r1 r2, LineSensor.readLineSensors id r = Res.ok (Err.nil, r1) ∧
      r1.lineSensor.reqQueue = [⟨id, Main.LineReq, 0⟩] ∧ r1.respQueue = r.respQueue ∧
      LineSensor.processLineResponse val r1 = Res.ok r2 ∧
      r2.lineSensor.reqQueue = [] ∧
      ∃ left right, r2.respQueue =
        r.respQueue ++ [⟨id, LineLeftResp, left⟩, ⟨id, LineRightResp, right⟩] := by
  have hsend : send r.lineSensor.reqQueue ⟨id, Main.LineReq, 0⟩ = Res.ok [⟨id, Main.LineReq, 0⟩] := by
    rw [hq]; rfl
  have h1 : LineSensor.readLineSensors id r = Res.ok (Err.nil,
      { r with lineSensor := { r.lineSensor with reqQueue := [⟨id, Main.LineReq, 0⟩] },
               board := (r.board.RoverReadLineSensors).2 }) := by
    simp only [LineSensor.readLineSensors, hsend, Res.bind, Board.RoverReadLineSensors,
      writeSysex_ok _ _ hw]
  refine ⟨_, _, h1, rfl, rfl, processLineResponse_ok val _ ⟨id, Main.LineReq, 0⟩ [] rfl hroom, rfl,
    _, _, rfl⟩

/-- C9, instance: request q7 on a freshly created rover, then the event value 1. -/
theorem C9_line_response_duplication_witness :
    ∃ r1 r2, LineSensor.readLineSensors "q7" (Rover.create (New Conn.idle) []) = Res.ok (Err.nil, r1) ∧
      r1.lineSensor.reqQueue = [⟨"q7", Main.LineReq, 0⟩] ∧
      r1.respQueue = (Rover.create (New Conn.idle) []).respQueue ∧
      LineSensor.processLineResponse 1 r1 = Res.ok r2 ∧
      r2.lineSensor.reqQueue = [] ∧
      ∃ left right, r2.respQueue =
        (Rover.create (New Conn.idle) []).respQueue ++
          [⟨"q7", LineLeftResp, left⟩, ⟨"q7", LineRightResp, right⟩] :=
  C9_line_response_duplication "q7" 1 (Rover.create (New Conn.idle) []) rfl rfl (by decide)

/-! ## C10: line response decoding -/

/-- The frame F0 55 01 left right F7 publishes `(right << 1) | left` on `RoverLineResponse`. -/
theorem process_line_frame (left right : Nat) (hl : left ≤ 1) (hr : right ≤ 1) (rest : List Nat)
    (b : Board) (hread : b.connection.readOk = true)
    (hin : b.connection.incoming = [0xF0, 0x55, 0x01, left, right, 0xF7] ++ rest) :
    b.process = Res.ok (Err.nil, { b with connection := { b.connection with incoming := rest } },
      [Event.RoverLineResponse ((right <<< 1) ||| left)]) := by
  have hq : ∀ x ∈ [left, right], x ≠ 0xF7 := by
    intro x hx
    simp at hx
    omega
  rw [process_sysex 0x55 0x01 [left, right] rest b hq hread (by simpa using hin)]
  have hv : (((right <<< 1) % 256) ||| left) % 256 = (right <<< 1) ||| left := by
    interval_cases left <;> interval_cases right <;> rfl
  simp [Board.sysex, idx, Res.bind, CapabilityResponse, AnalogMappingResponse, PinStateResponse,
    I2CReply, Sparky.FirmwareQuery, StringData, RoverSonar, RoverBuzzer, RoverMove, RoverLine,
    LineResp, hv]

/-- A poll on a connected rover whose board accepts writes returns, and its output
starts with the lines of the drained responses, in channel order. -/
theorem handlePoll_ok (now : Nat) (s : Server) (hc : s.connected = true)
    (hw : s.rover.board.connection.writeOk = true) :
    ∃ t post, HandlePoll none now s =
      Res.ok (t, (s.rover.respQueue.map respLine).flatten ++ post) := by
  have hb : s.rover.board.RoverHeartBeat.1 = Err.nil := by
    simp [Board.RoverHeartBeat, Board.writeSysex, Board.write, hw]
  have hheart : ∀ r : Rover, r.board = s.rover.board → ∃ r1, r.heartBeat = Res.ok r1 := by
    intro r hr
    unfold Rover.heartBeat
    rw [hr]
    cases hx : s.rover.board.RoverHeartBeat with
    | mk e b1 =>
      rw [hx] at hb
      simp only at hb
      subst hb
      exact ⟨_, rfl⟩
  obtain ⟨r1, hr1⟩ := hheart { s.rover with respQueue := [] } rfl
  unfold HandlePoll
  simp only [hc, if_true, Bool.true_eq_false, if_false, drain_out, List.nil_append, hr1, Res.bind]
  split
  · split
    · split
      · exact ⟨_, _, rfl⟩
      · exact ⟨_, _, rfl⟩
    · exact ⟨_, _, rfl⟩
  · split
    · exact ⟨_, [], by rw [List.append_nil]⟩
    · exact ⟨_, [], by rw [List.append_nil]⟩


/-- C10: for every left and right in 0..1, on a connected rover whose board reads and
writes, whose line-sensor queue holds a pending request and whose response channel
has room for two completions: `process` on the frame F0 55 01 left right F7 publishes
`(right << 1) | left` on `RoverLineResponse`; the receive step pushes two completions
with the id of the oldest pending request, LINE_LEFT with Result 1 - left and
LINE_RIGHT with Result 1 - right; and the next poll returns, writing after the lines
of the completions that were already waiting the lines `lineLeft <1-left>` and
`lineRight <1-right>`, in that order. -/
theorem C10_line_response_decoding (left right : Nat) (hl : left ≤ 1) (hr : right ≤ 1)
    (s : Server) (req : Work) (more : List Work) (rest : List Nat)
    (hc : s.connected = true)
    (hread : s.rover.board.connection.readOk = true)
    (hw : s.rover.board.connection.writeOk = true)
    (hin : s.rover.board.connection.incoming = [0xF0, 0x55, 0x01, left, right, 0xF7] ++ rest)
    (hq : s.rover.lineSensor.reqQueue = req :: more)
    (hroom : s.rover.respQueue.length + 2 ≤ 100) :
    ∃ b1 r1, s.rover.board.process =
        Res.ok (Err.nil, b1, [Event.RoverLineResponse ((right <<< 1) ||| left)]) ∧
      s.rover.receive = Res.ok r1 ∧
      r1.respQueue = s.rover.respQueue ++
        [⟨req.ID, LineLeftResp, 1 - (left : Int)⟩, ⟨req.ID, LineRightResp, 1 - (right : Int)⟩] ∧
      ∀ now, ∃ s2 post, HandlePoll none now { s with rover := r1 } =
        Res.ok (s2, (s.rover.respQueue.map respLine).flatten ++
          ["lineLeft " ++ Itoa (1 - (left : Int)), "lineRight " ++ Itoa (1 - (right : Int))] ++ post) := by
  have hproc := process_line_frame left right hl hr rest s.rover.board hread hin
  have hres : Int.ofNat ((255 - ((right <<< 1) ||| left) % 256) &&& 0x01) = 1 - (left : Int) ∧
      Int.ofNat ((255 - (((right <<< 1) ||| left) >>> 1) % 256) &&& 0x01) = 1 - (right : Int) := by
    interval_cases left <;> interval_cases right <;> exact ⟨rfl, rfl⟩
  have hrecv : s.rover.receive = Res.ok
      { s.rover with
        board := { s.rover.board with connection := { s.rover.board.connection with incoming := rest } },
        lineSensor := { s.rover.lineSensor with reqQueue := more },
        respQueue := s.rover.respQueue ++
          [⟨req.ID, LineLeftResp, 1 - (left : Int)⟩, ⟨req.ID, LineRightResp, 1 - (right : Int)⟩] } := by
    have h := processLineResponse_ok ((right <<< 1) ||| left)
      { s.rover with
        board := { s.rover.board with connection := { s.rover.board.connection with incoming := rest } } }
      req more hq hroom
    rw [hres.1, hres.2] at h
    rw [Rover.receive, hproc]
    simp only [Res.bind, Rover.deliverAll, Rover.deliver]
    rw [h]
  refine ⟨_, _, hproc, hrecv, rfl, fun now => ?_⟩
  obtain ⟨s2, post, hpoll⟩ := handlePoll_ok now
    { s with rover :=
      { s.rover with
        board := { s.rover.board with connection := { s.rover.board.connection with incoming := rest } },
        lineSensor := { s.rover.lineSensor with reqQueue := more },
        respQueue := s.rover.respQueue ++
          [⟨req.ID, LineLeftResp, 1 - (left : Int)⟩, ⟨req.ID, LineRightResp, 1 - (right : Int)⟩] } }
    hc hw
  refine ⟨s2, post, ?_⟩
  rw [hpoll]
  simp [respLine, LineLeftResp, LineRightResp, SonarRangeReq]


/-- C10, instance: the frame F0 55 01 01 00 F7 with request b pending; the poll writes
`lineLeft 0` then `lineRight 1`. -/
theorem C10_line_response_decoding_witness :
    ∃ b1 r1, sampleLinePending.rover.board.process =
        Res.ok (Err.nil, b1, [Event.RoverLineResponse 1]) ∧
      sampleLinePending.rover.receive = Res.ok r1 ∧
      r1.respQueue = [⟨"b", "LINE_LEFT", 0⟩, ⟨"b", "LINE_RIGHT", 1⟩] ∧
      ∀ now, ∃ s2 post, HandlePoll none now { sampleLinePending with rover := r1 } =
        Res.ok (s2, ["lineLeft 0", "lineRight 1"] ++ post) := by
  have h := C10_line_response_decoding 1 0 (by norm_num) (by norm_num) sampleLinePending
    ⟨"b", "LINE", 0⟩ [] [] rfl rfl rfl rfl rfl (by decide)
  have e1 : "lineLeft " ++ Itoa (1 - ((1 : Nat) : Int)) = "lineLeft 0" := by decide
  have e2 : "lineRight " ++ Itoa (1 - ((0 : Nat) : Int)) = "lineRight 1" := by decide
  rw [e1, e2] at h
  simpa [sampleLinePending, Server.connectedTo, Rover.create, LineLeftResp, LineRightResp] using h

/-! ## C11: handshake -/

/-- C11 (amended): when `Connect` is run on an unconnected board with a connection that reads
and writes and whose stream starts with the frame F9 02 05, it returns without error;
the session's ProtocolVersion is "2.5", the board is marked connected, the three bytes
are taken from the stream, and `Connect` has transmitted FF (reset) and F9 (protocol
version query) and nothing after receiving the frame: no FirmwareQuery is sent. -/
theorem C11_handshake_short_circuit (b : Board) (conn : Conn) (rest : List Nat)
    (hb : b.connected = false) (hw : conn.writeOk = true) (hr : conn.readOk = true)
    (hin : conn.incoming = [0xF9, 0x02, 0x05] ++ rest) :
    b.Connect conn = Res.ok (Err.nil,
      { b with
        ProtocolVersion := "2.5", connected := true,
        connection := { conn with incoming := rest, sent := conn.sent ++ [0xFF, 0xF9] } }) := by
  have hver : toString (2 : Nat) ++ "." ++ toString (5 : Nat) = "2.5" := by decide
  obtain ⟨inc, sent, wok, rok⟩ := conn
  simp only at hw hr hin
  subst hw hr hin
  rw [Board.Connect, if_neg (by simp [hb])]
  simp only [List.length_append, List.length_cons, List.length_nil, connectLoop, Handshake.start,
    InitFunc.run, Board.Reset, Board.ProtocolVersionQuery, Board.write, if_true]
  rw [process_eq_dispatch 0xF9 0x02 0x05 rest _ rfl rfl]
  simp [Board.dispatch, Sparky.ProtocolVersion, SystemReset, Res.bind, Handshake.deliverAll,
    Handshake.deliver, hver]

/-- C11 (amended), instance: a new board and the stream F9 02 05. -/
theorem C11_handshake_short_circuit_witness :
    (New Conn.idle).Connect { Conn.idle with incoming := [0xF9, 0x02, 0x05] ++ [] } =
      Res.ok (Err.nil,
        { New Conn.idle with
          ProtocolVersion := "2.5", connected := true,
          connection :=
            { ({ Conn.idle with incoming := [0xF9, 0x02, 0x05] ++ [] } : Conn) with
              incoming := [],
              sent := ({ Conn.idle with incoming := [0xF9, 0x02, 0x05] ++ [] } : Conn).sent ++ [0xFF, 0xF9] } }) :=
  C11_handshake_short_circuit (New Conn.idle) { Conn.idle with incoming := [0xF9, 0x02, 0x05] ++ [] } []
    rfl rfl rfl rfl

/-- C11 as stated fails on a new board and the stream F9 02 05: `Connect` returns with
ProtocolVersion "2.5" having transmitted FF F9 only; the bytes F0 79 F7 of
`FirmwareQuery` are not sent, and the first transmission that follows in `Setup`,
`Light("red")`, sends F0 52 7F 01 00 00 00 00 F7. -/
theorem C11_counterexample :
    ((New Conn.idle).Connect { Conn.idle with incoming := [0xF9, 0x02, 0x05] }).bind
        (fun r => Res.ok (r.1, r.2.ProtocolVersion, r.2.connected, r.2.connection.sent))
      = Res.ok (Err.nil, "2.5", true, [0xFF, 0xF9]) ∧
    ((New Conn.idle).FirmwareQuery).2.connection.sent = [0xF0, 0x79, 0xF7] ∧
    ((New Conn.idle).Connect { Conn.idle with incoming := [0xF9, 0x02, 0x05] }).bind
        (fun r => (Rover.LightColor (varsOfColor "red") (Rover.create r.2 [])).bind
          (fun x => Res.ok x.2.board.connection.sent))
      = Res.ok [0xFF, 0xF9, 0xF0, 0x52, 0x7F, 0x01, 0x00, 0x00, 0x00, 0x00, 0xF7] := by
  decide

/-! ## C12: transmit failure -/

/-- C12 at failing inputs: on a rover whose board refuses the write, `readLineSensors("x")`
and `PlayTone("x", 440, 1000)` return an error with the descriptor left in the
adapter queue and no completion pushed, while `ReadRange`, `Sonar.Turn`, `Wheels.Turn`,
`ReverseTurn`, `Step` and `WheelStep` return an error, push one completion with the id
and leave their queues unchanged. -/
theorem C12_enqueue_before_transmit :
    LineSensor.readLineSensors "x" sampleDown =
      Res.ok (Err.fail, { sampleDown with lineSensor := { reqQueue := [⟨"x", "LINE", 0⟩] } }) ∧
    Buzzer.PlayTone "x" 440 1000 sampleDown =
      Res.ok (Err.fail, { sampleDown with buzzer := { reqQueue := [⟨"x", "PLAY", 0⟩] } }) ∧
    Sonar.ReadRange "x" sampleDown =
      Res.ok (Err.fail, { sampleDown with respQueue := [⟨"x", "RANGE", 9999⟩] }) ∧
    Sonar.Turn "x" "left" 30 sampleDown =
      Res.ok (Err.fail, { sampleDown with respQueue := [⟨"x", "TURN", 0⟩] }) ∧
    Wheels.Turn "x" "left" 30 6 sampleDown =
      Res.ok (Err.fail, { sampleDown with respQueue := [⟨"x", "TURN", 0⟩] }) ∧
    Wheels.ReverseTurn "x" "left" 30 6 sampleDown =
      Res.ok (Err.fail, { sampleDown with respQueue := [⟨"x", "TURN", 0⟩] }) ∧
    Wheels.Step "x" "forward" 3 sampleDown =
      Res.ok (Err.fail, { sampleDown with respQueue := [⟨"x", "STEP", 0⟩] }) ∧
    Wheels.WheelStep "x" "left" "forward" 3 sampleDown =
      Res.ok (Err.fail, { sampleDown with respQueue := [⟨"x", "STEP", 0⟩] }) := by
  decide

/-! ## C13: outcome of `Sonar.ReadRange` -/

/-- C13: for every id, if the board accepts the write (and the range queue is not full)
`ReadRange` returns no error, transmits F0 50 00 F7, appends the descriptor
(id, RANGE, 9999) to the tail of the range queue and leaves the response channel
unchanged; if the board refuses the write (and the response channel is not full)
`ReadRange` returns an error, leaves the range queue unchanged and pushes exactly the
completion (id, RANGE, 9999) to the response channel. -/
theorem C13_read_range_outcome (id : String) (r : Rover) :
    (r.board.connection.writeOk = true → r.sonar.rangeReqQueue.length < 100 →
      Sonar.ReadRange id r = Res.ok (Err.nil,
        { r with
          board := (r.board.RoverSonarRead).2,
          sonar := { r.sonar with rangeReqQueue := r.sonar.rangeReqQueue ++ [⟨id, SonarRangeReq, 9999⟩] } }) ∧
      (r.board.RoverSonarRead).2.connection.sent = r.board.connection.sent ++ [0xF0, 0x50, 0x00, 0xF7]) ∧
    (r.board.connection.writeOk = false → r.respQueue.length < 100 →
      Sonar.ReadRange id r = Res.ok (Err.fail,
        { r with respQueue := r.respQueue ++ [⟨id, SonarRangeReq, 9999⟩] })) := by
  constructor
  · intro hw hroom
    constructor
    · simp [Sonar.ReadRange, Board.RoverSonarRead, writeSysex_ok _ _ hw, send_ok _ _ hroom, Res.bind,
        MAX_DISTANCE]
    · simp [Board.RoverSonarRead, writeSysex_ok _ _ hw, StartSysex, EndSysex, RoverSonar, SonarRead]
  · intro hw hroom
    simp [Sonar.ReadRange, Board.RoverSonarRead, Board.writeSysex, Board.write, hw,
      send_ok _ _ hroom, Res.bind, MAX_DISTANCE]

/-- C13, instances: success on a freshly created rover, failure on one whose board
refuses the write. -/
theorem C13_read_range_outcome_witness :
    Sonar.ReadRange "abc" (Rover.create (New Conn.idle) []) = Res.ok (Err.nil,
        { Rover.create (New Conn.idle) [] with
          board := ((Rover.create (New Conn.idle) []).board.RoverSonarRead).2,
          sonar :=
            { (Rover.create (New Conn.idle) []).sonar with
              rangeReqQueue :=
                (Rover.create (New Conn.idle) []).sonar.rangeReqQueue ++ [⟨"abc", SonarRangeReq, 9999⟩] } }) ∧
    Sonar.ReadRange "abc" sampleDown = Res.ok (Err.fail,
        { sampleDown with respQueue := sampleDown.respQueue ++ [⟨"abc", SonarRangeReq, 9999⟩] }) :=
  ⟨((C13_read_range_outcome "abc" (Rover.create (New Conn.idle) [])).1 rfl (by decide)).1,
   (C13_read_range_outcome "abc" sampleDown).2 rfl (by decide)⟩

/-! ## C14: buzzer dispatch -/

/-- C14 at a failing input: `PlayTone("x", 440, -1000)` enqueues nothing and transmits the
PlayFor frame F0 53 02 38 01 18 78 F7, where the claim has a Play frame F0 53 00 ...:
`PlayTone` enqueues when `delay > 0` while `RoverPlayTone` sends Play only when
`delay == 0`.  For delay 1000 one descriptor is enqueued and PlayFor is sent; for
delay 0 nothing is enqueued and Play is sent. -/
theorem C14_play_for_without_descriptor :
    (Buzzer.PlayTone "x" 440 (-1000) (Rover.create (New Conn.idle) [])).bind
        (fun r => Res.ok (r.1, r.2.buzzer.reqQueue, r.2.board.connection.sent))
      = Res.ok (Err.nil, [], [0xF0, 0x53, 0x02, 0x38, 0x01, 0x18, 0x78, 0xF7]) ∧
    (Buzzer.PlayTone "x" 440 1000 (Rover.create (New Conn.idle) [])).bind
        (fun r => Res.ok (r.1, r.2.buzzer.reqQueue, r.2.board.connection.sent))
      = Res.ok (Err.nil, [⟨"x", "PLAY", 0⟩], [0xF0, 0x53, 0x02, 0x38, 0x01, 0x68, 0x07, 0xF7]) ∧
    (Buzzer.PlayTone "x" 440 0 (Rover.create (New Conn.idle) [])).bind
        (fun r => Res.ok (r.1, r.2.buzzer.reqQueue, r.2.board.connection.sent))
      = Res.ok (Err.nil, [], [0xF0, 0x53, 0x00, 0x38, 0x01, 0xF7]) := by
  decide

/-! ## C15: buzzer frame encoding -/

/-- C15 at a failing input: `PlayTone("x", 440, 1000)` transmits F0 53 02 38 01 68 07 F7; the
delay bytes reassemble to 1000, but the frequency bytes reassemble to 184, which is
`byte(440)`: the frequency is converted to a byte before it is split.  With delay 0
the frame is F0 53 00 38 01 F7, again with frequency 184. -/
theorem C15_frequency_truncated :
    (Buzzer.PlayTone "x" 440 1000 (Rover.create (New Conn.idle) [])).bind
        (fun r => Res.ok r.2.board.connection.sent)
      = Res.ok [0xF0, 0x53, 0x02, 0x38, 0x01, 0x68, 0x07, 0xF7] ∧
    ((0x38 ||| (0x01 <<< 7) : Nat) = 184) ∧ ((0x68 ||| (0x07 <<< 7) : Nat) = 1000) ∧
    byte 440 = 184 ∧
    (Buzzer.PlayTone "x" 440 0 (Rover.create (New Conn.idle) [])).bind
        (fun r => Res.ok r.2.board.connection.sent)
      = Res.ok [0xF0, 0x53, 0x00, 0x38, 0x01, 0xF7] := by
  decide

/-! ## C16: unknown colour -/

/-- C16 at a failing input: for the colour "purple" no case of the switch matches, the slice
`values` stays empty, and `LightColor` panics on `values[0]` without transmitting,
where `LightOff` transmits F0 52 00 00 00 00 00 00 F7. -/
theorem C16_unknown_colour_panics :
    Rover.LightColor (varsOfColor "purple") (Rover.create (New Conn.idle) []) = Res.fault ∧
    colorValues "purple" = [] ∧
    (Rover.LightOff (varsOfColor "") (Rover.create (New Conn.idle) [])).bind
        (fun r => Res.ok r.2.board.connection.sent)
      = Res.ok [0xF0, 0x52, 0x00, 0x00, 0x00, 0x00, 0x00, 0x00, 0xF7] := by
  decide

/-! ## C17: heartbeat cadence -/

theorem pendingText_eq_empty_iff (keys : List String) : pendingText keys = "" ↔ keys = [] := by
  constructor
  · intro h
    cases keys with
    | nil => rfl
    | cons k ks => exact absurd h (pendingText_ne_empty (k :: ks) k (List.mem_cons_self _ _))
  · intro h
    subst h
    rfl

theorem heartBeat_ok (r : Rover) (hw : r.board.connection.writeOk = true) :
    r.heartBeat = Res.ok { r with
      board := { r.board with
        connection := { r.board.connection with sent := r.board.connection.sent ++ heartBeatFrame } } } := by
  simp [Rover.heartBeat, Board.RoverHeartBeat, Board.writeSysex, Board.write, hw, heartBeatFrame,
    StartSysex, EndSysex, Sparky.RoverHeartBeat]

/-- What a poll does on a connected rover whose board accepts writes. -/
theorem handlePoll_spec (setup : Option Rover) (now : Nat) (s : Server) (S : List String)
    (hc : s.connected = true) (hw : s.rover.board.connection.writeOk = true)
    (hS : S = (drain s.rover.respQueue s.pendingReqs []).1) :
    HandlePoll setup now s = Res.ok
      ({ rover :=
           { s.rover with
             respQueue := [],
             board :=
               if (S ≠ [] ∧ now - s.lastPendingTime ≥ 5000 ∧ now - s.lastCmdTime ≥ 1000) ∨
                  (S = [] ∧ now - s.lastCmdTime ≥ 1000) then
                 { s.rover.board with
                   connection := { s.rover.board.connection with
                     sent := s.rover.board.connection.sent ++ heartBeatFrame } }
               else s.rover.board },
         connected := true,
         pendingReqs := S,
         lastCmdTime :=
           if (S ≠ [] ∧ now - s.lastPendingTime ≥ 5000 ∧ now - s.lastCmdTime ≥ 1000) ∨
              (S = [] ∧ now - s.lastCmdTime ≥ 1000) then now else s.lastCmdTime,
         lastPendingTime := if S = [] then now else s.lastPendingTime },
       (s.rover.respQueue.map respLine).flatten ++
         (if S = [] then [] else ["_busy " ++ pendingText S])) := by
  have hhb := heartBeat_ok { s.rover with respQueue := [] } hw
  unfold HandlePoll
  simp only [hc, if_true, Bool.true_eq_false, if_false, drain_out, List.nil_append, hhb, Res.bind,
    ← hS, ne_eq, pendingText_eq_empty_iff]
  by_cases hSe : S = []
  · by_cases h1 : now - s.lastCmdTime ≥ 1000
    · simp [hSe, h1]
    · simp [hSe, h1]
  · by_cases h5 : now - s.lastPendingTime ≥ 5000
    · by_cases h1 : now - s.lastCmdTime ≥ 1000
      · simp [hSe, h1, h5]
      · simp [hSe, h1, h5]
    · simp [hSe, h5]


/-- C17 (amended): in a poll at time `now` on a connected rover whose board accepts writes,
with S the outstanding set after the drain, the poll returns; a heartbeat frame is
transmitted if and only if either (S is non-empty and now - last_pending_time >= 5 s
and now - last_command_time >= 1 s) or (S is empty and now - last_command_time >= 1 s);
last_command_time becomes now when a heartbeat is sent and is unchanged otherwise;
last_pending_time becomes now whenever S is empty, with or without a heartbeat, and
is unchanged when S is non-empty. -/
theorem C17_heartbeat_cadence (now : Nat) (s : Server) (S : List String)
    (hc : s.connected = true) (hw : s.rover.board.connection.writeOk = true)
    (hS : S = (drain s.rover.respQueue s.pendingReqs []).1) :
    ∃ t out, HandlePoll none now s = Res.ok (t, out) ∧ t.pendingReqs = S ∧
      (t.rover.board.connection.sent =
        if (S ≠ [] ∧ now - s.lastPendingTime ≥ 5000 ∧ now - s.lastCmdTime ≥ 1000) ∨
           (S = [] ∧ now - s.lastCmdTime ≥ 1000)
        then s.rover.board.connection.sent ++ heartBeatFrame
        else s.rover.board.connection.sent) ∧
      (t.lastCmdTime =
        if (S ≠ [] ∧ now - s.lastPendingTime ≥ 5000 ∧ now - s.lastCmdTime ≥ 1000) ∨
           (S = [] ∧ now - s.lastCmdTime ≥ 1000)
        then now else s.lastCmdTime) ∧
      (t.lastPendingTime = if S = [] then now else s.lastPendingTime) := by
  refine ⟨_, _, handlePoll_spec none now s S hc hw hS, rfl, ?_, rfl, rfl⟩
  simp only
  split <;> rfl

/-- C17 (amended), instance: nothing outstanding, last command at 100, poll at 200. -/
theorem C17_heartbeat_cadence_witness :
    ∃ t out, HandlePoll none 200 sampleIdle = Res.ok (t, out) ∧ t.pendingReqs = [] ∧
      (t.rover.board.connection.sent =
        if (([] : List String) ≠ [] ∧ 200 - sampleIdle.lastPendingTime ≥ 5000 ∧
              200 - sampleIdle.lastCmdTime ≥ 1000) ∨
           (([] : List String) = [] ∧ 200 - sampleIdle.lastCmdTime ≥ 1000)
        then sampleIdle.rover.board.connection.sent ++ heartBeatFrame
        else sampleIdle.rover.board.connection.sent) ∧
      (t.lastCmdTime =
        if (([] : List String) ≠ [] ∧ 200 - sampleIdle.lastPendingTime ≥ 5000 ∧
              200 - sampleIdle.lastCmdTime ≥ 1000) ∨
           (([] : List String) = [] ∧ 200 - sampleIdle.lastCmdTime ≥ 1000)
        then 200 else sampleIdle.lastCmdTime) ∧
      (t.lastPendingTime = if ([] : List String) = [] then 200 else sampleIdle.lastPendingTime) :=
  C17_heartbeat_cadence 200 sampleIdle [] rfl rfl rfl

/-- C17 as stated fails for a poll at time 200 with nothing outstanding and the last
command at time 100: no heartbeat is due (the second case needs a full second), yet
last_pending_time goes from 0 to 200. -/
theorem C17_counterexample :
    sampleIdle.lastPendingTime = 0 ∧ sampleIdle.lastCmdTime = 100 ∧
    HandlePoll none 200 sampleIdle = Res.ok ({ sampleIdle with lastPendingTime := 200 }, []) := by
  decide

/-! ## C18: command handler outcome -/

/-- C18: for every handler, variable map and time, on a rover that is not connected
`invokeHaandler` writes `_problem Roverduino is not connected` and leaves the whole
state unchanged, whatever the handler would do (it is not invoked); on a connected
rover, if the handler returns an error it writes `_problem Could not execute command`
and the outstanding set is unchanged; if it succeeds with a non-empty id the
outstanding set becomes the old set plus that id and last_pending_time becomes now;
if it succeeds with an empty id the outstanding set and last_pending_time are
unchanged. -/
theorem C18_command_handler_outcome (handler : Vars → Rover → Res (Err × Rover)) (vars : Vars)
    (now : Nat) (s : Server) :
    (s.connected = false →
      invokeHaandler handler vars now s =
        Res.ok (Err.fail, s, ["_problem Roverduino is not connected"])) ∧
    (s.connected = true → ∀ rv : Rover,
      (handler vars s.rover = Res.ok (Err.fail, rv) →
        invokeHaandler handler vars now s =
          Res.ok (Err.fail, { s with lastCmdTime := now, rover := rv },
            ["_problem Could not execute command"])) ∧
      (handler vars s.rover = Res.ok (Err.nil, rv) → vars "id" ≠ "" →
        invokeHaandler handler vars now s =
          Res.ok (Err.nil,
            { s with lastCmdTime := now, rover := rv,
                     pendingReqs := mapInsert s.pendingReqs (vars "id"), lastPendingTime := now },
            []) ∧
        ∀ k, k ∈ mapInsert s.pendingReqs (vars "id") ↔ k ∈ s.pendingReqs ∨ k = vars "id") ∧
      (handler vars s.rover = Res.ok (Err.nil, rv) → vars "id" = "" →
        invokeHaandler handler vars now s =
          Res.ok (Err.nil, { s with lastCmdTime := now, rover := rv }, []))) := by
  refine ⟨fun hc => ?_, fun hc rv => ⟨fun hh => ?_, fun hh hid => ⟨?_, fun k => mem_mapInsert _ _ k⟩,
    fun hh hid => ?_⟩⟩
  · simp [invokeHaandler, hc]
  · simp [invokeHaandler, hc, hh, Res.bind]
  · simp [invokeHaandler, hc, hh, Res.bind, hid]
  · simp [invokeHaandler, hc, hh, Res.bind, hid]

/-- C18, instance: `/readSonar/abc` at time 10 on a fresh connected server. -/
theorem C18_command_handler_outcome_witness :
    invokeHaandler Rover.ReadSonar (varsOfId "abc") 10 sampleStart =
      Res.ok (Err.nil,
        { sampleStart with
          lastCmdTime := 10, rover := sampleAfterReadSonar.rover,
          pendingReqs := mapInsert sampleStart.pendingReqs (varsOfId "abc" "id"),
          lastPendingTime := 10 }, []) :=
  (((C18_command_handler_outcome Rover.ReadSonar (varsOfId "abc") 10 sampleStart).2 rfl
    sampleAfterReadSonar.rover).2.1 (by decide) (by decide)).1

/-! ## C19: poll drain output -/

/-- C19 (amended): a poll on a connected rover whose board accepts writes returns, empties
the response channel, and leaves as outstanding set S exactly the old ids that no
drained completion carries; it writes, in channel order, one line for each drained
completion of type RANGE, LINE_LEFT or LINE_RIGHT and no line for a completion of
any other type; after these it writes a `_busy` line if and only if S is non-empty,
and that line is `_busy ` followed by, for each id of S, one space and the id. -/
theorem C19_poll_drain_output (now : Nat) (s : Server) (S : List String)
    (hc : s.connected = true) (hw : s.rover.board.connection.writeOk = true)
    (hS : S = (drain s.rover.respQueue s.pendingReqs []).1) :
    (∃ t, HandlePoll none now s =
        Res.ok (t, (s.rover.respQueue.map respLine).flatten ++
          (if S = [] then [] else ["_busy " ++ pendingText S])) ∧
      t.pendingReqs = S ∧ t.rover.respQueue = []) ∧
    (∀ k, k ∈ S ↔ k ∈ s.pendingReqs ∧ ∀ resp ∈ s.rover.respQueue, resp.ID ≠ k) ∧
    (∀ resp : Work,
      respLine resp =
        if resp.reqType = "RANGE" then ["sonarRange " ++ Itoa resp.Result]
        else if resp.reqType = "LINE_LEFT" then ["lineLeft " ++ Itoa resp.Result]
        else if resp.reqType = "LINE_RIGHT" then ["lineRight " ++ Itoa resp.Result]
        else []) ∧
    (pendingText [] = "" ∧ ∀ k ks, pendingText (k :: ks) = " " ++ k ++ pendingText ks) := by
  refine ⟨⟨_, handlePoll_spec none now s S hc hw hS, rfl, rfl⟩, fun k => ?_, fun resp => rfl,
    rfl, pendingText_cons⟩
  rw [hS]
  exact mem_drain _ _ _ k

/-- C19 (amended), instance: the completion of turn request t waiting, ids t and a
outstanding. -/
theorem C19_poll_drain_output_witness :
    (∃ t, HandlePoll none 5 sampleTurnDone =
        Res.ok (t, (sampleTurnDone.rover.respQueue.map respLine).flatten ++
          (if ["a"] = [] then [] else ["_busy " ++ pendingText ["a"]])) ∧
      t.pendingReqs = ["a"] ∧ t.rover.respQueue = []) ∧
    (∀ k, k ∈ ["a"] ↔
      k ∈ sampleTurnDone.pendingReqs ∧ ∀ resp ∈ sampleTurnDone.rover.respQueue, resp.ID ≠ k) ∧
    (∀ resp : Work,
      respLine resp =
        if resp.reqType = "RANGE" then ["sonarRange " ++ Itoa resp.Result]
        else if resp.reqType = "LINE_LEFT" then ["lineLeft " ++ Itoa resp.Result]
        else if resp.reqType = "LINE_RIGHT" then ["lineRight " ++ Itoa resp.Result]
        else []) ∧
    (pendingText [] = "" ∧ ∀ k ks, pendingText (k :: ks) = " " ++ k ++ pendingText ks) :=
  C19_poll_drain_output 5 sampleTurnDone ["a"] rfl rfl (by decide)

/-- C19 as stated fails when the completion of a turn request is drained: the poll
writes no line for it (one drained completion, zero lines), and the `_busy` line it
writes for the remaining id a is `_busy  a`, with two spaces. -/
theorem C19_counterexample :
    sampleTurnDone.rover.respQueue = [⟨"t", "TURN", 0⟩] ∧
    (HandlePoll none 5 sampleTurnDone).bind (fun r => Res.ok (r.1.pendingReqs, r.2))
      = Res.ok (["a"], ["_busy  a"]) ∧
    "_busy  a" ≠ "_busy a" := by
  decide

/-! ## C20: capability response decoding -/

/-- C20 at failing inputs: the well-formed two-pin frame F0 6C 00 01 7F 01 01 7F F7 leaves the
pin table empty, the one-pin frame F0 6C 00 01 7F F7 makes `process` panic on the
slice `currentBuffer[2:len-5]`, and the six-pin frame
F0 6C 00 01 7F 01 01 7F 7F 7F 7F 7F F7 yields two pins: the slice stops four bytes
before the F7. -/
theorem C20_capability_slice_too_short :
    (New { Conn.idle with
        incoming := [0xF0, 0x6C, 0x00, 0x01, 0x7F, 0x01, 0x01, 0x7F, 0xF7] }).process
      = Res.ok (Err.nil, New Conn.idle, [Event.CapabilityQuery]) ∧
    (New { Conn.idle with incoming := [0xF0, 0x6C, 0x00, 0x01, 0x7F, 0xF7] }).process = Res.fault ∧
    (New { Conn.idle with
        incoming := [0xF0, 0x6C, 0x00, 0x01, 0x7F, 0x01, 0x01, 0x7F, 0x7F, 0x7F, 0x7F, 0x7F, 0xF7] }).process
      = Res.ok (Err.nil,
          { New Conn.idle with
            pins := [{ Pin.zero with SupportedModes := [0], Mode := 1 },
                     { Pin.zero with SupportedModes := [1], Mode := 1 }] },
          [Event.CapabilityQuery]) := by
  decide

/-! ## C21: analog mapping decoding -/

/-- C21 at failing inputs: on a one-pin table the frame F0 6A 05 F7 makes `process`
panic on the slice `currentBuffer[2 : len(b.pins)-1]`, and on a four-pin table the
frame F0 6A 05 06 7F 07 F7 sets the analog channel of pin 0 only and leaves
`analogPins` as [0]: the channels of pins 1 and 3 are never stored and pins 1 and 3
are missing from the list. -/
theorem C21_analog_mapping_slice_too_short :
    (boardWith [Pin.zero] [0xF0, 0x6A, 0x05, 0xF7]).process = Res.fault ∧
    (boardWith (List.replicate 4 Pin.zero) [0xF0, 0x6A, 0x05, 0x06, 0x7F, 0x07, 0xF7]).process =
      Res.ok (Err.nil,
        { boardWith ({ Pin.zero with AnalogChannel := 5 } :: List.replicate 3 Pin.zero) [] with
          analogPins := [0] },
        [Event.AnalogMappingQuery]) := by
  decide

/-! ## C22: pin state decoding -/

theorem or_shift7 (s0 s1 : Nat) (h0 : s0 < 128) : s0 ||| (s1 <<< 7) = s0 + s1 * 2 ^ 7 := by
  have h := Nat.mul_add_lt_is_or (i := 7) (b := s0) (by simpa using h0) s1
  rw [Nat.shiftLeft_eq, Nat.lor_comm, Nat.mul_comm s1 (2 ^ 7), ← h]
  omega

theorem or_shift14 (t s2 : Nat) (h0 : t < 16384) : t ||| (s2 <<< 14) = t + s2 * 2 ^ 14 := by
  have h := Nat.mul_add_lt_is_or (i := 14) (b := t) (by simpa using h0) s2
  rw [Nat.shiftLeft_eq, Nat.lor_comm, Nat.mul_comm s2 (2 ^ 14), ← h]
  omega

/-- The state that the `PinStateResponse` case stores for the state bytes of a frame. -/
theorem sysex_pin_state (b : Board) (p mode : Nat) (states : List Nat) (pn : Pin)
    (hp : b.pins[p]? = some pn)
    (hlen : 1 ≤ states.length ∧ states.length ≤ 3)
    (h7 : ∀ s ∈ states, s < 128) :
    Board.sysex (0xF0 :: 0x6E :: p :: ((mode :: states) ++ [0xF7])) b =
      Res.ok ({ b with pins := b.pins.set p { pn with Mode := Int.ofNat mode, State := Int.ofNat (states.getD 0 0 + states.getD 1 0 * 2 ^ 7 + states.getD 2 0 * 2 ^ 14) } },
        [Event.PinState p { pn with Mode := Int.ofNat mode, State := Int.ofNat (states.getD 0 0 + states.getD 1 0 * 2 ^ 7 + states.getD 2 0 * 2 ^ 14) }]) := by
  match states, hlen, h7 with
  | [s0], _, _ =>
    have h : Board.sysex (0xF0 :: 0x6E :: p :: ((mode :: [s0]) ++ [0xF7])) b =
        (match b.pins[p]? with
         | none => Res.fault
         | some pn => Res.ok ({ b with pins := b.pins.set p { pn with Mode := Int.ofNat mode, State := Int.ofNat s0 } },
            [Event.PinState p { pn with Mode := Int.ofNat mode, State := Int.ofNat s0 }])) := rfl
    rw [h, hp]
    simp [List.getD]
  | [s0, s1], _, h7 =>
    have h0 : s0 < 128 := h7 s0 (by simp)
    have h : Board.sysex (0xF0 :: 0x6E :: p :: ((mode :: [s0, s1]) ++ [0xF7])) b =
        (match b.pins[p]? with
         | none => Res.fault
         | some pn => Res.ok ({ b with pins := b.pins.set p { pn with Mode := Int.ofNat mode, State := Int.ofNat (s0 ||| (s1 <<< 7)) } },
            [Event.PinState p { pn with Mode := Int.ofNat mode, State := Int.ofNat (s0 ||| (s1 <<< 7)) }])) := rfl
    rw [h, hp, or_shift7 s0 s1 h0]
    simp [List.getD]
  | [s0, s1, s2], _, h7 =>
    have h0 : s0 < 128 := h7 s0 (by simp)
    have h1 : s1 < 128 := h7 s1 (by simp)
    have ht : s0 + s1 * 2 ^ 7 < 16384 := by omega
    have h : Board.sysex (0xF0 :: 0x6E :: p :: ((mode :: [s0, s1, s2]) ++ [0xF7])) b =
        (match b.pins[p]? with
         | none => Res.fault
         | some pn => Res.ok ({ b with pins := b.pins.set p { pn with Mode := Int.ofNat mode, State := Int.ofNat ((s0 ||| (s1 <<< 7)) ||| (s2 <<< 14)) } },
            [Event.PinState p { pn with Mode := Int.ofNat mode, State := Int.ofNat ((s0 ||| (s1 <<< 7)) ||| (s2 <<< 14)) }])) := rfl
    rw [h, hp, or_shift7 s0 s1 h0, or_shift14 _ s2 ht]
    simp [List.getD]
  | [], h, _ => simp at h
  | _ :: _ :: _ :: _ :: _, h, _ => simp at h

/-- C22 (amended): for a pin index p with an entry in the pin table, a mode byte other
than F7 and one, two or three seven-bit state bytes, processing the frame
F0 6E p mode s0 [s1] [s2] F7 returns without error, sets Mode of pin p to mode and its
State to s0 + s1 * 2^7 + s2 * 2^14 (absent bytes counted as 0), and leaves every
other pin and the other fields of pin p unchanged. -/
theorem C22_pin_state_decoding (b : Board) (p mode : Nat) (states rest : List Nat) (pn : Pin)
    (hread : b.connection.readOk = true)
    (hp : b.pins[p]? = some pn)
    (hmode : mode ≠ 0xF7)
    (hlen : 1 ≤ states.length ∧ states.length ≤ 3)
    (h7 : ∀ s ∈ states, s < 128)
    (hin : b.connection.incoming = 0xF0 :: 0x6E :: p :: ((mode :: states) ++ 0xF7 :: rest)) :
    b.process =
      Res.ok (Err.nil,
        { b with
          connection := { b.connection with incoming := rest },
          pins := b.pins.set p { pn with Mode := Int.ofNat mode, State := Int.ofNat (states.getD 0 0 + states.getD 1 0 * 2 ^ 7 + states.getD 2 0 * 2 ^ 14) } },
        [Event.PinState p { pn with Mode := Int.ofNat mode, State := Int.ofNat (states.getD 0 0 + states.getD 1 0 * 2 ^ 7 + states.getD 2 0 * 2 ^ 14) }]) := by
  have hq : ∀ x ∈ mode :: states, x ≠ 0xF7 := by
    intro x hx
    rcases List.mem_cons.1 hx with h | h
    · rw [h]; exact hmode
    · have := h7 x h
      omega
  rw [process_sysex 0x6E p (mode :: states) rest b hq hread hin]
  rw [sysex_pin_state { b with connection := { b.connection with incoming := rest } } p mode states pn hp hlen h7]
  rfl

/-- C22 (amended), instance: on the table [Pin.zero, Pin.output] the frame
F0 6E 01 01 05 03 02 F7 stores mode 1 and state 5 + 3 * 2^7 + 2 * 2^14 in pin 1 and
leaves the byte 09 that follows in the stream. -/
theorem C22_pin_state_decoding_witness :
    (boardWith [Pin.zero, Pin.output] [0xF0, 0x6E, 0x01, 0x01, 0x05, 0x03, 0x02, 0xF7, 0x09]).process =
      Res.ok (Err.nil,
        { boardWith [Pin.zero, Pin.output] [0xF0, 0x6E, 0x01, 0x01, 0x05, 0x03, 0x02, 0xF7, 0x09] with
          connection := { (boardWith [Pin.zero, Pin.output] [0xF0, 0x6E, 0x01, 0x01, 0x05, 0x03, 0x02, 0xF7, 0x09]).connection with incoming := [0x09] },
          pins := (boardWith [Pin.zero, Pin.output] [0xF0, 0x6E, 0x01, 0x01, 0x05, 0x03, 0x02, 0xF7, 0x09]).pins.set 1 { Pin.output with Mode := Int.ofNat 1, State := Int.ofNat ([5, 3, 2].getD 0 0 + [5, 3, 2].getD 1 0 * 2 ^ 7 + [5, 3, 2].getD 2 0 * 2 ^ 14) } },
        [Event.PinState 1 { Pin.output with Mode := Int.ofNat 1, State := Int.ofNat ([5, 3, 2].getD 0 0 + [5, 3, 2].getD 1 0 * 2 ^ 7 + [5, 3, 2].getD 2 0 * 2 ^ 14) }]) :=
  C22_pin_state_decoding (boardWith [Pin.zero, Pin.output] [0xF0, 0x6E, 0x01, 0x01, 0x05, 0x03, 0x02, 0xF7, 0x09])
    1 1 [5, 3, 2] [0x09] Pin.output (by decide) (by decide) (by decide) (by decide) (by decide) (by decide)

/-- C22 as stated fails for the mode byte F7: on a two-pin table the frame
F0 6E 00 F7 05 F7 ends at its fourth byte, and `process` panics when it reads the
state byte at index 4. -/
theorem C22_counterexample :
    (boardWith (List.replicate 2 Pin.zero) [0xF0, 0x6E, 0x00, 0xF7, 0x05, 0xF7]).process =
      Res.fault := by
  decide

/-! ## C23: I2C reply decoding -/

/-- C23 at failing inputs: the frame F0 77 01 00 02 00 F7 with no data pair makes
`process` panic at `currentBuffer[7]`, and the frame F0 77 00 02 00 03 05 00 F7
(address 2 << 7 = 256, register 3 << 7 = 384) is published with Address 0 and
Register 128: both are computed in byte arithmetic, so nothing above 255 is
represented. -/
theorem C23_i2c_reply_truncated :
    (boardWith [] [0xF0, 0x77, 0x01, 0x00, 0x02, 0x00, 0xF7]).process = Res.fault ∧
    (boardWith [] [0xF0, 0x77, 0x00, 0x02, 0x00, 0x03, 0x05, 0x00, 0xF7]).process =
      Res.ok (Err.nil, boardWith [] [],
        [Event.I2cReply { Address := 0, Register := 128, Data := [5] }]) := by
  decide

/-! ## C24: digital port update -/

theorem and7_of_lt (i : Nat) (h : i < 8) : i &&& 0x07 = i := by
  interval_cases i <;> rfl

/-- The pin table after the loop of the digital-message case: the pins of the port
that exist and have Mode Input receive their bit, nothing else changes. -/
theorem digitalLoop_pins (port pv : Nat) (hport : port ≤ 15) :
    ∀ (is : List Nat) (pins : List Pin) (evs : List Event), (∀ i ∈ is, i < 8) →
      ∀ j, (digitalLoop port pv is pins evs).1[j]? =
        (pins[j]?).map fun p =>
          if (8 * port ≤ j ∧ j - 8 * port ∈ is) ∧ p.Mode = Input then
            { p with Value := Int.ofNat ((pv >>> (j - 8 * port)) &&& 1) }
          else p := by
  intro is
  induction is with
  | nil =>
    intro pins evs _ j
    simp [digitalLoop]
  | cons i rest ih =>
    intro pins evs his j
    have hi : i < 8 := his i (List.mem_cons_self _ _)
    have hrest : ∀ x ∈ rest, x < 8 := fun x hx => his x (List.mem_cons_of_mem _ hx)
    have hk : (8 * port + i) % 256 = 8 * port + i := Nat.mod_eq_of_lt (by omega)
    have hand : i &&& 0x07 = i := and7_of_lt i hi
    simp only [digitalLoop, hk, hand]
    cases hpk : pins[8 * port + i]? with
    | none =>
      simp only []
      rw [ih pins evs hrest j]
      cases hj : pins[j]? with
      | none => rfl
      | some p =>
        have hne : j ≠ 8 * port + i := by
          intro h
          rw [h, hpk] at hj
          exact Option.noConfusion hj
        have hiff : (8 * port ≤ j ∧ j - 8 * port ∈ i :: rest) ↔ (8 * port ≤ j ∧ j - 8 * port ∈ rest) := by
          constructor
          · rintro ⟨h1, h2⟩
            rcases List.mem_cons.1 h2 with h | h
            · exact absurd (by omega) hne
            · exact ⟨h1, h⟩
          · rintro ⟨h1, h2⟩
            exact ⟨h1, List.mem_cons_of_mem _ h2⟩
        simp only [Option.map_some', hiff]
    | some pk =>
      simp only []
      by_cases hmode : pk.Mode = Input
      · rw [if_pos hmode, ih _ _ hrest j]
        by_cases hjk : j = 8 * port + i
        · subst hjk
          have hlt : 8 * port + i < pins.length := by
            rcases List.getElem?_eq_some.1 hpk with ⟨h, _⟩
            exact h
          have hsub : 8 * port + i - 8 * port = i := by omega
          rw [List.getElem?_set_self hlt, hpk]
          simp only [Option.map_some', hsub, hmode, and_true, List.mem_cons, true_or, le_add_iff_nonneg_right,
            zero_le, if_true]
          split <;> rfl
        · have hne : 8 * port + i ≠ j := fun h => hjk h.symm
          rw [List.getElem?_set_ne hne]
          have hiff : (8 * port ≤ j ∧ j - 8 * port ∈ i :: rest) ↔ (8 * port ≤ j ∧ j - 8 * port ∈ rest) := by
            constructor
            · rintro ⟨h1, h2⟩
              rcases List.mem_cons.1 h2 with h | h
              · exact absurd (by omega) hjk
              · exact ⟨h1, h⟩
            · rintro ⟨h1, h2⟩
              exact ⟨h1, List.mem_cons_of_mem _ h2⟩
          simp only [hiff]
      · rw [if_neg hmode, ih _ _ hrest j]
        cases hj : pins[j]? with
        | none => rfl
        | some p =>
          by_cases hjk : j = 8 * port + i
          · subst hjk
            rw [hpk] at hj
            have hpe : pk = p := Option.some.inj hj
            subst hpe
            simp only [Option.map_some', hmode, and_false, if_false]
          · have hiff : (8 * port ≤ j ∧ j - 8 * port ∈ i :: rest) ↔ (8 * port ≤ j ∧ j - 8 * port ∈ rest) := by
              constructor
              · rintro ⟨h1, h2⟩
                rcases List.mem_cons.1 h2 with h | h
                · exact absurd (by omega) hjk
                · exact ⟨h1, h⟩
              · rintro ⟨h1, h2⟩
                exact ⟨h1, List.mem_cons_of_mem _ h2⟩
            simp only [Option.map_some', hiff]

theorem mask_mod (lsb msb : Nat) :
    (lsb ||| ((msb <<< 7) % 256)) % 256 = (lsb ||| (msb <<< 7)) % 256 := by
  apply Nat.eq_of_testBit_eq
  intro i
  have e : (256 : Nat) = 2 ^ 8 := by norm_num
  rw [e]
  simp only [Nat.testBit_mod_two_pow, Nat.testBit_or]
  cases decide (i < 8) <;> simp

theorem port_of_digital (port : Nat) (hport : port ≤ 15) : (0x90 + port) &&& 0x0F = port := by
  interval_cases port <;> rfl

theorem mem_bits (n : Nat) : n ∈ [0, 1, 2, 3, 4, 5, 6, 7] ↔ n < 8 := by
  constructor
  · intro h
    simp at h
    omega
  · intro h
    interval_cases n <;> simp

/-- C24: for every pin table, port in 0..15 and bytes lsb, msb, processing the frame
90+port lsb msb returns without error and sets, for each pin of the port
(port*8 .. port*8+7) that exists and has Mode Input, its Value to the bit of the mask
(lsb | msb << 7) mod 256 at the pin's position in the port; every other pin and every
other field stays as it was. -/
theorem C24_digital_port_update (b : Board) (port lsb msb : Nat) (rest : List Nat)
    (hport : port ≤ 15)
    (hread : b.connection.readOk = true)
    (hin : b.connection.incoming = (0x90 + port) :: lsb :: msb :: rest) :
    ∃ b1 evs, b.process = Res.ok (Err.nil, b1, evs) ∧
      ∀ j, b1.pins[j]? =
        (b.pins[j]?).map fun p =>
          if (8 * port ≤ j ∧ j < 8 * port + 8) ∧ p.Mode = Input then
            { p with Value := Int.ofNat ((((lsb ||| (msb <<< 7)) % 256) >>> (j - 8 * port)) &&& 1) }
          else p := by
  rw [process_eq_dispatch _ _ _ _ b hread hin]
  have e1 : ¬ (0xF9 = 0x90 + port) := by omega
  have e2 : ¬ (0xE0 ≤ 0x90 + port ∧ 0xEF ≥ 0x90 + port) := by omega
  have e3 : 0x90 ≤ 0x90 + port ∧ 0x9F ≥ 0x90 + port := by omega
  simp only [Board.dispatch, Sparky.ProtocolVersion, AnalogMessageRangeStart, AnalogMessageRangeEnd,
    DigitalMessageRangeStart, DigitalMessageRangeEnd, if_neg e1, if_neg e2, if_pos e3,
    port_of_digital port hport, mask_mod]
  refine ⟨_, _, rfl, ?_⟩
  intro j
  have h := digitalLoop_pins port ((lsb ||| (msb <<< 7)) % 256) hport [0, 1, 2, 3, 4, 5, 6, 7]
    b.pins [] (fun i hi => (mem_bits i).1 hi) j
  rw [h]
  have hiff : (8 * port ≤ j ∧ j - 8 * port ∈ [0, 1, 2, 3, 4, 5, 6, 7]) ↔
      (8 * port ≤ j ∧ j < 8 * port + 8) := by
    rw [mem_bits]
    omega
  simp only [hiff]

/-- C24, instance: the frame 90 05 00 on the table [Pin.zero, Pin.output, Pin.zero]. -/
theorem C24_digital_port_update_witness :
    ∃ b1 evs, (boardWith [Pin.zero, Pin.output, Pin.zero] [0x90, 0x05, 0x00]).process =
        Res.ok (Err.nil, b1, evs) ∧
      ∀ j, b1.pins[j]? =
        ((boardWith [Pin.zero, Pin.output, Pin.zero] [0x90, 0x05, 0x00]).pins[j]?).map fun p =>
          if (8 * 0 ≤ j ∧ j < 8 * 0 + 8) ∧ p.Mode = Input then
            { p with Value := Int.ofNat ((((0x05 ||| (0x00 <<< 7)) % 256) >>> (j - 8 * 0)) &&& 1) }
          else p :=
  C24_digital_port_update (boardWith [Pin.zero, Pin.output, Pin.zero] [0x90, 0x05, 0x00]) 0 0x05 0x00 []
    (by decide) (by decide) (by decide)

/-! ## C25: unrecognised first byte -/

/-- C25 (amended): for every three-byte read whose first byte is not F9, not F0, not
in 90..9F and not in E0..EF (every byte below 0x80 and a lone F7 among them), the
receive step returns no error: it consumes the three bytes, publishes no event and
leaves the rest of the board as it was. -/
theorem C25_unknown_first_byte_dropped (b : Board) (m d1 d2 : Nat) (rest : List Nat)
    (hread : b.connection.readOk = true)
    (hin : b.connection.incoming = m :: d1 :: d2 :: rest)
    (hm : m ≠ 0xF9 ∧ m ≠ 0xF0 ∧ ¬ (0x90 ≤ m ∧ m ≤ 0x9F) ∧ ¬ (0xE0 ≤ m ∧ m ≤ 0xEF)) :
    b.process =
      Res.ok (Err.nil, { b with connection := { b.connection with incoming := rest } }, []) := by
  obtain ⟨h1, h2, h3, h4⟩ := hm
  rw [process_eq_dispatch m d1 d2 rest b hread hin]
  have e1 : ¬ (0xF9 = m) := fun h => h1 h.symm
  have e2 : ¬ (0xF0 = m) := fun h => h2 h.symm
  have e3 : ¬ (0x90 ≤ m ∧ 0x9F ≥ m) := h3
  have e4 : ¬ (0xE0 ≤ m ∧ 0xEF ≥ m) := h4
  simp only [Board.dispatch, Sparky.ProtocolVersion, AnalogMessageRangeStart, AnalogMessageRangeEnd,
    DigitalMessageRangeStart, DigitalMessageRangeEnd, StartSysex, if_neg e1, if_neg e2, if_neg e3,
    if_neg e4]

/-- C25 (amended), instance: the bytes F7 01 02 are consumed without error and 03
stays in the stream. -/
theorem C25_unknown_first_byte_dropped_witness :
    (boardWith [] [0xF7, 0x01, 0x02, 0x03]).process =
      Res.ok (Err.nil,
        { boardWith [] [0xF7, 0x01, 0x02, 0x03] with
          connection := { (boardWith [] [0xF7, 0x01, 0x02, 0x03]).connection with incoming := [0x03] } },
        []) :=
  C25_unknown_first_byte_dropped (boardWith [] [0xF7, 0x01, 0x02, 0x03]) 0xF7 0x01 0x02 [0x03]
    (by decide) (by decide) (by decide)

/-- C25 as stated fails: for the reads F7 00 00 (a lone F7) and 05 00 00 (a byte below
0x80) the receive step returns nil. -/
theorem C25_counterexample :
    (boardWith [] [0xF7, 0x00, 0x00]).process = Res.ok (Err.nil, boardWith [] [], []) ∧
    (boardWith [] [0x05, 0x00, 0x00]).process = Res.ok (Err.nil, boardWith [] [], []) := by
  decide

/-! ## C26: pin mode after `SetPinMode` -/

/-- C26 (amended): for every pin table, every pin index below its length and below
256 and every integer mode, `SetPinMode(pin, mode)` returns and stores mode as the
Mode of that pin, whatever the mode is, and changes nothing else in the pin table. -/
theorem C26_set_pin_mode_stores_mode (b : Board) (pin mode : Int) (p : Pin)
    (h0 : 0 ≤ pin) (h256 : pin < 256) (hp : b.pins[pin.toNat]? = some p) :
    ∃ e b1, b.SetPinMode pin mode = Res.ok (e, b1) ∧
      b1.pins = b.pins.set pin.toNat { p with Mode := mode } := by
  have hb : byte pin = pin.toNat := by
    unfold byte
    rw [Int.emod_eq_of_lt h0 h256]
  unfold Board.SetPinMode
  rw [hb, hp]
  simp only [Board.write]
  cases b.connection.writeOk
  · exact ⟨_, _, rfl, rfl⟩
  · exact ⟨_, _, rfl, rfl⟩

/-- C26 (amended), instance: `SetPinMode(2, 7)` on eight pins without supported
modes. -/
theorem C26_set_pin_mode_stores_mode_witness :
    ∃ e b1, sampleBoard8.SetPinMode 2 7 = Res.ok (e, b1) ∧
      b1.pins = sampleBoard8.pins.set (2 : Int).toNat { Pin.zero with Mode := 7 } :=
  C26_set_pin_mode_stores_mode sampleBoard8 2 7 Pin.zero (by decide) (by decide) (by decide)

set_option maxRecDepth 8000 in
/-- C26 as stated fails: on eight pins whose SupportedModes are empty,
`SetPinMode(2, -1)` stores the negative mode -1 and `SetPinMode(2, 1)` stores mode 1,
a member of no list; on 257 pins `SetPinMode(256, 1)` leaves pin 256 as it was and
sets the mode of pin 0, because the index is `byte(pin)`. -/
theorem C26_counterexample :
    (sampleBoard8.SetPinMode 2 (-1)).bind (fun r => Res.ok (r.2.pins[2]?)) =
      Res.ok (some { Pin.zero with Mode := -1 }) ∧
    (sampleBoard8.SetPinMode 2 1).bind (fun r => Res.ok (r.2.pins[2]?)) =
      Res.ok (some { SupportedModes := [], Mode := 1, Value := 0, State := 0, AnalogChannel := 0 }) ∧
    ((boardWith (List.replicate 257 Pin.zero) []).SetPinMode 256 1).bind
        (fun r => Res.ok (r.2.pins[256]?, r.2.pins[0]?)) =
      Res.ok (some Pin.zero, some Pin.output) := by
  refine ⟨by decide, by decide, ?_⟩
  have hb : byte 256 = 0 := by decide
  simp [Board.SetPinMode, hb, boardWith, New, Res.bind, Board.write, Conn.idle, Pin.output,
    List.getElem?_replicate]

/-! ## C27: seven-bit data bytes -/

theorem transmitted_writeSysex (data : List Nat) (b : Board) (hw : b.connection.writeOk = true) :
    transmitted b (b.writeSysex data) = 0xF0 :: (data ++ [0xF7]) := by
  rw [writeSysex_ok data b hw]
  simp [transmitted, StartSysex, EndSysex]

theorem sevenBitFrame_sysex (data : List Nat) (h : ∀ x ∈ data, x < 0x80) :
    sevenBitFrame (0xF0 :: (data ++ [0xF7])) = true := by
  simp only [sevenBitFrame, List.getLast?_append, List.dropLast_concat]
  simpa using h

theorem low7_lt (x : Int) : low7 x < 0x80 := by
  unfold low7
  omega

theorem high7_lt (x : Int) : high7 x < 0x80 := by
  unfold high7
  omega

theorem and7F_lt (x : Nat) : x &&& 0x7F < 0x80 := by
  have h := Nat.and_pow_two_sub_one_eq_mod x 7
  simp at h
  rw [h]
  omega

theorem i2cWriteLoop_lt (data ret : List Nat) (h : ∀ x ∈ ret, x < 0x80) :
    ∀ x ∈ i2cWriteLoop data ret, x < 0x80 := by
  induction data generalizing ret with
  | nil => simpa [i2cWriteLoop] using h
  | cons val rest ih =>
    simp only [i2cWriteLoop]
    apply ih
    intro x hx
    rcases List.mem_append.1 hx with hx | hx
    · exact h x hx
    · simp only [List.mem_cons, List.mem_singleton, List.not_mem_nil, or_false] at hx
      rcases hx with hx | hx
      · rw [hx]; exact and7F_lt _
      · rw [hx]; exact and7F_lt _

/-- C27 (amended): for every sysex-emitting operation of the board and all argument
values such that the bytes which the operation copies whole into its frame are below
0x80 (byte(pin) of ServoConfig and PinStateQuery, byte(address) of I2cRead and
I2cWrite, the two delay bytes of I2cConfig, dir of RoverSonarTurn, RoverRun and
RoverStep, side, dir and angle of RoverTurn, which and dir of RoverWheelStep; none
for RoverLight, RoverPlayTone, RoverHeartBeat and RoverReadLineSensors), the frame
handed to a connection that accepts writes starts with F0, ends with F7 and has
only bytes below 0x80 in between. -/
theorem C27_seven_bit_frames (c : SysexCall) (b : Board)
    (hw : b.connection.writeOk = true)
    (hwhole : ∀ x ∈ c.wholeBytes, x < 0x80) :
    sevenBitFrame (transmitted b (c.run b)) = true := by
  cases c with
  | ServoConfig pin max min =>
    have hp := hwhole (byte pin) (by simp [SysexCall.wholeBytes])
    simp only [SysexCall.run, Board.ServoConfig, transmitted_writeSysex _ b hw]
    apply sevenBitFrame_sysex
    have := low7_lt max; have := high7_lt max; have := low7_lt min; have := high7_lt min
    simp [Sparky.ServoConfig, *]
  | PinStateQuery pin =>
    have hp := hwhole (byte pin) (by simp [SysexCall.wholeBytes])
    simp only [SysexCall.run, Board.PinStateQuery, transmitted_writeSysex _ b hw]
    apply sevenBitFrame_sysex
    simp [Sparky.PinStateQuery, *]
  | I2cRead address numBytes =>
    have hp := hwhole (byte address) (by simp [SysexCall.wholeBytes])
    simp only [SysexCall.run, Board.I2cRead, transmitted_writeSysex _ b hw]
    apply sevenBitFrame_sysex
    have := and7F_lt (byte numBytes); have := and7F_lt (byte numBytes >>> 7)
    simp [I2CRequest, I2CModeRead, *]
  | I2cWrite address data =>
    have hp := hwhole (byte address) (by simp [SysexCall.wholeBytes])
    simp only [SysexCall.run, Board.I2cWrite, transmitted_writeSysex _ b hw]
    apply sevenBitFrame_sysex
    apply i2cWriteLoop_lt
    simp [I2CRequest, I2CModeWrite, *]
  | I2cConfig delay =>
    have h1 := hwhole (byte delay) (by simp [SysexCall.wholeBytes])
    have h2 := hwhole (byte (delay / 256)) (by simp [SysexCall.wholeBytes])
    simp only [SysexCall.run, Board.I2cConfig, transmitted_writeSysex _ b hw]
    apply sevenBitFrame_sysex
    simp [I2CConfig, *]
  | RoverSonarTurn dir angle =>
    have h1 := hwhole dir (by simp [SysexCall.wholeBytes])
    simp only [SysexCall.run, Board.RoverSonarTurn, transmitted_writeSysex _ b hw]
    apply sevenBitFrame_sysex
    have := low7_lt angle; have := high7_lt angle
    simp [RoverSonar, SonarTurn, *]
  | RoverRun dir leftSpeed rightSpeed =>
    have h1 := hwhole dir (by simp [SysexCall.wholeBytes])
    have := and7F_lt leftSpeed; have := and7F_lt (leftSpeed >>> 7)
    have := and7F_lt rightSpeed; have := and7F_lt (rightSpeed >>> 7)
    simp only [SysexCall.run, Board.RoverRun]
    split
    · rw [transmitted_writeSysex _ b hw]
      apply sevenBitFrame_sysex
      simp [RoverMove, MoveRun, *]
    · rw [transmitted_writeSysex _ b hw]
      apply sevenBitFrame_sysex
      simp [RoverMove, MoveRun, *]
  | RoverTurn side dir angle steps =>
    have h1 := hwhole side (by simp [SysexCall.wholeBytes])
    have h2 := hwhole dir (by simp [SysexCall.wholeBytes])
    have h3 := hwhole angle (by simp [SysexCall.wholeBytes])
    simp only [SysexCall.run, Board.RoverTurn, transmitted_writeSysex _ b hw]
    apply sevenBitFrame_sysex
    have := low7_lt steps; have := high7_lt steps
    simp [RoverMove, MoveTurn, *]
  | RoverStep dir steps =>
    have h1 := hwhole dir (by simp [SysexCall.wholeBytes])
    simp only [SysexCall.run, Board.RoverStep, transmitted_writeSysex _ b hw]
    apply sevenBitFrame_sysex
    have := low7_lt steps; have := high7_lt steps
    simp [RoverMove, MoveStep, MoveStepBoth, *]
  | RoverWheelStep which dir steps =>
    have h1 := hwhole which (by simp [SysexCall.wholeBytes])
    have h2 := hwhole dir (by simp [SysexCall.wholeBytes])
    simp only [SysexCall.run, Board.RoverWheelStep, transmitted_writeSysex _ b hw]
    apply sevenBitFrame_sysex
    have := low7_lt steps; have := high7_lt steps
    simp [RoverMove, MoveStep, *]
  | RoverLight red green blue =>
    simp only [SysexCall.run, Board.RoverLight, transmitted_writeSysex _ b hw]
    apply sevenBitFrame_sysex
    have := and7F_lt red; have := and7F_lt (red >>> 7)
    have := and7F_lt green; have := and7F_lt (green >>> 7)
    have := and7F_lt blue; have := and7F_lt (blue >>> 7)
    simp [RoverLED, *]
  | RoverPlayTone freq delay =>
    have := and7F_lt freq; have := and7F_lt (freq >>> 7)
    have := low7_lt delay; have := high7_lt delay
    simp only [SysexCall.run, Board.RoverPlayTone]
    split
    · rw [transmitted_writeSysex _ b hw]
      apply sevenBitFrame_sysex
      simp [RoverBuzzer, BuzzerPlay, *]
    · rw [transmitted_writeSysex _ b hw]
      apply sevenBitFrame_sysex
      simp [RoverBuzzer, BuzzerPlayFor, *]
  | RoverHeartBeat =>
    simp only [SysexCall.run, Board.RoverHeartBeat, transmitted_writeSysex _ b hw]
    apply sevenBitFrame_sysex
    simp [Sparky.RoverHeartBeat]
  | RoverReadLineSensors =>
    simp only [SysexCall.run, Board.RoverReadLineSensors, transmitted_writeSysex _ b hw]
    apply sevenBitFrame_sysex
    simp [RoverLine, LineReq]

/-- C27 (amended), instance: `RoverTurn(0, 1, 90, 540)`. -/
theorem C27_seven_bit_frames_witness :
    sevenBitFrame (transmitted (New Conn.idle)
      ((SysexCall.RoverTurn 0 1 90 540).run (New Conn.idle))) = true :=
  C27_seven_bit_frames (SysexCall.RoverTurn 0 1 90 540) (New Conn.idle) (by decide) (by decide)

/-- C27 as stated fails: `RoverTurn(0, 0, 247, 6)` transmits F0 51 03 00 00 F7 06 00 F7,
with the angle byte F7 inside the frame, `I2cConfig(200)` transmits F0 78 C8 00 F7 and
`I2cRead(200, 1)` transmits F0 76 C8 08 01 00 F7. -/
theorem C27_counterexample :
    transmitted (New Conn.idle) ((New Conn.idle).RoverTurn 0 0 247 6) =
      [0xF0, 0x51, 0x03, 0x00, 0x00, 0xF7, 0x06, 0x00, 0xF7] ∧
    transmitted (New Conn.idle) ((New Conn.idle).I2cConfig 200) = [0xF0, 0x78, 0xC8, 0x00, 0xF7] ∧
    transmitted (New Conn.idle) ((New Conn.idle).I2cRead 200 1) = [0xF0, 0x76, 0xC8, 0x08, 0x01, 0x00, 0xF7] ∧
    sevenBitFrame (transmitted (New Conn.idle) ((New Conn.idle).RoverTurn 0 0 247 6)) = false ∧
    sevenBitFrame (transmitted (New Conn.idle) ((New Conn.idle).I2cConfig 200)) = false ∧
    sevenBitFrame (transmitted (New Conn.idle) ((New Conn.idle).I2cRead 200 1)) = false := by
  decide

/-! ## C28: outstanding ids without a descriptor -/

/-- C28 at a failing input: on a connected rover `/playToneFor/x/440/0` at time 10
succeeds, transmits the Play frame F0 53 00 38 01 F7 and inserts x in the outstanding
set while every queue and the response channel stay empty, so x has no descriptor
or completion anywhere; `/centerSonar/c` on the same state leaves the descriptor of
c in the sonar turn queue and no such id. -/
theorem C28_play_for_zero_orphan_id :
    invokeHaandler Rover.PlayToneFor (varsOfTone "x" "440" "0") 10 sampleStart =
      Res.ok (Err.nil,
        { sampleStart with
          rover := Rover.create (New { Conn.idle with sent := [0xF0, 0x53, 0x00, 0x38, 0x01, 0xF7] }) [],
          pendingReqs := ["x"], lastCmdTime := 10, lastPendingTime := 10 }, []) ∧
    ((invokeHaandler Rover.PlayToneFor (varsOfTone "x" "440" "0") 10 sampleStart).bind
        fun r => Res.ok r.2.1.orphans) = Res.ok ["x"] ∧
    ((invokeHaandler Rover.CenterSonar (varsOfId "c") 10 sampleStart).bind
        fun r => Res.ok (r.1, r.2.1.pendingReqs, r.2.1.rover.held, r.2.1.orphans)) =
      Res.ok (Err.nil, ["c"], [⟨"c", "TURN", 0⟩], []) := by
  decide

/-! ## C29: `Wheels.WheelStep` with an unknown wheel -/

/-- C29 at a failing input: `WheelStep("x", "both", "forward", 3)` on a fresh rover
returns nil, transmits nothing (the bytes sent stay empty) and still appends the
descriptor of x to the step queue. -/
theorem C29_wheel_step_enqueues_untransmitted :
    Wheels.WheelStep "x" "both" "forward" 3 (Rover.create (New Conn.idle) []) =
      Res.ok (Err.nil,
        { Rover.create (New Conn.idle) [] with
          wheels := { turnReqQueue := [], stepReqQueue := [⟨"x", "STEP", 0⟩] } }) := by
  decide

/-! ## C30: `DigitalWrite` on a partial port -/

/-- C30 at a failing input: on a 20-pin table `DigitalWrite(16, 1)` panics, because
the loop over port 2 reads `b.pins[20]`; `DigitalWrite(15, 1)`, whose port 1 lies
inside the table, returns and transmits 91 00 01. -/
theorem C30_digital_write_partial_port :
    (boardWith (List.replicate 20 Pin.zero) []).DigitalWrite 16 1 = Res.fault ∧
    ((boardWith (List.replicate 20 Pin.zero) []).DigitalWrite 15 1).bind
        (fun r => Res.ok (r.1, r.2.connection.sent)) = Res.ok (Err.nil, [0x91, 0x00, 0x01]) := by
  decide

end Sparky
